import Mathlib

/-!
# fluke-199-lcd: capture pipeline, timing monitor and pixel transform

A shallow embedding of `lcd_framebuffer.c` (the triple-buffer, DMA-driven
capture pipeline), of `display_frame_check` in `lcd_converter.c` (the timing
integrity monitor), of the pixel transform of `lcd_st75320.c` and of the colour
conversion of `spi_lcd.c`, followed by the properties proved about them.

Conventions of the embedding.

* The file-scope `static` variables of `lcd_framebuffer.c` are the fields of
  `State`; every C function is a Lean function on `State` that returns the C
  return value (if any) together with the new state.
* Values the C code obtains from hardware (`time_us_64()`, the interrupt status
  bit, the channel number handed out by `dma_claim_unused_channel`) are explicit
  arguments.
* The three role variables are `uint8_t` in C; they are only ever assigned the
  constants 0, 1, 2, the loop variable `i` with `0 <= i < 3`, or each other, so
  they are given the type `Fin 3` and `frame_buffers[3]` is a function on
  `Fin 3`.
* Each function body is treated as atomic: the C code runs the role updates
  inside `critical_section_enter_blocking` / `critical_section_exit`.
-/

namespace FlukeLcd

/-! ## Frame geometry (`lcd_framebuffer.c`, lines 14-19) -/

def LCD_WIDTH : Nat := 240
def LCD_HEIGHT : Nat := 240
def LCD_BITS_PER_PIXEL : Nat := 1
def LCD_BYTES_PER_LINE : Nat := (LCD_WIDTH * LCD_BITS_PER_PIXEL + 7) / 8
def LCD_FRAME_SIZE : Nat := LCD_BYTES_PER_LINE * LCD_HEIGHT

/-- The value of `(uint)-1`, the initial content of `dma_channel`. -/
def UINT_MAX : Nat := 2 ^ 32 - 1

/-! ## Data model (`lcd_framebuffer.c`, lines 21-50 and 92-93) -/

/-- The struct `internal_framebuffer_t`: one frame slot. `data` holds the bytes
of the slot, `frame_id` is a `uint32_t`, `timestamp_us` a `uint64_t` and
`frame_to_dma_interval_us` an `int32_t`. -/
structure internal_framebuffer_t where
  data : List Nat
  ready : Bool
  capturing : Bool
  frame_id : Nat
  timestamp_us : Nat
  frame_to_dma_interval_us : Int
deriving DecidableEq

/-- The file-scope variables of `lcd_framebuffer.c`. -/
structure State where
  frame_buffers : Fin 3 → internal_framebuffer_t
  active_buffer : Fin 3
  display_buffer : Fin 3
  render_buffer : Fin 3
  dma_channel : Nat
  framebuffer_initialized : Bool
  pio_instance : Nat
  pio_sm : Nat
  auto_capture_enabled : Bool
  frame_counter : Nat
  frame_sync_errors : Nat
  frame_start_time : Nat
  last_dma_complete_time : Nat

/-- A slot with every byte and every field zero: what static zero
initialisation and `memset(frame_buffers, 0, sizeof(frame_buffers))` leave. -/
def zero_framebuffer : internal_framebuffer_t :=
  { data := List.replicate LCD_FRAME_SIZE 0
    ready := false
    capturing := false
    frame_id := 0
    timestamp_us := 0
    frame_to_dma_interval_us := 0 }

/-- The state the C initialisers give: `active_buffer = 0`, `display_buffer = 1`,
`render_buffer = 2`, `dma_channel = -1`, `pio_instance = NULL`, all flags false
and all counters zero. -/
def initial_state : State :=
  { frame_buffers := fun _ => zero_framebuffer
    active_buffer := 0
    display_buffer := 1
    render_buffer := 2
    dma_channel := UINT_MAX
    framebuffer_initialized := false
    pio_instance := 0
    pio_sm := 0
    auto_capture_enabled := false
    frame_counter := 0
    frame_sync_errors := 0
    frame_start_time := 0
    last_dma_complete_time := 0 }

/-! ## Operations of the capture pipeline -/

/-- The function `lcd_framebuffer_init` (lines 53-88). `claimed` is the value
returned by `dma_claim_unused_channel(true)`; it is stored in the unsigned
`dma_channel` and compared with `-1`. -/
def lcd_framebuffer_init (claimed : Int) (s : State) : Bool × State :=
  if s.framebuffer_initialized then (true, s)
  else
    let s1 := { s with frame_buffers := fun _ => zero_framebuffer }
    let s2 := { s1 with dma_channel := (claimed % 2 ^ 32).toNat }
    if s2.dma_channel = UINT_MAX then (false, s2)
    else (true, { s2 with framebuffer_initialized := true })

/-- The function `pio_irq_handler` (lines 95-100): the frame-sync interrupt
stamps the frame start time with `time_us_64()`. -/
def pio_irq_handler (now : Nat) (s : State) : State :=
  { s with frame_start_time := now % 2 ^ 64 }

/-- The cast `(int64_t)x` of a `uint64_t` value. -/
def to_int64 (x : Nat) : Int :=
  if x % 2 ^ 64 < 2 ^ 63 then ((x % 2 ^ 64 : Nat) : Int)
  else ((x % 2 ^ 64 : Nat) : Int) - 2 ^ 64

/-- A two's complement `int64_t` result: the value of `x` reduced into
`[-2^63, 2^63)`. -/
def wrap_int64 (x : Int) : Int :=
  (x + 2 ^ 63) % 2 ^ 64 - 2 ^ 63

/-- Lines 126-137 of `dma_capture_irq_handler`: the interval between the last
frame start and this completion, or 0 when no frame start is recorded or the
difference is outside `[0, 100000]`. -/
def frame_to_dma_interval (frame_start_time dma_complete_time : Nat) : Int :=
  if frame_start_time ≠ 0 then
    let interval := wrap_int64 (to_int64 dma_complete_time - to_int64 frame_start_time)
    if 0 ≤ interval ∧ interval ≤ 100000 then interval else 0
  else 0

/-- Lines 159-166 of `dma_capture_irq_handler`: the loop over `i = 0, 1, 2`
that assigns the first `i` different from `render_buffer` and from
`completed_buffer` to `active_buffer` and breaks; `active_buffer` keeps its
value if no `i` qualifies. -/
def next_active_buffer (render_buffer completed_buffer active_buffer : Fin 3) : Fin 3 :=
  match ([0, 1, 2] : List (Fin 3)).find?
      (fun i => decide (i ≠ render_buffer) && decide (i ≠ completed_buffer)) with
  | some i => i
  | none => active_buffer

/-- The function `dma_capture_irq_handler` (lines 115-179). `irq0_status` is
`dma_channel_get_irq0_status(dma_channel)`, `dma_complete_time` and `stamp_time`
are the two readings of `time_us_64()`. -/
def dma_capture_irq_handler (irq0_status : Bool) (dma_complete_time stamp_time : Nat)
    (s : State) : State :=
  if irq0_status then
    if !s.auto_capture_enabled then s
    else
      let interval := frame_to_dma_interval s.frame_start_time (dma_complete_time % 2 ^ 64)
      let frame_counter := (s.frame_counter + 1) % 2 ^ 32
      let fb1 := Function.update s.frame_buffers s.active_buffer
        { s.frame_buffers s.active_buffer with
          capturing := false
          ready := true
          frame_id := frame_counter
          timestamp_us := stamp_time % 2 ^ 64
          frame_to_dma_interval_us := interval }
      let completed_buffer := s.active_buffer
      let active_buffer := next_active_buffer s.render_buffer completed_buffer s.active_buffer
      let fb2 := Function.update fb1 active_buffer
        { fb1 active_buffer with capturing := true, ready := false }
      { s with
        frame_buffers := fb2
        frame_counter := frame_counter
        active_buffer := active_buffer
        display_buffer := completed_buffer }
  else s

/-- The function `lcd_framebuffer_init_auto_capture` (lines 182-220). `pio` and
`sm` are the arguments, `now` is the reading of `time_us_64()`. -/
def lcd_framebuffer_init_auto_capture (pio sm now : Nat) (s : State) : Bool × State :=
  if !s.framebuffer_initialized || s.auto_capture_enabled then (false, s)
  else
    let fb := Function.update s.frame_buffers s.active_buffer
      { s.frame_buffers s.active_buffer with
        capturing := true
        ready := false
        timestamp_us := now % 2 ^ 64 }
    (true, { s with
      pio_instance := pio
      pio_sm := sm
      frame_buffers := fb
      auto_capture_enabled := true })

/-- The function `lcd_framebuffer_start_auto_capture` (lines 223-236): it only
starts the DMA channel and the PIO state machine, no variable changes. -/
def lcd_framebuffer_start_auto_capture (s : State) : Bool × State :=
  if !s.auto_capture_enabled then (false, s) else (true, s)

/-- The function `lcd_framebuffer_stop_auto_capture` (lines 238-252). -/
def lcd_framebuffer_stop_auto_capture (s : State) : Bool × State :=
  if !s.auto_capture_enabled then (false, s)
  else
    let fb := Function.update s.frame_buffers s.active_buffer
      { s.frame_buffers s.active_buffer with capturing := false }
    (true, { s with frame_buffers := fb, auto_capture_enabled := false })

/-- The function `lcd_framebuffer_is_auto_capturing` (lines 254-257);
`dma_busy` is `dma_channel_is_busy(dma_channel)`. -/
def lcd_framebuffer_is_auto_capturing (dma_busy : Bool) (s : State) : Bool :=
  s.auto_capture_enabled && dma_busy

/-- The function `lcd_framebuffer_get_frame_count` (line 259). -/
def lcd_framebuffer_get_frame_count (s : State) : Nat :=
  s.frame_counter

/-- The function `lcd_framebuffer_prepare_display_frame` (lines 262-288):
`true` is success, `false` is "no new frame". -/
def lcd_framebuffer_prepare_display_frame (s : State) : Bool × State :=
  if !s.framebuffer_initialized then (false, s)
  else if !(s.frame_buffers s.display_buffer).ready then (false, s)
  else (true, { s with render_buffer := s.display_buffer })

/-- The function `lcd_framebuffer_is_render_ready` (lines 294-297). -/
def lcd_framebuffer_is_render_ready (s : State) : Bool :=
  s.framebuffer_initialized && (s.frame_buffers s.render_buffer).ready

/-- The function `lcd_framebuffer_get_render_data` (lines 299-309): `none` is
the `NULL` pointer, `some bytes` is the content the returned pointer
`frame_buffers[render_buffer].data` designates. -/
def lcd_framebuffer_get_render_data (s : State) : Option (List Nat) :=
  if !s.framebuffer_initialized then none
  else if !(s.frame_buffers s.render_buffer).ready then none
  else some (s.frame_buffers s.render_buffer).data

/-- The function `lcd_framebuffer_get_frame_to_dma_interval` (lines 312-322). -/
def lcd_framebuffer_get_frame_to_dma_interval (s : State) : Int :=
  if !s.framebuffer_initialized then 0
  else if !(s.frame_buffers s.render_buffer).ready then 0
  else (s.frame_buffers s.render_buffer).frame_to_dma_interval_us

/-- The function `lcd_framebuffer_reset_capture_system` (lines 325-403): the
loop of step 6 clears the three slots, step 7 restores the roles, step 9 marks
slot `active_buffer` as capturing and step 14 clears the two timestamps. -/
def lcd_framebuffer_reset_capture_system (s : State) : Bool × State :=
  if !s.framebuffer_initialized || !s.auto_capture_enabled then (false, s)
  else
    let fb1 : Fin 3 → internal_framebuffer_t := fun i =>
      { s.frame_buffers i with
        capturing := false
        ready := false
        frame_to_dma_interval_us := 0 }
    let active_buffer : Fin 3 := 0
    let fb2 := Function.update fb1 active_buffer
      { fb1 active_buffer with capturing := true, ready := false }
    (true, { s with
      frame_buffers := fb2
      active_buffer := active_buffer
      display_buffer := 1
      render_buffer := 2
      frame_start_time := 0
      last_dma_complete_time := 0 })

/-! ## Environment and executions of the pipeline -/

/-- Environment model of the transfer engine: it stores captured bytes at its
write address. The code points the write address at
`frame_buffers[active_buffer].data` each time it configures the channel
(lines 174, 207 and 374), so the bytes land in the active slot. -/
def dma_transfer_write (bytes : List Nat) (s : State) : State :=
  { s with
    frame_buffers := Function.update s.frame_buffers s.active_buffer
      { s.frame_buffers s.active_buffer with data := bytes } }

/-- The events that act on the pipeline: the API calls, the two interrupt
handlers and the memory writes of the transfer engine, with the hardware
readings each one consumes. -/
inductive Event where
  | init (claimed : Int)
  | init_auto_capture (pio sm now : Nat)
  | start_auto_capture
  | stop_auto_capture
  | frame_sync (now : Nat)
  | dma_write (bytes : List Nat)
  | dma_irq (irq0_status : Bool) (dma_complete_time stamp_time : Nat)
  | prepare_display_frame
  | reset_capture_system

/-- The state after one event; return values are dropped. -/
def step (e : Event) (s : State) : State :=
  match e with
  | .init claimed => (lcd_framebuffer_init claimed s).2
  | .init_auto_capture pio sm now => (lcd_framebuffer_init_auto_capture pio sm now s).2
  | .start_auto_capture => (lcd_framebuffer_start_auto_capture s).2
  | .stop_auto_capture => (lcd_framebuffer_stop_auto_capture s).2
  | .frame_sync now => pio_irq_handler now s
  | .dma_write bytes => dma_transfer_write bytes s
  | .dma_irq st t1 t2 => dma_capture_irq_handler st t1 t2 s
  | .prepare_display_frame => (lcd_framebuffer_prepare_display_frame s).2
  | .reset_capture_system => (lcd_framebuffer_reset_capture_system s).2

/-- The state after a sequence of events, the first element first. -/
def run : List Event → State → State
  | [], s => s
  | e :: es, s => run es (step e s)

/-- The events of a first capture: initialise, configure and start capture, then
one completed transfer. -/
def first_frame_events : List Event :=
  [.init 0, .init_auto_capture 0 0 0, .start_auto_capture, .dma_irq true 0 0]

/-- The events that configure capture and stop it again. -/
def stopped_events : List Event :=
  [.init 0, .init_auto_capture 0 0 0, .start_auto_capture, .stop_auto_capture]

/-- The facts that hold along every execution: the write slot is neither the
render slot nor the display slot, auto-capture implies initialisation, and a
slot is capturing exactly when capture is enabled and it is the active slot. -/
def PipelineInv (s : State) : Prop :=
  s.active_buffer ≠ s.render_buffer ∧
  s.active_buffer ≠ s.display_buffer ∧
  (s.auto_capture_enabled = true → s.framebuffer_initialized = true) ∧
  (∀ i, (s.frame_buffers i).capturing = (s.auto_capture_enabled && decide (i = s.active_buffer)))

/-! ## Timing integrity monitor (`display_frame_check`, `lcd_converter.c` lines 133-173) -/

/-- The two function-scope `static` variables of `display_frame_check`:
`last_status_time` is a `uint32_t`, `error_count` a `uint8_t`. -/
structure MonitorState where
  last_status_time : Nat
  error_count : Nat
deriving DecidableEq

def TARGET_MIN : Nat := 13799
def TARGET_MAX : Nat := 13810

/-- The conversion of an `int32_t` operand to `uint32_t`, which C applies to
`frame_to_dma_interval` when comparing it with the `uint32_t` constants. -/
def to_uint32 (x : Int) : Nat := (x % 2 ^ 32).toNat

/-- The condition of line 150:
`frame_to_dma_interval < TARGET_MIN || frame_to_dma_interval > TARGET_MAX`. -/
def timing_anomalous (frame_to_dma_interval : Int) : Bool :=
  decide (to_uint32 frame_to_dma_interval < TARGET_MIN) ||
    decide (to_uint32 frame_to_dma_interval > TARGET_MAX)

/-- Lines 145-171: the treatment of one sample. The result is the new
`error_count` and whether `lcd_framebuffer_reset_capture_system()` was called. -/
def frame_check_sample (frame_to_dma_interval : Int) (error_count : Nat) : Nat × Bool :=
  if timing_anomalous frame_to_dma_interval then
    let error_count := (error_count + 1) % 256
    if error_count ≥ 3 then (0, true) else (error_count, false)
  else
    if error_count > 0 then (0, false) else (error_count, false)

/-- The function `display_frame_check` (lines 133-173). `t1` and `t2` are the
two readings of `time_us_32()`. The result is the new monitor state, the new
pipeline state and whether the recovery procedure was called. -/
def display_frame_check (t1 t2 : Nat) (m : MonitorState) (s : State) :
    MonitorState × State × Bool :=
  if m.last_status_time ≤ t1 % 2 ^ 32 then
    let last_status_time := (t2 % 2 ^ 32 + 1000 * 100) % 2 ^ 32
    let r := frame_check_sample (lcd_framebuffer_get_frame_to_dma_interval s) m.error_count
    ({ last_status_time := last_status_time, error_count := r.1 },
      (if r.2 then (lcd_framebuffer_reset_capture_system s).2 else s), r.2)
  else (m, s, false)

/-- Feeding the monitor a sequence of samples, starting with the given
`error_count`: the final `error_count` and, per sample, whether the recovery
procedure was called. -/
def feed_samples : List Int → Nat → Nat × List Bool
  | [], error_count => (error_count, [])
  | x :: xs, error_count =>
    let r := frame_check_sample x error_count
    let rest := feed_samples xs r.1
    (rest.1, r.2 :: rest.2)

/-! ## Pixel transform engine (`lcd_st75320.c`)

The output framebuffer `framebuffer[FB_SIZE]` is a function from the byte index
to the byte. Destination pixel `(X, Y)` is bit `Y % 8` of byte
`(Y / 8) * FB_COLS + X` (see `set_target_pixel`, lines 311-328). The source is
the 7,200-byte capture buffer: source pixel `(x, y)` is bit `x % 8` of byte
`30 * y + x / 8`. The file is compiled with `ENABLE_LCD_SCALING` equal to 1, so
the scaling branches are the ones embedded. -/

def FB_PAGES : Nat := 30
def FB_COLS : Nat := 320
def FB_SIZE : Nat := FB_PAGES * FB_COLS

/-- The lookup tables of `lcd_st75320.c` (lines 34-49). Every entry fits its C
type: the largest values are 319 (`uint16_t`), 9280 (`uint16_t`) and 128
(`uint8_t`). -/
structure ScaleTables where
  scale_map_240_to_320 : List Nat
  x_scale_map : List Nat
  scale_fill_map : List Bool
  y_to_page : List Nat
  y_to_bit_mask : List Nat
  y_to_fb_offset : List Nat
  horizontal_320_map : List Nat
  horizontal_320_fill : List Nat
  scale_map_initialized : Bool

/-- The tables before `init_scale_mapping` has run: static storage, all zero. -/
def zero_tables : ScaleTables :=
  { scale_map_240_to_320 := List.replicate 240 0
    x_scale_map := List.replicate 240 0
    scale_fill_map := List.replicate 240 false
    y_to_page := List.replicate 240 0
    y_to_bit_mask := List.replicate 240 0
    y_to_fb_offset := List.replicate 240 0
    horizontal_320_map := List.replicate 240 0
    horizontal_320_fill := List.replicate 240 0
    scale_map_initialized := false }

/-- The function `init_scale_mapping` (lines 68-88): the loop over
`i = 0 .. 239` fills entry `i` of every table. -/
def init_scale_mapping (t : ScaleTables) : ScaleTables :=
  if t.scale_map_initialized then t
  else
    { scale_map_240_to_320 := (List.range 240).map fun i => (i * 4) / 3
      x_scale_map := (List.range 240).map fun i => (i * 4) / 3
      scale_fill_map := (List.range 240).map fun i => decide (i % 3 ≠ 0)
      y_to_page := (List.range 240).map fun i => i / 8
      y_to_bit_mask := (List.range 240).map fun i => 1 <<< (i % 8)
      y_to_fb_offset := (List.range 240).map fun i => (i / 8) * FB_COLS
      horizontal_320_map := (List.range 240).map fun i => (i * 4) / 3
      horizontal_320_fill := (List.range 240).map fun i =>
        if i % 3 ≠ 0 then (i * 4) / 3 + 1 else 0
      scale_map_initialized := true }

/-- The tables as `lcd_init` leaves them (line 195). -/
def scale_tables : ScaleTables := init_scale_mapping zero_tables

/-- The number of source indices whose `scale_fill_map` entry is true. -/
def fill_count (t : ScaleTables) : Nat := t.scale_fill_map.count true

/-- The variables of `lcd_st75320.c` the transform reads and writes:
`framebuffer[FB_SIZE]` and `current_rotation` (the value of the enum
`lcd_rotation_t`: 0, 1, 2, 3 stand for 0, 90, 180 and 270 degrees). -/
structure LcdState where
  framebuffer : Nat → Nat
  current_rotation : Nat

/-- The call `memset(&framebuffer[start], value, n)`. -/
def memset (fb : Nat → Nat) (start value n : Nat) : Nat → Nat :=
  fun i => if start ≤ i ∧ i < start + n then value else fb i

/-- Lines 343-346: the loop over the 30 pages that clears 320 columns each. -/
def clear_display_area (fb : Nat → Nat) : Nat → Nat :=
  (List.range 30).foldl (fun fb page => memset fb (page * FB_COLS) 0 320) fb

/-- The statement `framebuffer[w.1] |= w.2`. -/
def or_write (fb : Nat → Nat) (w : Nat × Nat) : Nat → Nat :=
  fun i => if i = w.1 then fb i ||| w.2 else fb i

/-- A sequence of `|=` statements in program order. None of the transform's
write targets or masks depends on the framebuffer content, so each rotation is
given as the list of its writes, applied to the cleared framebuffer. -/
def apply_writes (ws : List (Nat × Nat)) (fb : Nat → Nat) : Nat → Nat :=
  ws.foldl or_write fb

/-- Rotation 0 (lines 360-415): the writes for source byte `src_x_byte` of row
`src_y`. The eight unrolled tests `src_byte & 0x01 .. 0x80` are the tests of
`src_byte & (1 << b)` for `b = 0 .. 7`. -/
def rot0_byte_writes (t : ScaleTables) (src_y src_x_byte src_byte : Nat) : List (Nat × Nat) :=
  let page := src_y / 8
  let bit_pos := src_y % 8
  let bit_mask := 1 <<< bit_pos
  let fb_base := page * FB_COLS
  if src_byte = 0 then []
  else
    let base_src_x := src_x_byte * 8
    (List.range 8).flatMap fun b =>
      if src_byte &&& (1 <<< b) ≠ 0 then
        (fb_base + t.horizontal_320_map.getD (base_src_x + b) 0, bit_mask) ::
          (if t.horizontal_320_fill.getD (base_src_x + b) 0 ≠ 0 then
            [(fb_base + t.horizontal_320_fill.getD (base_src_x + b) 0, bit_mask)]
          else [])
      else []

/-- Rotation 90 (lines 456-533). -/
def rot90_byte_writes (t : ScaleTables) (src_y src_x_byte src_byte : Nat) : List (Nat × Nat) :=
  let dst_x_base := 319 - t.horizontal_320_map.getD src_y 0
  let dst_x_fill :=
    if t.horizontal_320_fill.getD src_y 0 ≠ 0 then 319 - t.horizontal_320_fill.getD src_y 0 + 1
    else 0
  if src_byte = 0 then []
  else
    let base_src_x := src_x_byte * 8
    (List.range 8).flatMap fun b =>
      if src_byte &&& (1 <<< b) ≠ 0 then
        let dst_y := base_src_x + b
        let fb_ptr := t.y_to_fb_offset.getD dst_y 0 + dst_x_base
        let bit_mask := t.y_to_bit_mask.getD dst_y 0
        (fb_ptr, bit_mask) ::
          (if dst_x_fill ≠ 0 ∧ dst_x_base > 0 then [(fb_ptr - 1, bit_mask)] else [])
      else []

/-- Rotation 180 (lines 603-667). -/
def rot180_byte_writes (t : ScaleTables) (src_y src_x_byte src_byte : Nat) : List (Nat × Nat) :=
  let dst_y := 239 - src_y
  let dst_page := dst_y / 8
  let dst_bit_pos := dst_y % 8
  let dst_mask := 1 <<< dst_bit_pos
  let fb_base := dst_page * FB_COLS
  if src_byte = 0 then []
  else
    let base_src_x := src_x_byte * 8
    (List.range 8).flatMap fun b =>
      if src_byte &&& (1 <<< b) ≠ 0 then
        let dst_x := 319 - t.horizontal_320_map.getD (base_src_x + b) 0
        (fb_base + dst_x, dst_mask) ::
          (if t.horizontal_320_fill.getD (base_src_x + b) 0 ≠ 0 ∧ dst_x > 0 then
            [(fb_base + (dst_x - 1), dst_mask)]
          else [])
      else []

/-- Rotation 270 (lines 709-786). -/
def rot270_byte_writes (t : ScaleTables) (src_y src_x_byte src_byte : Nat) : List (Nat × Nat) :=
  let dst_x_base := t.horizontal_320_map.getD src_y 0
  let dst_x_fill := t.horizontal_320_fill.getD src_y 0
  if src_byte = 0 then []
  else
    let base_src_x := src_x_byte * 8
    (List.range 8).flatMap fun b =>
      if src_byte &&& (1 <<< b) ≠ 0 then
        let dst_y := 239 - (base_src_x + b)
        let fb_ptr := t.y_to_fb_offset.getD dst_y 0 + dst_x_base
        let bit_mask := t.y_to_bit_mask.getD dst_y 0
        (fb_ptr, bit_mask) ::
          (if dst_x_fill ≠ 0 ∧ dst_x_base < 319 then [(fb_ptr + 1, bit_mask)] else [])
      else []

/-- The two nested loops shared by the four rotations: `src_y = 0 .. 239`,
`src_x_byte = 0 .. 29`, with `*src_ptr++` reading byte `src_y * 30 + src_x_byte`
of the source. -/
def frame_writes (byte_writes : Nat → Nat → Nat → List (Nat × Nat)) (src : List Nat) :
    List (Nat × Nat) :=
  (List.range 240).flatMap fun src_y =>
    (List.range 30).flatMap fun src_x_byte =>
      byte_writes src_y src_x_byte (src.getD (src_y * 30 + src_x_byte) 0)

/-- The function `lcd_update_from_1bit_framebuffer` (lines 331-872), up to the
call of `lcd_refresh`: `none` is a `NULL` source pointer. The `default` case of
the `switch` sets `current_rotation` to 0 and calls the function again. -/
def lcd_update_from_1bit_framebuffer (t : ScaleTables) (src_data : Option (List Nat))
    (st : LcdState) : LcdState :=
  match src_data with
  | none => st
  | some src =>
    let fb := clear_display_area st.framebuffer
    if st.current_rotation = 0 then
      { st with framebuffer := apply_writes (frame_writes (rot0_byte_writes t) src) fb }
    else if st.current_rotation = 1 then
      { st with framebuffer := apply_writes (frame_writes (rot90_byte_writes t) src) fb }
    else if st.current_rotation = 2 then
      { st with framebuffer := apply_writes (frame_writes (rot180_byte_writes t) src) fb }
    else if st.current_rotation = 3 then
      { st with framebuffer := apply_writes (frame_writes (rot270_byte_writes t) src) fb }
    else
      lcd_update_from_1bit_framebuffer t (some src) { framebuffer := fb, current_rotation := 0 }
termination_by (if st.current_rotation = 0 then 0 else 1)
decreasing_by
  simp_wf
  simp [*]

/-- The function `lcd_set_rotation` (lines 912-945); the commands sent by
`lcd_set_mirror` do not touch the two variables. -/
def lcd_set_rotation (rotation : Nat) (st : LcdState) : LcdState :=
  let st1 := { st with current_rotation := rotation }
  if rotation = 0 then st1
  else if rotation = 1 then st1
  else if rotation = 2 then st1
  else if rotation = 3 then st1
  else { st1 with current_rotation := 0 }

/-- The output buffer the transform leaves for a source frame, a rotation mode
and prior buffer contents, with the tables of `lcd_init`. -/
def transform_output (rotation : Nat) (src : List Nat) (fb : Nat → Nat) : Nat → Nat :=
  (lcd_update_from_1bit_framebuffer scale_tables (some src)
    { framebuffer := fb, current_rotation := rotation }).framebuffer

/-- Whether destination pixel `(X, Y)` is set in an output buffer. -/
def target_pixel (fb : Nat → Nat) (X Y : Nat) : Bool :=
  (fb ((Y / 8) * FB_COLS + X)).testBit (Y % 8)

/-- Whether source pixel `(x, y)` is set in a capture buffer. -/
def source_pixel (src : List Nat) (x y : Nat) : Bool :=
  (src.getD (y * 30 + x / 8) 0).testBit (x % 8)

/-- A 7,200-byte source whose only set bit is pixel `(x, y)`. -/
def single_pixel_source (x y : Nat) : List Nat :=
  (List.replicate 7200 0).set (y * 30 + x / 8) (1 <<< (x % 8))

/-- A 7,200-byte source with all 57,600 pixels set. -/
def all_set_source : List Nat := List.replicate 7200 255

/-! ## Colour sink conversion (`spi_lcd.c`) -/

def LCD_FB_WIDTH : Nat := 240
def LCD_FB_HEIGHT : Nat := 240

/-- The function `init_pixel_conversion_lut` (lines 60-77): the table
`byte_to_rgb565_lut[256][16]`. Row `byte_val` receives, for `bit = 0 .. 7`, the
two bytes `rgb565 >> 8` and `rgb565 & 0xFF` at positions `2 * bit` and
`2 * bit + 1`. -/
def init_pixel_conversion_lut : List (List Nat) :=
  (List.range 256).map fun byte_val =>
    (List.range 8).flatMap fun bit =>
      let pixel_bit := (byte_val >>> bit) &&& 0x01
      let rgb565 := if pixel_bit ≠ 0 then 0xFFFF else 0x0000
      [rgb565 >>> 8, rgb565 &&& 0xFF]

/-- The call `memcpy(&dst[off], row, n)`. -/
def memcpy (dst : Nat → Nat) (off : Nat) (row : List Nat) (n : Nat) : Nat → Nat :=
  fun i => if off ≤ i ∧ i < off + n then row.getD (i - off) 0 else dst i

/-- The loop of `spi_lcd_update_from_framebuffer` (lines 352-363), with
`remaining` iterations left before `byte_idx` reaches `total_bytes`: each
iteration copies the 16-byte table row of one source byte and leaves the loop
early once `buffer_idx` has reached the size of `display_buffer`. -/
def convert_loop (lut : List (List Nat)) (framebuffer_data : List Nat) :
    Nat → Nat → (Nat → Nat) → Nat → (Nat → Nat) × Nat
  | 0, _, display_buffer, buffer_idx => (display_buffer, buffer_idx)
  | remaining + 1, byte_idx, display_buffer, buffer_idx =>
    let byte_data := framebuffer_data.getD byte_idx 0
    let display_buffer := memcpy display_buffer buffer_idx (lut.getD byte_data []) 16
    let buffer_idx := buffer_idx + 16
    if buffer_idx ≥ LCD_FB_WIDTH * LCD_FB_HEIGHT * 2 then (display_buffer, buffer_idx)
    else convert_loop lut framebuffer_data remaining (byte_idx + 1) display_buffer buffer_idx

/-- Lines 349-363 of `spi_lcd_update_from_framebuffer`: the conversion of the
render data into `display_buffer`; the result is the buffer and the final
`buffer_idx`, the number of bytes handed to the transfer. -/
def rgb565_convert (framebuffer_data : List Nat) (display_buffer : Nat → Nat) :
    (Nat → Nat) × Nat :=
  let total_bytes := (LCD_FB_WIDTH * LCD_FB_HEIGHT + 7) / 8
  convert_loop init_pixel_conversion_lut framebuffer_data total_bytes 0 display_buffer 0

/-- The bytes handed to the transfer: `display_buffer[0 .. buffer_idx)`. -/
def rgb565_bytes (framebuffer_data : List Nat) (display_buffer : Nat → Nat) : List Nat :=
  (List.range (rgb565_convert framebuffer_data display_buffer).2).map
    (rgb565_convert framebuffer_data display_buffer).1

/-! ## Hardware actions of the capture pipeline (`lcd_framebuffer.c`) -/

/-- The pico SDK calls that act on the DMA channel and on the PIO block, with
their arguments. `dma_channel_configure` carries the slot whose `data` is the
write address, the transfer count and the trigger flag. -/
inductive HwOp where
  | dma_channel_abort (channel : Nat)
  | dma_channel_set_irq0_enabled (channel : Nat) (enabled : Bool)
  | pio_sm_set_enabled (pio sm : Nat) (enabled : Bool)
  | pio_interrupt_clear (pio irq : Nat)
  | pio_sm_clear_fifos (pio sm : Nat)
  | pio_sm_restart (pio sm : Nat)
  | pio_sm_exec_jmp (pio sm target : Nat)
  | dma_channel_configure (channel : Nat) (write_slot : Fin 3) (transfer_count : Nat)
      (trigger : Bool)
  | dma_channel_start (channel : Nat)
  | pio_set_irq0_source_enabled (pio : Nat) (enabled : Bool)
deriving DecidableEq

/-- The hardware calls of `lcd_framebuffer_start_auto_capture` (lines 223-236),
in program order. -/
def lcd_framebuffer_start_auto_capture_hw (s : State) : List HwOp :=
  if !s.auto_capture_enabled then []
  else
    [ .dma_channel_start s.dma_channel,
      .pio_sm_set_enabled s.pio_instance s.pio_sm true ]

/-- The hardware calls of `lcd_framebuffer_reset_capture_system`
(lines 325-403), in program order (steps 1-5 and 8-13 of the function). -/
def lcd_framebuffer_reset_capture_system_hw (s : State) : List HwOp :=
  if !s.framebuffer_initialized || !s.auto_capture_enabled then []
  else
    [ .dma_channel_abort s.dma_channel,
      .dma_channel_set_irq0_enabled s.dma_channel false,
      .pio_sm_set_enabled s.pio_instance s.pio_sm false,
      .pio_interrupt_clear s.pio_instance 0,
      .pio_interrupt_clear s.pio_instance 1,
      .pio_sm_clear_fifos s.pio_instance s.pio_sm,
      .pio_sm_restart s.pio_instance s.pio_sm,
      .pio_sm_exec_jmp s.pio_instance s.pio_sm 0,
      .dma_channel_configure s.dma_channel 0 (LCD_FRAME_SIZE / 4) false,
      .dma_channel_set_irq0_enabled s.dma_channel true,
      .dma_channel_start s.dma_channel,
      .pio_set_irq0_source_enabled s.pio_instance true,
      .pio_sm_set_enabled s.pio_instance s.pio_sm true ]

/-- The events that bring the frame counter to `2^32 - 1`: initialise,
configure capture, then `2^32 - 1` handled completions. -/
def counter_wrap_events : List Event :=
  [.init 0, .init_auto_capture 0 0 0] ++ List.replicate (2 ^ 32 - 1) (.dma_irq true 0 0)

/-! ## Paged monochrome sink (`lcd_refresh`, `lcd_st75320.c` lines 252-295) -/

/-- What `lcd_st75320.c` sends to the panel: a command byte
(`lcd_write_command`), a data byte (`lcd_write_data`) or one DMA block
transfer of a run of framebuffer bytes. -/
inductive SpiOp where
  | command (cmd : Nat)
  | data (byte : Nat)
  | dma_block (bytes : List Nat)
deriving DecidableEq

/-- The function `lcd_refresh` (lines 252-295): for `page = 0 .. 29` the page
address command, the column address command, the write command, and a DMA
transfer of `FB_COLS` bytes starting at `&framebuffer[page * FB_COLS]`. -/
def lcd_refresh (framebuffer : Nat → Nat) : List SpiOp :=
  (List.range FB_PAGES).flatMap fun page =>
    [ .command 0xB1, .data page,
      .command 0x13, .data 0x00, .data 0x00,
      .command 0x1D,
      .dma_block ((List.range FB_COLS).map fun i => framebuffer (page * FB_COLS + i)) ]

/-- The payloads of the DMA block transfers of a transmission, in order. -/
def page_payloads : List SpiOp → List (List Nat)
  | [] => []
  | .dma_block bytes :: rest => bytes :: page_payloads rest
  | .command _ :: rest => page_payloads rest
  | .data _ :: rest => page_payloads rest

/-- For each DMA block transfer of a transmission, the data byte of the last
page address command (0xB1) sent before it, if any. -/
def page_addresses_aux : Option Nat → List SpiOp → List (Option Nat)
  | _, [] => []
  | last, .dma_block _ :: rest => last :: page_addresses_aux last rest
  | _, .command 0xB1 :: .data page :: rest => page_addresses_aux (some page) rest
  | last, .command _ :: rest => page_addresses_aux last rest
  | last, .data _ :: rest => page_addresses_aux last rest

/-- The function `lcd_clear` (lines 205-208). -/
def lcd_clear (st : LcdState) : LcdState :=
  { st with framebuffer := memset st.framebuffer 0 0x00 FB_SIZE }

/-- The effect of `lcd_init` (lines 91-203) on the tables, the framebuffer and
the rotation mode: `init_scale_mapping()`, `lcd_set_rotation(LCD_ROTATION_90)`
and `lcd_clear()`. The controller command sequence is not part of the state. -/
def lcd_init (t : ScaleTables) (st : LcdState) : ScaleTables × LcdState :=
  (init_scale_mapping t, lcd_clear (lcd_set_rotation 1 st))

/-! ## Colour sink push (`spi_lcd_update_from_framebuffer`, `spi_lcd.c` lines 326-409) -/

/-- What the colour sink sends: a command byte, one DMA burst of the buffer
(`dma_channel_transfer_from_buffer_now`) or one blocking write of the buffer
(`spi_write_blocking`). -/
inductive SinkOp where
  | command (cmd : Nat)
  | dma_transfer (bytes : List Nat)
  | blocking_write (bytes : List Nat)
deriving DecidableEq

/-- The outcome of one push: the return value, what was sent, the `used_dma`
flag handed to `frame_stats_update`, and the content of the static
`display_buffer` afterwards. -/
structure SinkPush where
  ok : Bool
  sent : List SinkOp
  used_dma : Bool
  display_buffer : Nat → Nat

/-- The function `spi_lcd_update_from_framebuffer` (lines 326-409).
`lcd_initialized` and `dma_channel_tx` are the file-scope variables of
`spi_lcd.c` (`dma_channel_tx` is a `uint` compared with `-1`), `dma_busy` is
`dma_channel_is_busy(dma_channel_tx)`, `s` is the state of the capture
pipeline. -/
def spi_lcd_update_from_framebuffer (lcd_initialized : Bool) (dma_channel_tx : Nat)
    (dma_busy : Bool) (display_buffer : Nat → Nat) (s : State) : SinkPush :=
  if !lcd_initialized || !lcd_framebuffer_is_render_ready s then
    { ok := false, sent := [], used_dma := false, display_buffer := display_buffer }
  else
    match lcd_framebuffer_get_render_data s with
    | none => { ok := false, sent := [], used_dma := false, display_buffer := display_buffer }
    | some framebuffer_data =>
      let r := rgb565_convert framebuffer_data display_buffer
      let bytes := (List.range r.2).map r.1
      if dma_channel_tx ≠ UINT_MAX && !dma_busy then
        { ok := true, sent := [.command 0x2C, .dma_transfer bytes], used_dma := true,
          display_buffer := r.1 }
      else
        { ok := true, sent := [.command 0x2C, .blocking_write bytes], used_dma := false,
          display_buffer := r.1 }

/-! ## Backlight hysteresis (`main`, `lcd_converter.c` lines 267-295)

The duty cycle is a C `float`. It is only compared with the constants 0, 10 and
20, which a finite `float` does exactly as the rational number it denotes, so
the duty is a rational here. The brightness constants `1.0f`, `0.20f` and
`-1.0f` are only assigned and compared for equality with each other; they are
the rationals 1, 1/5 and -1. -/

/-- The two function-scope `static` variables of the backlight block. -/
structure BacklightState where
  last_brightness : ℚ
  last_high_brightness : Bool
deriving DecidableEq

/-- The initialisers: `last_brightness = -1.0f`, `last_high_brightness = false`. -/
def initial_backlight : BacklightState :=
  { last_brightness := -1, last_high_brightness := false }

/-- Lines 267-295 of `main`: one pass of the backlight block for a filtered
duty reading. The result is the new value of the two variables and the
argument of `set_pwm_duty_cycle(21, brightness)` when that call is made. -/
def backlight_update (duty : ℚ) (b : BacklightState) : BacklightState × Option ℚ :=
  let high_brightness : Bool :=
    if duty < 0 then b.last_high_brightness
    else if b.last_high_brightness then decide (duty ≥ 10)
    else decide (duty ≥ 20)
  let brightness : ℚ :=
    if duty < 0 then b.last_brightness
    else if high_brightness then 1 else 1 / 5
  if duty ≥ 0 ∧ brightness ≠ b.last_brightness then
    ({ last_brightness := brightness, last_high_brightness := high_brightness }, some brightness)
  else (b, none)

/-- The backlight block applied to a sequence of duty readings, the first
element first. -/
def backlight_run : List ℚ → BacklightState → BacklightState
  | [], b => b
  | duty :: rest, b => backlight_run rest (backlight_update duty b).1

/-- A backlight state in which a level has been set: the brightness is the
one that belongs to the flag. -/
def backlight_level_set (b : BacklightState) : Prop :=
  b.last_brightness = if b.last_high_brightness then 1 else 1 / 5

/-- The function `set_pwm_duty_cycle` (`lcd_framebuffer.c`, lines 473-492), up
to the duty cycle it programs on the pin: the argument limited to `[0, 1]`. The
result stands for the level of the backlight. -/
def set_pwm_duty_cycle (duty_cycle : ℚ) : ℚ :=
  let duty_cycle := if duty_cycle < 0 then 0 else duty_cycle
  if duty_cycle > 1 then 1 else duty_cycle

/-- The function `set_lcd_backlight_brightness` (`lcd_framebuffer.c`,
lines 495-505). -/
def set_lcd_backlight_brightness (brightness : ℚ) : ℚ :=
  let brightness := if brightness < 0 then 0 else brightness
  let brightness := if brightness > 1 then 1 else brightness
  set_pwm_duty_cycle brightness

/-- The backlight when the main loop is entered: the two `static` variables
hold their initialisers and `wait_for_lcd_power_on` has called
`set_lcd_backlight_brightness(0.8)` (`lcd_framebuffer.c`, line 425). The second
component is the level of the backlight; the constant `0.8` is the rational
4/5, as it is only told apart from the levels 1/5 and 1. -/
def backlight_power_on : BacklightState × ℚ :=
  (initial_backlight, set_lcd_backlight_brightness (4 / 5))

/-- One pass of the backlight block on the variables and the level of the
backlight: the level changes when `set_pwm_duty_cycle(21, brightness)` is
called (line 292) and only then. -/
def backlight_pass (duty : ℚ) (p : BacklightState × ℚ) : BacklightState × ℚ :=
  match (backlight_update duty p.1).2 with
  | some brightness => ((backlight_update duty p.1).1, set_pwm_duty_cycle brightness)
  | none => ((backlight_update duty p.1).1, p.2)

/-- The passes of the backlight block for a sequence of duty readings, the
first element first. -/
def backlight_passes : List ℚ → BacklightState × ℚ → BacklightState × ℚ
  | [], p => p
  | duty :: rest, p => backlight_passes rest (backlight_pass duty p)

/-- The block has set the level: the level of the backlight is the recorded
brightness, and that is the one that belongs to the flag. -/
def backlight_synced (p : BacklightState × ℚ) : Prop :=
  backlight_level_set p.1 ∧ p.2 = p.1.last_brightness

/-! ## Classification of events -/

/-- Whether an event is a call of `lcd_framebuffer_init_auto_capture`. -/
def is_init_auto_capture : Event → Bool
  | .init_auto_capture _ _ _ => true
  | _ => false

/-! ## Memory accesses of the pixel transform (`lcd_st75320.c`, lines 343-786)

The transform once more, this time as the sequence of its array accesses in
program order. Every index is the signed integer the C expression denotes, so
that an index below zero would show. A value read from a table or from the
source is only available to the code that follows through `with_table` or
`with_src`, which record the index of the read. -/

/-- One array access of the transform: a read of `src_data[i]`, a read of one
of the 240-entry lookup tables at index `i`, a byte `framebuffer[i]` cleared by
`memset`, or the statement `framebuffer[i] |= mask`. -/
inductive Access where
  | src_read (i : Int)
  | table_read (i : Int)
  | fb_clear (i : Int)
  | fb_or (i : Int) (mask : Nat)
deriving DecidableEq

/-- The read `tbl[i]` of a lookup table, followed by the accesses the code
makes with the value read. -/
def with_table (tbl : List Nat) (i : Int) (k : Nat → List Access) : List Access :=
  .table_read i :: k (tbl.getD i.toNat 0)

/-- The read `*src_ptr++` at offset `i` of the source, followed by the accesses
the code makes with the byte read. -/
def with_src (src : List Nat) (i : Int) (k : Nat → List Access) : List Access :=
  .src_read i :: k (src.getD i.toNat 0)

/-- The conversion of an `int` value to `uint16_t`. -/
def to_uint16 (x : Int) : Int := x % 2 ^ 16

/-- Lines 343-346: `memset(&framebuffer[page * FB_COLS], 0, 320)` for the 30
pages. -/
def clear_accesses : List Access :=
  (List.range 30).flatMap fun page =>
    (List.range 320).map fun (j : Nat) =>
      Access.fb_clear ((page : Int) * (FB_COLS : Int) + (j : Int))

/-- The inner loop `src_x_byte = 0 .. 29` of row `src_y`, shared by the four
rotations: `src_ptr` starts at `src_data` and is incremented once in every
iteration, so it reads offset `src_y * 30 + src_x_byte`. -/
def row_accesses (src : List Nat) (src_y : Nat) (byte_accesses : Nat → Nat → List Access) :
    List Access :=
  (List.range 30).flatMap fun src_x_byte =>
    with_src src ((src_y : Int) * 30 + (src_x_byte : Int)) fun src_byte =>
      byte_accesses src_x_byte src_byte

/-- Rotation 0 (lines 360-415): the accesses for one source byte. -/
def rot0_byte_accesses (t : ScaleTables) (src_y src_x_byte src_byte : Nat) : List Access :=
  let page := src_y / 8
  let bit_pos := src_y % 8
  let bit_mask := 1 <<< bit_pos
  let fb_base : Int := ((page * FB_COLS : Nat) : Int)
  if src_byte = 0 then []
  else
    let base_src_x : Int := (src_x_byte : Int) * 8
    (List.range 8).flatMap fun b =>
      if src_byte &&& (1 <<< b) ≠ 0 then
        with_table t.horizontal_320_map (base_src_x + (b : Int)) fun m =>
          .fb_or (fb_base + (m : Int)) bit_mask ::
            with_table t.horizontal_320_fill (base_src_x + (b : Int)) fun f =>
              if f ≠ 0 then
                with_table t.horizontal_320_fill (base_src_x + (b : Int)) fun f2 =>
                  [.fb_or (fb_base + (f2 : Int)) bit_mask]
              else []
      else []

/-- Rotation 0: the accesses of the two nested loops. -/
def rot0_accesses (t : ScaleTables) (src : List Nat) : List Access :=
  (List.range 240).flatMap fun src_y => row_accesses src src_y (rot0_byte_accesses t src_y)

/-- Rotation 90 (lines 456-533): the accesses for one source byte; `dst_x_base`
and `dst_x_fill` are the two `uint16_t` values computed for the row. -/
def rot90_byte_accesses (t : ScaleTables) (dst_x_base dst_x_fill : Int)
    (src_x_byte src_byte : Nat) : List Access :=
  if src_byte = 0 then []
  else
    let base_src_x : Int := (src_x_byte : Int) * 8
    (List.range 8).flatMap fun b =>
      if src_byte &&& (1 <<< b) ≠ 0 then
        let dst_y : Int := base_src_x + (b : Int)
        with_table t.y_to_fb_offset dst_y fun off =>
          let fb_ptr : Int := (off : Int) + dst_x_base
          with_table t.y_to_bit_mask dst_y fun bit_mask =>
            .fb_or fb_ptr bit_mask ::
              (if dst_x_fill ≠ 0 ∧ dst_x_base > 0 then [.fb_or (fb_ptr - 1) bit_mask] else [])
      else []

/-- Rotation 90: the accesses of the two nested loops. Each row first computes
`dst_x_base = 319 - horizontal_320_map[src_y]` and
`dst_x_fill = horizontal_320_fill[src_y] ? (319 - horizontal_320_fill[src_y] + 1) : 0`. -/
def rot90_accesses (t : ScaleTables) (src : List Nat) : List Access :=
  (List.range 240).flatMap fun src_y =>
    with_table t.horizontal_320_map (src_y : Int) fun m =>
      let dst_x_base := to_uint16 (319 - (m : Int))
      with_table t.horizontal_320_fill (src_y : Int) fun f =>
        if f ≠ 0 then
          with_table t.horizontal_320_fill (src_y : Int) fun f2 =>
            row_accesses src src_y
              (rot90_byte_accesses t dst_x_base (to_uint16 (319 - (f2 : Int) + 1)))
        else row_accesses src src_y (rot90_byte_accesses t dst_x_base 0)

/-- Rotation 180 (lines 603-667): the accesses for one source byte. `dst_y`,
`dst_page`, `dst_bit_pos` and `dst_x` are of type `int`; `/` and `%` are the
truncating operations of C. -/
def rot180_byte_accesses (t : ScaleTables) (src_y src_x_byte src_byte : Nat) : List Access :=
  let dst_y : Int := 239 - (src_y : Int)
  let dst_page : Int := Int.tdiv dst_y 8
  let dst_bit_pos : Int := Int.tmod dst_y 8
  let dst_mask := 1 <<< dst_bit_pos.toNat
  let fb_base : Int := dst_page * (FB_COLS : Int)
  if src_byte = 0 then []
  else
    let base_src_x : Int := (src_x_byte : Int) * 8
    (List.range 8).flatMap fun b =>
      if src_byte &&& (1 <<< b) ≠ 0 then
        with_table t.horizontal_320_map (base_src_x + (b : Int)) fun m =>
          let dst_x : Int := 319 - (m : Int)
          .fb_or (fb_base + dst_x) dst_mask ::
            with_table t.horizontal_320_fill (base_src_x + (b : Int)) fun f =>
              if f ≠ 0 ∧ dst_x > 0 then [.fb_or (fb_base + (dst_x - 1)) dst_mask] else []
      else []

/-- Rotation 180: the accesses of the two nested loops. -/
def rot180_accesses (t : ScaleTables) (src : List Nat) : List Access :=
  (List.range 240).flatMap fun src_y => row_accesses src src_y (rot180_byte_accesses t src_y)

/-- Rotation 270 (lines 709-786): the accesses for one source byte; `dst_x_base`
and `dst_x_fill` are the two `uint16_t` values read for the row. -/
def rot270_byte_accesses (t : ScaleTables) (dst_x_base dst_x_fill : Int)
    (src_x_byte src_byte : Nat) : List Access :=
  if src_byte = 0 then []
  else
    let base_src_x : Int := (src_x_byte : Int) * 8
    (List.range 8).flatMap fun b =>
      if src_byte &&& (1 <<< b) ≠ 0 then
        let dst_y : Int := 239 - (base_src_x + (b : Int))
        with_table t.y_to_fb_offset dst_y fun off =>
          let fb_ptr : Int := (off : Int) + dst_x_base
          with_table t.y_to_bit_mask dst_y fun bit_mask =>
            .fb_or fb_ptr bit_mask ::
              (if dst_x_fill ≠ 0 ∧ dst_x_base < 319 then [.fb_or (fb_ptr + 1) bit_mask]
              else [])
      else []

/-- Rotation 270: the accesses of the two nested loops. Each row first reads
`dst_x_base = horizontal_320_map[src_y]` and
`dst_x_fill = horizontal_320_fill[src_y]`. -/
def rot270_accesses (t : ScaleTables) (src : List Nat) : List Access :=
  (List.range 240).flatMap fun src_y =>
    with_table t.horizontal_320_map (src_y : Int) fun m =>
      with_table t.horizontal_320_fill (src_y : Int) fun f =>
        row_accesses src src_y (rot270_byte_accesses t (to_uint16 (m : Int)) (to_uint16 (f : Int)))

/-- The accesses of `lcd_update_from_1bit_framebuffer` for a non-`NULL` source:
the clearing loop, then the loops of the current rotation. A rotation value
outside the four modes reaches the `default` case, which calls the function
again with rotation 0. -/
def transform_accesses (t : ScaleTables) (rotation : Nat) (src : List Nat) : List Access :=
  clear_accesses ++
    (if rotation = 0 then rot0_accesses t src
    else if rotation = 1 then rot90_accesses t src
    else if rotation = 2 then rot180_accesses t src
    else if rotation = 3 then rot270_accesses t src
    else clear_accesses ++ rot0_accesses t src)

/-- The `|=` statements among a sequence of accesses, in order, as pairs of
byte index and mask. -/
def fb_writes : List Access → List (Nat × Nat)
  | [] => []
  | .src_read _ :: rest => fb_writes rest
  | .table_read _ :: rest => fb_writes rest
  | .fb_clear _ :: rest => fb_writes rest
  | .fb_or i mask :: rest => (i.toNat, mask) :: fb_writes rest

/-- An access is in bounds: a source offset in `[0, src_len)`, a table index in
`[0, 240)`, a framebuffer index in `[0, FB_SIZE)`. -/
def access_in_bounds (src_len : Nat) : Access → Prop
  | .src_read i => 0 ≤ i ∧ i < (src_len : Int)
  | .table_read i => 0 ≤ i ∧ i < 240
  | .fb_clear i => 0 ≤ i ∧ i < (FB_SIZE : Int)
  | .fb_or i _ => 0 ≤ i ∧ i < (FB_SIZE : Int)

/-- The destination column that source column `x` alone reaches under the
4/3 scaling: columns `3k`, `3k + 1`, `3k + 2` go to `4k`, `4k + 1`, `4k + 3`. -/
def recover_col (x : Nat) : Nat :=
  4 * (x / 3) + (if x % 3 = 2 then 3 else x % 3)

/-! ## Preservation of the pipeline facts -/

theorem next_active_buffer_ne (r c a : Fin 3) :
    next_active_buffer r c a ≠ r ∧ next_active_buffer r c a ≠ c := by
  revert r c a
  decide

theorem pipelineInv_initial : PipelineInv initial_state := by
  refine ⟨by decide, by decide, by simp [initial_state], ?_⟩
  intro i
  simp [initial_state, zero_framebuffer]

theorem pipelineInv_step (e : Event) (s : State) (h : PipelineInv s) :
    PipelineInv (step e s) := by
  obtain ⟨h1, h2, h3, h4⟩ := h
  cases e with
  | init claimed =>
    simp only [step, lcd_framebuffer_init]
    by_cases hi : s.framebuffer_initialized = true
    · simp only [hi, if_true]
      exact ⟨h1, h2, h3, h4⟩
    · have hen : s.auto_capture_enabled = false := by
        cases hq : s.auto_capture_enabled with
        | false => rfl
        | true => exact absurd (h3 hq) hi
      rw [if_neg hi]
      split_ifs <;> refine ⟨h1, h2, ?_, ?_⟩ <;> simp [hen, zero_framebuffer]
  | init_auto_capture pio sm now =>
    simp only [step, lcd_framebuffer_init_auto_capture]
    split_ifs with hc
    · exact ⟨h1, h2, h3, h4⟩
    · simp only [Bool.or_eq_true, Bool.not_eq_true', not_or, Bool.not_eq_false,
        Bool.not_eq_true] at hc
      refine ⟨h1, h2, fun _ => hc.1, ?_⟩
      intro i
      by_cases hia : i = s.active_buffer
      · subst hia; simp
      · simp [Function.update_noteq hia, h4 i, hc.2, hia]
  | start_auto_capture =>
    simp only [step, lcd_framebuffer_start_auto_capture]
    split_ifs <;> exact ⟨h1, h2, h3, h4⟩
  | stop_auto_capture =>
    simp only [step, lcd_framebuffer_stop_auto_capture]
    split_ifs with hc
    · exact ⟨h1, h2, h3, h4⟩
    · refine ⟨h1, h2, by simp, ?_⟩
      intro i
      by_cases hia : i = s.active_buffer
      · subst hia; simp
      · simp [Function.update_noteq hia, h4 i, hia]
  | frame_sync now => exact ⟨h1, h2, h3, h4⟩
  | dma_write bytes =>
    refine ⟨h1, h2, h3, ?_⟩
    intro i
    simp only [step, dma_transfer_write]
    by_cases hia : i = s.active_buffer
    · rw [hia]; simpa using h4 s.active_buffer
    · simpa [Function.update_noteq hia] using h4 i
  | dma_irq st t1 t2 =>
    simp only [step, dma_capture_irq_handler]
    split_ifs with hst hen
    · exact ⟨h1, h2, h3, h4⟩
    · simp only [Bool.not_eq_true', Bool.not_eq_false] at hen
      have hn := next_active_buffer_ne s.render_buffer s.active_buffer s.active_buffer
      refine ⟨hn.1, hn.2, h3, ?_⟩
      intro i
      by_cases hin : i = next_active_buffer s.render_buffer s.active_buffer s.active_buffer
      · subst hin; simp [hen]
      · by_cases hia : i = s.active_buffer
        · subst hia; simp [Function.update_noteq hin, hin]
        · simp [Function.update_noteq hin, Function.update_noteq hia, h4 i, hin, hia]
    · exact ⟨h1, h2, h3, h4⟩
  | prepare_display_frame =>
    simp only [step, lcd_framebuffer_prepare_display_frame]
    split_ifs
    · exact ⟨h1, h2, h3, h4⟩
    · exact ⟨h1, h2, h3, h4⟩
    · exact ⟨h2, h2, h3, h4⟩
  | reset_capture_system =>
    simp only [step, lcd_framebuffer_reset_capture_system]
    split_ifs with hc
    · exact ⟨h1, h2, h3, h4⟩
    · simp only [Bool.or_eq_true, Bool.not_eq_true', not_or, Bool.not_eq_false] at hc
      refine ⟨by simp, by simp, fun _ => hc.1, ?_⟩
      intro i
      by_cases hi0 : i = 0
      · subst hi0; simp [hc.2]
      · simp [Function.update_noteq hi0, hc.2, hi0]

theorem pipelineInv_run (es : List Event) (s : State) (h : PipelineInv s) :
    PipelineInv (run es s) := by
  induction es generalizing s with
  | nil => exact h
  | cons e es ih => exact ih (step e s) (pipelineInv_step e s h)

/-- When the time gate of `display_frame_check` is open, the call treats the
interval reported by the pipeline as one sample: the new `error_count` and the
recovery flag are those of `frame_check_sample`, and the pipeline is reset
exactly when the flag is set. -/
theorem display_frame_check_of_due (t1 t2 : Nat) (m : MonitorState) (s : State)
    (hdue : m.last_status_time ≤ t1 % 2 ^ 32) :
    (display_frame_check t1 t2 m s).1.error_count
      = (frame_check_sample (lcd_framebuffer_get_frame_to_dma_interval s) m.error_count).1 ∧
    (display_frame_check t1 t2 m s).2.2
      = (frame_check_sample (lcd_framebuffer_get_frame_to_dma_interval s) m.error_count).2 ∧
    (display_frame_check t1 t2 m s).2.1
      = (if (display_frame_check t1 t2 m s).2.2
          then (lcd_framebuffer_reset_capture_system s).2 else s) := by
  unfold display_frame_check
  rw [if_pos hdue]
  exact ⟨rfl, rfl, rfl⟩

/-! ## Role assignment -/

/-- C1: in every state reached from the initial state (active 0, display 1,
render 2) by any sequence of events (init, init_auto_capture,
start_auto_capture, stop_auto_capture, DMA completions, prepare_display_frame,
reset_capture_system, and also frame-sync interrupts and transfer-engine
writes), `active_buffer` differs from `render_buffer`. -/
theorem active_ne_render_of_run (es : List Event) :
    (run es initial_state).active_buffer ≠ (run es initial_state).render_buffer :=
  (pipelineInv_run es initial_state pipelineInv_initial).1

/-- C2 fails as stated: after the first completed frame has been prepared for
display the roles are (active, display, render) = (1, 0, 0), so display and
render coincide and the triple is not a permutation of {0, 1, 2}. -/
theorem roles_after_first_prepare_not_distinct :
    ((run (first_frame_events ++ [.prepare_display_frame]) initial_state).active_buffer,
      (run (first_frame_events ++ [.prepare_display_frame]) initial_state).display_buffer,
      (run (first_frame_events ++ [.prepare_display_frame]) initial_state).render_buffer)
      = (1, 0, 0) ∧
    ¬ ((run (first_frame_events ++ [.prepare_display_frame]) initial_state).display_buffer ≠
        (run (first_frame_events ++ [.prepare_display_frame]) initial_state).render_buffer) := by
  decide

/-- C2 as amended: in every reachable state the active slot differs from the
display slot and from the render slot, while `prepare_display_frame` leaves
render equal to display whenever it succeeds (and unchanged otherwise). -/
theorem active_distinct_display_may_equal_render (es : List Event) :
    (run es initial_state).active_buffer ≠ (run es initial_state).display_buffer ∧
    (run es initial_state).active_buffer ≠ (run es initial_state).render_buffer ∧
    (lcd_framebuffer_prepare_display_frame (run es initial_state)).2.render_buffer =
      (if (lcd_framebuffer_prepare_display_frame (run es initial_state)).1
        then (lcd_framebuffer_prepare_display_frame (run es initial_state)).2.display_buffer
        else (run es initial_state).render_buffer) := by
  have h := pipelineInv_run es initial_state pipelineInv_initial
  refine ⟨h.2.1, h.1, ?_⟩
  generalize run es initial_state = s
  cases hi : s.framebuffer_initialized <;>
    cases hr : (s.frame_buffers s.display_buffer).ready <;>
    simp [lcd_framebuffer_prepare_display_frame, hi, hr]

/-! ## Completion followed by prepare -/

/-- C3 fails as stated: once capture has been stopped, a completion interrupt
is dropped by the guard on `auto_capture_enabled`, and the
`prepare_display_frame` that follows reports "no new frame". -/
theorem completion_while_stopped_then_prepare_fails :
    (run stopped_events initial_state).auto_capture_enabled = false ∧
    dma_capture_irq_handler true 7 7 (run stopped_events initial_state)
      = run stopped_events initial_state ∧
    (lcd_framebuffer_prepare_display_frame
      (dma_capture_irq_handler true 7 7 (run stopped_events initial_state))).1 = false := by
  refine ⟨by decide, ?_, by decide⟩
  simp [dma_capture_irq_handler, show (run stopped_events initial_state).auto_capture_enabled
    = false by decide]

/-- C3 as amended: in every reachable state in which auto-capture is enabled, a
completion interrupt followed immediately by `prepare_display_frame` gives
success, the render slot is the slot that was active when the completion fired,
that slot carries the newest sequence number `get_frame_count()`,
`get_render_data()` returns the bytes of that slot, and no slot stamped with a
different sequence number is the render slot. -/
theorem completion_then_prepare_publishes_completed (es : List Event) (t1 t2 : Nat)
    (hen : (run es initial_state).auto_capture_enabled = true) :
    (lcd_framebuffer_prepare_display_frame
      (dma_capture_irq_handler true t1 t2 (run es initial_state))).1 = true ∧
    (lcd_framebuffer_prepare_display_frame
      (dma_capture_irq_handler true t1 t2 (run es initial_state))).2.render_buffer
        = (run es initial_state).active_buffer ∧
    ((lcd_framebuffer_prepare_display_frame
      (dma_capture_irq_handler true t1 t2 (run es initial_state))).2.frame_buffers
        (run es initial_state).active_buffer).frame_id
        = lcd_framebuffer_get_frame_count (lcd_framebuffer_prepare_display_frame
            (dma_capture_irq_handler true t1 t2 (run es initial_state))).2 ∧
    lcd_framebuffer_get_render_data (lcd_framebuffer_prepare_display_frame
      (dma_capture_irq_handler true t1 t2 (run es initial_state))).2
        = some ((run es initial_state).frame_buffers (run es initial_state).active_buffer).data ∧
    (∀ i : Fin 3,
      ((lcd_framebuffer_prepare_display_frame
        (dma_capture_irq_handler true t1 t2 (run es initial_state))).2.frame_buffers i).frame_id
        ≠ lcd_framebuffer_get_frame_count (lcd_framebuffer_prepare_display_frame
            (dma_capture_irq_handler true t1 t2 (run es initial_state))).2 →
      i ≠ (lcd_framebuffer_prepare_display_frame
        (dma_capture_irq_handler true t1 t2 (run es initial_state))).2.render_buffer) := by
  have h := pipelineInv_run es initial_state pipelineInv_initial
  generalize run es initial_state = s at h hen ⊢
  have hinit : s.framebuffer_initialized = true := h.2.2.1 hen
  have hn := next_active_buffer_ne s.render_buffer s.active_buffer s.active_buffer
  simp only [dma_capture_irq_handler, lcd_framebuffer_prepare_display_frame,
    lcd_framebuffer_get_render_data, lcd_framebuffer_get_frame_count, hen, hinit, if_true,
    Bool.not_true, Bool.false_eq_true, if_false, Function.update_same,
    Function.update_noteq hn.2.symm]
  refine ⟨trivial, trivial, trivial, trivial, fun i hi hir => hi ?_⟩
  rw [hir, Function.update_noteq hn.2.symm, Function.update_same]

/-- The amended C3 applied to the state right after the first completed frame,
where auto-capture is enabled. -/
theorem completion_then_prepare_publishes_completed_witness :
    (run first_frame_events initial_state).auto_capture_enabled = true ∧
    (lcd_framebuffer_prepare_display_frame
      (dma_capture_irq_handler true 5 6 (run first_frame_events initial_state))).2.render_buffer
        = (run first_frame_events initial_state).active_buffer :=
  ⟨by decide, (completion_then_prepare_publishes_completed first_frame_events 5 6 (by decide)).2.1⟩

/-! ## prepare_display_frame and get_render_data -/

/-- C4 fails as stated: with one completed frame pending, the first
`prepare_display_frame` succeeds and a second call, with no completion in
between, succeeds again instead of reporting "no new frame". -/
theorem second_prepare_succeeds_again :
    (lcd_framebuffer_prepare_display_frame (run first_frame_events initial_state)).1 = true ∧
    (lcd_framebuffer_prepare_display_frame
      (lcd_framebuffer_prepare_display_frame (run first_frame_events initial_state)).2).1
        = true := by
  decide

/-- C4 as amended: in every state, the first `prepare_display_frame` succeeds
exactly when the pipeline is initialised and the display slot is ready, and a
second call with no event in between returns the same result as the first and
leaves the state as the first call left it. -/
theorem prepare_display_frame_repeat (s : State) :
    (lcd_framebuffer_prepare_display_frame s).1
      = (s.framebuffer_initialized && (s.frame_buffers s.display_buffer).ready) ∧
    lcd_framebuffer_prepare_display_frame (lcd_framebuffer_prepare_display_frame s).2
      = lcd_framebuffer_prepare_display_frame s := by
  cases hi : s.framebuffer_initialized <;>
    cases hr : (s.frame_buffers s.display_buffer).ready <;>
    simp [lcd_framebuffer_prepare_display_frame, hi, hr]

/-- C5: whenever `prepare_display_frame` returns success, `get_render_data`
called right after returns a non-null view (the bytes of the render slot) and
the render slot's `ready` flag is true. -/
theorem render_data_available_after_prepare (s : State)
    (hok : (lcd_framebuffer_prepare_display_frame s).1 = true) :
    lcd_framebuffer_get_render_data (lcd_framebuffer_prepare_display_frame s).2
      = some ((lcd_framebuffer_prepare_display_frame s).2.frame_buffers
          (lcd_framebuffer_prepare_display_frame s).2.render_buffer).data ∧
    (lcd_framebuffer_get_render_data (lcd_framebuffer_prepare_display_frame s).2).isSome = true ∧
    ((lcd_framebuffer_prepare_display_frame s).2.frame_buffers
      (lcd_framebuffer_prepare_display_frame s).2.render_buffer).ready = true := by
  revert hok
  cases hi : s.framebuffer_initialized <;>
    cases hr : (s.frame_buffers s.display_buffer).ready <;>
    simp [lcd_framebuffer_prepare_display_frame, lcd_framebuffer_get_render_data, hi, hr]

/-- C5 applied to the state right after the first completed frame, where
`prepare_display_frame` succeeds. -/
theorem render_data_available_after_prepare_witness :
    (lcd_framebuffer_prepare_display_frame (run first_frame_events initial_state)).1 = true ∧
    (lcd_framebuffer_get_render_data
      (lcd_framebuffer_prepare_display_frame (run first_frame_events initial_state)).2).isSome
        = true :=
  ⟨by decide,
    (render_data_available_after_prepare (run first_frame_events initial_state) (by decide)).2.1⟩

/-- C7: `prepare_display_frame` returns success exactly when the pipeline is
initialised and the display slot is ready; on success the new state is the old
one with `render_buffer := display_buffer` and nothing else changed; otherwise
the state is unchanged. -/
theorem prepare_display_frame_effect (s : State) :
    (lcd_framebuffer_prepare_display_frame s).1
      = (s.framebuffer_initialized && (s.frame_buffers s.display_buffer).ready) ∧
    (lcd_framebuffer_prepare_display_frame s).2
      = (if (lcd_framebuffer_prepare_display_frame s).1
          then { s with render_buffer := s.display_buffer } else s) := by
  cases hi : s.framebuffer_initialized <;>
    cases hr : (s.frame_buffers s.display_buffer).ready <;>
    simp [lcd_framebuffer_prepare_display_frame, hi, hr]

/-! ## The completion handler -/

/-- C6: on a handled completion (auto-capture enabled, active different from
render), with `c` the previously active slot: slot `c` becomes ready and not
capturing and is stamped with the incremented frame counter and the computed
interval; display becomes `c`; render is unchanged; the new active slot differs
from `c` and from render and is the only such index; and the new active slot is
capturing and not ready. -/
theorem dma_completion_effect (s : State) (t1 t2 : Nat)
    (hen : s.auto_capture_enabled = true) (hne : s.active_buffer ≠ s.render_buffer) :
    ((dma_capture_irq_handler true t1 t2 s).frame_buffers s.active_buffer).ready = true ∧
    ((dma_capture_irq_handler true t1 t2 s).frame_buffers s.active_buffer).capturing = false ∧
    (dma_capture_irq_handler true t1 t2 s).frame_counter = (s.frame_counter + 1) % 2 ^ 32 ∧
    ((dma_capture_irq_handler true t1 t2 s).frame_buffers s.active_buffer).frame_id
      = (s.frame_counter + 1) % 2 ^ 32 ∧
    ((dma_capture_irq_handler true t1 t2 s).frame_buffers s.active_buffer).frame_to_dma_interval_us
      = frame_to_dma_interval s.frame_start_time (t1 % 2 ^ 64) ∧
    (dma_capture_irq_handler true t1 t2 s).display_buffer = s.active_buffer ∧
    (dma_capture_irq_handler true t1 t2 s).render_buffer = s.render_buffer ∧
    (dma_capture_irq_handler true t1 t2 s).active_buffer ≠ s.active_buffer ∧
    (dma_capture_irq_handler true t1 t2 s).active_buffer ≠ s.render_buffer ∧
    (∀ i : Fin 3, i ≠ s.active_buffer ∧ i ≠ s.render_buffer ↔
      i = (dma_capture_irq_handler true t1 t2 s).active_buffer) ∧
    ((dma_capture_irq_handler true t1 t2 s).frame_buffers
      (dma_capture_irq_handler true t1 t2 s).active_buffer).capturing = true ∧
    ((dma_capture_irq_handler true t1 t2 s).frame_buffers
      (dma_capture_irq_handler true t1 t2 s).active_buffer).ready = false := by
  have hn := next_active_buffer_ne s.render_buffer s.active_buffer s.active_buffer
  have huniq : ∀ r c a i : Fin 3, c ≠ r →
      (i ≠ c ∧ i ≠ r ↔ i = next_active_buffer r c a) := by decide
  simp only [dma_capture_irq_handler, hen, if_true, Bool.not_true, Bool.false_eq_true, if_false,
    Function.update_same, Function.update_noteq hn.2.symm]
  exact ⟨trivial, trivial, trivial, trivial, trivial, trivial, trivial, hn.2, hn.1,
    fun i => huniq s.render_buffer s.active_buffer s.active_buffer i hne, trivial, trivial⟩

/-- C6 applied to the state right after the first completed frame, where
auto-capture is enabled and the roles are (1, 0, 2). -/
theorem dma_completion_effect_witness :
    (run first_frame_events initial_state).auto_capture_enabled = true ∧
    (run first_frame_events initial_state).active_buffer
      ≠ (run first_frame_events initial_state).render_buffer ∧
    (dma_capture_irq_handler true 5 6 (run first_frame_events initial_state)).display_buffer
      = (run first_frame_events initial_state).active_buffer :=
  ⟨by decide, by decide,
    (dma_completion_effect (run first_frame_events initial_state) 5 6
      (by decide) (by decide)).2.2.2.2.2.1⟩

/-! ## Capturing flags and recovery -/

/-- C8: in every reachable state a slot has `capturing = true` exactly when
auto-capture is enabled and the slot is the active one; so with capture enabled
the active slot is the one capturing slot, and with capture not enabled (before
`init_auto_capture`, after `stop_auto_capture`) no slot is capturing. -/
theorem capturing_iff_enabled_and_active (es : List Event) :
    (∀ i : Fin 3, ((run es initial_state).frame_buffers i).capturing = true ↔
      ((run es initial_state).auto_capture_enabled = true ∧
        i = (run es initial_state).active_buffer)) ∧
    ((run es initial_state).auto_capture_enabled = true →
      ∀ i : Fin 3, ((run es initial_state).frame_buffers i).capturing = true ↔
        i = (run es initial_state).active_buffer) ∧
    ((run es initial_state).auto_capture_enabled = false →
      ∀ i : Fin 3, ((run es initial_state).frame_buffers i).capturing = false) := by
  have h := (pipelineInv_run es initial_state pipelineInv_initial).2.2.2
  refine ⟨fun i => ?_, fun hen i => ?_, fun hen i => ?_⟩
  · rw [h i]; simp
  · rw [h i, hen]; simp
  · rw [h i, hen]; simp

/-- C9: `reset_capture_system` succeeds exactly when the pipeline is
initialised and auto-capture is enabled. After a success the roles are
(active, display, render) = (0, 1, 2), every slot has `ready = false` and
interval 0, slot 0 is the only slot with `capturing = true`, and the frame-start
timestamp is 0. After a failure the state is unchanged. -/
theorem reset_capture_system_effect (s : State) :
    (lcd_framebuffer_reset_capture_system s).1
      = (s.framebuffer_initialized && s.auto_capture_enabled) ∧
    ((lcd_framebuffer_reset_capture_system s).1 = true →
      (lcd_framebuffer_reset_capture_system s).2.active_buffer = 0 ∧
      (lcd_framebuffer_reset_capture_system s).2.display_buffer = 1 ∧
      (lcd_framebuffer_reset_capture_system s).2.render_buffer = 2 ∧
      (∀ i : Fin 3,
        ((lcd_framebuffer_reset_capture_system s).2.frame_buffers i).ready = false ∧
        ((lcd_framebuffer_reset_capture_system s).2.frame_buffers i).frame_to_dma_interval_us
          = 0) ∧
      ((lcd_framebuffer_reset_capture_system s).2.frame_buffers 0).capturing = true ∧
      ((lcd_framebuffer_reset_capture_system s).2.frame_buffers 1).capturing = false ∧
      ((lcd_framebuffer_reset_capture_system s).2.frame_buffers 2).capturing = false ∧
      (lcd_framebuffer_reset_capture_system s).2.frame_start_time = 0) ∧
    ((lcd_framebuffer_reset_capture_system s).1 = false →
      (lcd_framebuffer_reset_capture_system s).2 = s) := by
  have h10 : (1 : Fin 3) ≠ 0 := by decide
  have h20 : (2 : Fin 3) ≠ 0 := by decide
  cases hi : s.framebuffer_initialized <;> cases he : s.auto_capture_enabled <;>
    simp [lcd_framebuffer_reset_capture_system, hi, he, Function.update_noteq h10,
      Function.update_noteq h20]
  intro i
  by_cases hi0 : i = 0
  · subst hi0; simp
  · simp [Function.update_noteq hi0]

/-! ## Timing monitor -/

/-- C10: starting from a zero anomaly counter, for all sample values: two
anomalous samples followed by one in-window sample call the recovery procedure
zero times and leave the counter at 0; three anomalous samples in a row call it
exactly once, on the third sample, and leave the counter at 0. -/
theorem monitor_threshold (a b c : Int) :
    (timing_anomalous a = true → timing_anomalous b = true → timing_anomalous c = false →
      feed_samples [a, b, c] 0 = (0, [false, false, false])) ∧
    (timing_anomalous a = true → timing_anomalous b = true → timing_anomalous c = true →
      feed_samples [a, b, c] 0 = (0, [false, false, true])) := by
  refine ⟨fun ha hb hc => ?_, fun ha hb hc => ?_⟩ <;>
    simp [feed_samples, frame_check_sample, ha, hb, hc]

/-! ## Lemmas on the transform engine -/

theorem and_one_shiftLeft_ne_zero (b k : Nat) :
    (b &&& (1 <<< k) ≠ 0) ↔ b.testBit k = true := by
  rw [Nat.one_shiftLeft]
  constructor
  · intro h
    by_contra hc
    apply h
    apply Nat.eq_of_testBit_eq
    intro i
    simp only [Nat.testBit_and, Nat.testBit_two_pow, Nat.zero_testBit, Bool.and_eq_false_imp,
      decide_eq_false_iff_not]
    intro hb hki
    subst hki
    exact hc hb
  · intro h hz
    have := congrArg (fun n => n.testBit k) hz
    simp [Nat.testBit_and, Nat.testBit_two_pow, h] at this

theorem testBit_one_shiftLeft (p k : Nat) : (1 <<< p).testBit k = decide (p = k) := by
  rw [Nat.one_shiftLeft, Nat.testBit_two_pow]

theorem testBit_apply_writes (ws : List (Nat × Nat)) (fb : Nat → Nat) (i k : Nat) :
    (apply_writes ws fb i).testBit k = true ↔
      ((fb i).testBit k = true ∨ ∃ w ∈ ws, w.1 = i ∧ w.2.testBit k = true) := by
  unfold apply_writes
  induction ws generalizing fb with
  | nil => simp
  | cons w ws ih =>
    rw [List.foldl_cons, ih]
    by_cases hi : i = w.1
    · simp only [or_write, hi, if_true, Nat.testBit_or, Bool.or_eq_true, List.mem_cons,
        exists_eq_or_imp, true_and]
      tauto
    · have hi2 : ¬ w.1 = i := fun h => hi h.symm
      simp only [or_write, hi, if_false, List.mem_cons, exists_eq_or_imp, hi2, false_and,
        false_or]

theorem clear_pages_apply (n : Nat) (fb : Nat → Nat) (i : Nat) :
    (List.range n).foldl (fun fb page => memset fb (page * FB_COLS) 0 320) fb i
      = if i < n * 320 then 0 else fb i := by
  induction n with
  | zero => simp
  | succ n ih =>
    rw [List.range_succ, List.foldl_append, List.foldl_cons, List.foldl_nil]
    simp only [memset]
    rw [ih]
    simp only [FB_COLS]
    split_ifs <;> first | rfl | omega

theorem clear_display_area_apply (fb : Nat → Nat) (i : Nat) :
    clear_display_area fb i = if i < 9600 then 0 else fb i := by
  unfold clear_display_area
  rw [clear_pages_apply]

theorem mem_frame_writes (f : Nat → Nat → Nat → List (Nat × Nat)) (src : List Nat)
    (w : Nat × Nat) :
    w ∈ frame_writes f src ↔
      ∃ y, y < 240 ∧ ∃ xb, xb < 30 ∧ w ∈ f y xb (src.getD (y * 30 + xb) 0) := by
  simp only [frame_writes, List.mem_flatMap, List.mem_range]

theorem getD_map_range (f : Nat → Nat) (i : Nat) (h : i < 240) :
    ((List.range 240).map f).getD i 0 = f i := by
  simp [List.getD_eq_getElem?_getD, h]

theorem horizontal_320_map_get (i : Nat) (h : i < 240) :
    scale_tables.horizontal_320_map.getD i 0 = (i * 4) / 3 :=
  getD_map_range (fun i => (i * 4) / 3) i h

theorem horizontal_320_fill_get (i : Nat) (h : i < 240) :
    scale_tables.horizontal_320_fill.getD i 0 = if i % 3 ≠ 0 then (i * 4) / 3 + 1 else 0 :=
  getD_map_range (fun i => if i % 3 ≠ 0 then (i * 4) / 3 + 1 else 0) i h

theorem y_to_fb_offset_get (i : Nat) (h : i < 240) :
    scale_tables.y_to_fb_offset.getD i 0 = (i / 8) * 320 :=
  getD_map_range (fun i => (i / 8) * FB_COLS) i h

theorem y_to_bit_mask_get (i : Nat) (h : i < 240) :
    scale_tables.y_to_bit_mask.getD i 0 = 1 <<< (i % 8) :=
  getD_map_range (fun i => 1 <<< (i % 8)) i h

theorem mem_bit_writes (byte : Nat) (A B : Nat → Nat × Nat) (C : Nat → Prop)
    [DecidablePred C] (w : Nat × Nat) :
    w ∈ (List.range 8).flatMap (fun b =>
        if byte &&& (1 <<< b) ≠ 0 then A b :: (if C b then [B b] else []) else []) ↔
      ∃ b, b < 8 ∧ byte.testBit b = true ∧ (w = A b ∨ (C b ∧ w = B b)) := by
  simp only [List.mem_flatMap, List.mem_range]
  constructor
  · rintro ⟨b, hb, hw⟩
    by_cases h1 : byte &&& (1 <<< b) ≠ 0
    · rw [if_pos h1] at hw
      refine ⟨b, hb, (and_one_shiftLeft_ne_zero byte b).1 h1, ?_⟩
      by_cases h2 : C b
      · rw [if_pos h2] at hw
        simp only [List.mem_cons, List.mem_singleton, List.not_mem_nil, or_false] at hw
        rcases hw with hw | hw
        · exact Or.inl hw
        · exact Or.inr ⟨h2, hw⟩
      · rw [if_neg h2] at hw
        simp only [List.mem_cons, List.not_mem_nil, or_false] at hw
        exact Or.inl hw
    · rw [if_neg h1] at hw
      exact absurd hw (List.not_mem_nil _)
  · rintro ⟨b, hb, hbit, hw⟩
    refine ⟨b, hb, ?_⟩
    rw [if_pos ((and_one_shiftLeft_ne_zero byte b).2 hbit)]
    rcases hw with hw | ⟨h2, hw⟩
    · exact hw ▸ List.mem_cons_self _ _
    · rw [if_pos h2, hw]
      simp

theorem mem_rot0_byte_writes (y xb byte : Nat) (hxb : xb < 30) (w : Nat × Nat) :
    w ∈ rot0_byte_writes scale_tables y xb byte ↔
      ∃ b, b < 8 ∧ byte.testBit b = true ∧
        (w = ((y / 8) * 320 + ((xb * 8 + b) * 4) / 3, 1 <<< (y % 8)) ∨
          ((xb * 8 + b) % 3 ≠ 0 ∧
            w = ((y / 8) * 320 + (((xb * 8 + b) * 4) / 3 + 1), 1 <<< (y % 8)))) := by
  unfold rot0_byte_writes
  by_cases h0 : byte = 0
  · subst h0; simp
  · simp only [h0, if_false]
    rw [mem_bit_writes byte
      (fun b => (y / 8 * FB_COLS + scale_tables.horizontal_320_map.getD (xb * 8 + b) 0,
        1 <<< (y % 8)))
      (fun b => (y / 8 * FB_COLS + scale_tables.horizontal_320_fill.getD (xb * 8 + b) 0,
        1 <<< (y % 8)))
      (fun b => scale_tables.horizontal_320_fill.getD (xb * 8 + b) 0 ≠ 0)]
    apply exists_congr
    intro b
    apply and_congr_right
    intro hb
    have hx : xb * 8 + b < 240 := by omega
    rw [horizontal_320_map_get _ hx, horizontal_320_fill_get _ hx]
    by_cases h3 : (xb * 8 + b) % 3 = 0
    · simp [h3, FB_COLS]
    · simp [h3, FB_COLS]

theorem mem_rot90_byte_writes (y xb byte : Nat) (hy : y < 240) (hxb : xb < 30)
    (w : Nat × Nat) :
    w ∈ rot90_byte_writes scale_tables y xb byte ↔
      ∃ b, b < 8 ∧ byte.testBit b = true ∧
        (w = (((xb * 8 + b) / 8) * 320 + (319 - (y * 4) / 3), 1 <<< ((xb * 8 + b) % 8)) ∨
          (y % 3 ≠ 0 ∧
            w = (((xb * 8 + b) / 8) * 320 + (319 - (y * 4) / 3) - 1,
              1 <<< ((xb * 8 + b) % 8)))) := by
  unfold rot90_byte_writes
  by_cases h0 : byte = 0
  · subst h0; simp
  · simp only [h0, if_false]
    refine (mem_bit_writes byte _ _ _ w).trans ?_
    apply exists_congr
    intro b
    apply and_congr_right
    intro hb
    have hx : xb * 8 + b < 240 := by omega
    rw [horizontal_320_map_get _ hy, horizontal_320_fill_get _ hy, y_to_fb_offset_get _ hx,
      y_to_bit_mask_get _ hx]
    have h1 : 0 < 319 - y * 4 / 3 := by omega
    by_cases h3 : y % 3 = 0
    · simp [h3]
    · simp [h3, h1]

theorem mem_rot180_byte_writes (y xb byte : Nat) (hxb : xb < 30) (w : Nat × Nat) :
    w ∈ rot180_byte_writes scale_tables y xb byte ↔
      ∃ b, b < 8 ∧ byte.testBit b = true ∧
        (w = (((239 - y) / 8) * 320 + (319 - ((xb * 8 + b) * 4) / 3),
            1 <<< ((239 - y) % 8)) ∨
          ((xb * 8 + b) % 3 ≠ 0 ∧
            w = (((239 - y) / 8) * 320 + (319 - ((xb * 8 + b) * 4) / 3 - 1),
              1 <<< ((239 - y) % 8)))) := by
  unfold rot180_byte_writes
  by_cases h0 : byte = 0
  · subst h0; simp
  · simp only [h0, if_false]
    refine (mem_bit_writes byte _ _ _ w).trans ?_
    apply exists_congr
    intro b
    apply and_congr_right
    intro hb
    have hx : xb * 8 + b < 240 := by omega
    rw [horizontal_320_map_get _ hx, horizontal_320_fill_get _ hx]
    have h1 : 0 < 319 - (xb * 8 + b) * 4 / 3 := by omega
    by_cases h3 : (xb * 8 + b) % 3 = 0
    · simp [h3, FB_COLS]
    · simp [h3, h1, FB_COLS]

theorem mem_rot270_byte_writes (y xb byte : Nat) (hy : y < 240) (w : Nat × Nat) :
    w ∈ rot270_byte_writes scale_tables y xb byte ↔
      ∃ b, b < 8 ∧ byte.testBit b = true ∧
        (w = (((239 - (xb * 8 + b)) / 8) * 320 + (y * 4) / 3,
            1 <<< ((239 - (xb * 8 + b)) % 8)) ∨
          (y % 3 ≠ 0 ∧
            w = (((239 - (xb * 8 + b)) / 8) * 320 + (y * 4) / 3 + 1,
              1 <<< ((239 - (xb * 8 + b)) % 8)))) := by
  unfold rot270_byte_writes
  by_cases h0 : byte = 0
  · subst h0; simp
  · simp only [h0, if_false]
    refine (mem_bit_writes byte _ _ _ w).trans ?_
    apply exists_congr
    intro b
    apply and_congr_right
    intro hb
    have hx : 239 - (xb * 8 + b) < 240 := by omega
    rw [horizontal_320_map_get _ hy, horizontal_320_fill_get _ hy, y_to_fb_offset_get _ hx,
      y_to_bit_mask_get _ hx]
    have h1 : y * 4 / 3 < 319 := by omega
    by_cases h3 : y % 3 = 0
    · simp [h3]
    · simp [h3, h1]

/-- The bits of the output in terms of the source pixels, for a rotation whose
per-byte writes are: for each set bit `x` of row `y`, the mask `1 <<< K x y` at
index `I x y`, and the same mask at index `J x y` when `C x y` holds. -/
theorem output_bit_of_byte_writes (f : Nat → Nat → Nat → List (Nat × Nat))
    (I J K : Nat → Nat → Nat) (C : Nat → Nat → Prop)
    (hf : ∀ y xb byte w, y < 240 → xb < 30 →
      (w ∈ f y xb byte ↔ ∃ b, b < 8 ∧ byte.testBit b = true ∧
        (w = (I (xb * 8 + b) y, 1 <<< K (xb * 8 + b) y) ∨
          (C (xb * 8 + b) y ∧ w = (J (xb * 8 + b) y, 1 <<< K (xb * 8 + b) y)))))
    (src : List Nat) (fb : Nat → Nat) (idx k : Nat) (hidx : idx < 9600) :
    (apply_writes (frame_writes f src) (clear_display_area fb) idx).testBit k = true ↔
      ∃ x, x < 240 ∧ ∃ y, y < 240 ∧ source_pixel src x y = true ∧ k = K x y ∧
        (idx = I x y ∨ (C x y ∧ idx = J x y)) := by
  rw [testBit_apply_writes, clear_display_area_apply, if_pos hidx]
  simp only [Nat.zero_testBit, Bool.false_eq_true, false_or]
  constructor
  · rintro ⟨w, hw, hi, hk⟩
    obtain ⟨y, hy, xb, hxb, hw2⟩ := (mem_frame_writes f src w).1 hw
    obtain ⟨b, hb, hbit, hcase⟩ := (hf y xb _ w hy hxb).1 hw2
    have hx8 : (xb * 8 + b) / 8 = xb := by omega
    have hxm : (xb * 8 + b) % 8 = b := by omega
    refine ⟨xb * 8 + b, by omega, y, hy, ?_, ?_, ?_⟩
    · simpa [source_pixel, hx8, hxm] using hbit
    · rcases hcase with hc | ⟨_, hc⟩ <;>
        · rw [hc, testBit_one_shiftLeft] at hk
          exact (of_decide_eq_true hk).symm
    · rcases hcase with hc | ⟨hC, hc⟩
      · left; rw [hc] at hi; exact hi.symm
      · right; rw [hc] at hi; exact ⟨hC, hi.symm⟩
  · rintro ⟨x, hx, y, hy, hpix, hk, hcase⟩
    have hxx : x / 8 * 8 + x % 8 = x := by omega
    have hmem : ∀ w, (w = (I x y, 1 <<< K x y) ∨ (C x y ∧ w = (J x y, 1 <<< K x y))) →
        w ∈ frame_writes f src := by
      intro w hw
      refine (mem_frame_writes f src w).2 ⟨y, hy, x / 8, by omega, ?_⟩
      refine (hf y (x / 8) _ w hy (by omega)).2 ⟨x % 8, by omega, ?_, ?_⟩
      · simpa [source_pixel] using hpix
      · rw [hxx]; exact hw
    rcases hcase with hi | ⟨hC, hi⟩
    · exact ⟨_, hmem _ (Or.inl rfl), hi.symm, by rw [testBit_one_shiftLeft, hk]; simp⟩
    · exact ⟨_, hmem _ (Or.inr ⟨hC, rfl⟩), hi.symm, by rw [testBit_one_shiftLeft, hk]; simp⟩

theorem clear_display_area_idem (fb : Nat → Nat) :
    clear_display_area (clear_display_area fb) = clear_display_area fb := by
  funext i
  rw [clear_display_area_apply, clear_display_area_apply]
  split_ifs <;> rfl

theorem transform_output_rot0 (src : List Nat) (fb : Nat → Nat) :
    transform_output 0 src fb
      = apply_writes (frame_writes (rot0_byte_writes scale_tables) src)
          (clear_display_area fb) := by
  unfold transform_output
  rw [lcd_update_from_1bit_framebuffer]
  simp

theorem transform_output_rot90 (src : List Nat) (fb : Nat → Nat) :
    transform_output 1 src fb
      = apply_writes (frame_writes (rot90_byte_writes scale_tables) src)
          (clear_display_area fb) := by
  unfold transform_output
  rw [lcd_update_from_1bit_framebuffer]
  simp

theorem transform_output_rot180 (src : List Nat) (fb : Nat → Nat) :
    transform_output 2 src fb
      = apply_writes (frame_writes (rot180_byte_writes scale_tables) src)
          (clear_display_area fb) := by
  unfold transform_output
  rw [lcd_update_from_1bit_framebuffer]
  simp

theorem transform_output_rot270 (src : List Nat) (fb : Nat → Nat) :
    transform_output 3 src fb
      = apply_writes (frame_writes (rot270_byte_writes scale_tables) src)
          (clear_display_area fb) := by
  unfold transform_output
  rw [lcd_update_from_1bit_framebuffer]
  simp

theorem rot0_output_bit (src : List Nat) (fb : Nat → Nat) (idx k : Nat) (hidx : idx < 9600) :
    (transform_output 0 src fb idx).testBit k = true ↔
      ∃ x, x < 240 ∧ ∃ y, y < 240 ∧ source_pixel src x y = true ∧ k = y % 8 ∧
        (idx = (y / 8) * 320 + (x * 4) / 3 ∨
          (x % 3 ≠ 0 ∧ idx = (y / 8) * 320 + ((x * 4) / 3 + 1))) := by
  rw [transform_output_rot0]
  exact output_bit_of_byte_writes _ (fun x y => (y / 8) * 320 + (x * 4) / 3)
    (fun x y => (y / 8) * 320 + ((x * 4) / 3 + 1)) (fun _ y => y % 8) (fun x _ => x % 3 ≠ 0)
    (fun y xb byte w _ hxb => mem_rot0_byte_writes y xb byte hxb w) src fb idx k hidx

theorem rot90_output_bit (src : List Nat) (fb : Nat → Nat) (idx k : Nat) (hidx : idx < 9600) :
    (transform_output 1 src fb idx).testBit k = true ↔
      ∃ x, x < 240 ∧ ∃ y, y < 240 ∧ source_pixel src x y = true ∧ k = x % 8 ∧
        (idx = (x / 8) * 320 + (319 - (y * 4) / 3) ∨
          (y % 3 ≠ 0 ∧ idx = (x / 8) * 320 + (319 - (y * 4) / 3) - 1)) := by
  rw [transform_output_rot90]
  exact output_bit_of_byte_writes _ (fun x y => (x / 8) * 320 + (319 - (y * 4) / 3))
    (fun x y => (x / 8) * 320 + (319 - (y * 4) / 3) - 1) (fun x _ => x % 8)
    (fun _ y => y % 3 ≠ 0)
    (fun y xb byte w hy hxb => mem_rot90_byte_writes y xb byte hy hxb w) src fb idx k hidx

theorem rot180_output_bit (src : List Nat) (fb : Nat → Nat) (idx k : Nat) (hidx : idx < 9600) :
    (transform_output 2 src fb idx).testBit k = true ↔
      ∃ x, x < 240 ∧ ∃ y, y < 240 ∧ source_pixel src x y = true ∧ k = (239 - y) % 8 ∧
        (idx = ((239 - y) / 8) * 320 + (319 - (x * 4) / 3) ∨
          (x % 3 ≠ 0 ∧ idx = ((239 - y) / 8) * 320 + (319 - (x * 4) / 3 - 1))) := by
  rw [transform_output_rot180]
  exact output_bit_of_byte_writes _ (fun x y => ((239 - y) / 8) * 320 + (319 - (x * 4) / 3))
    (fun x y => ((239 - y) / 8) * 320 + (319 - (x * 4) / 3 - 1)) (fun _ y => (239 - y) % 8)
    (fun x _ => x % 3 ≠ 0)
    (fun y xb byte w _ hxb => mem_rot180_byte_writes y xb byte hxb w) src fb idx k hidx

theorem rot270_output_bit (src : List Nat) (fb : Nat → Nat) (idx k : Nat) (hidx : idx < 9600) :
    (transform_output 3 src fb idx).testBit k = true ↔
      ∃ x, x < 240 ∧ ∃ y, y < 240 ∧ source_pixel src x y = true ∧ k = (239 - x) % 8 ∧
        (idx = ((239 - x) / 8) * 320 + (y * 4) / 3 ∨
          (y % 3 ≠ 0 ∧ idx = ((239 - x) / 8) * 320 + (y * 4) / 3 + 1)) := by
  rw [transform_output_rot270]
  exact output_bit_of_byte_writes _ (fun x y => ((239 - x) / 8) * 320 + (y * 4) / 3)
    (fun x y => ((239 - x) / 8) * 320 + (y * 4) / 3 + 1) (fun x _ => (239 - x) % 8)
    (fun _ y => y % 3 ≠ 0)
    (fun y xb byte w hy _ => mem_rot270_byte_writes y xb byte hy w) src fb idx k hidx

theorem getD_map_range_bool (f : Nat → Bool) (i : Nat) (h : i < 240) :
    ((List.range 240).map f).getD i false = f i := by
  simp [List.getD_eq_getElem?_getD, h]

theorem scale_fill_map_get (i : Nat) (h : i < 240) :
    scale_tables.scale_fill_map.getD i false = decide (i % 3 ≠ 0) :=
  getD_map_range_bool (fun i => decide (i % 3 ≠ 0)) i h

theorem scale_map_240_to_320_get (i : Nat) (h : i < 240) :
    scale_tables.scale_map_240_to_320.getD i 0 = (i * 4) / 3 :=
  getD_map_range (fun i => (i * 4) / 3) i h

theorem x_scale_map_get (i : Nat) (h : i < 240) :
    scale_tables.x_scale_map.getD i 0 = (i * 4) / 3 :=
  getD_map_range (fun i => (i * 4) / 3) i h

/-! ## Scale tables -/

/-- C13 fails as stated: the scale map sends the last source index 239 to
`(239 * 4) / 3 = 318`, not to 319, in each of the three copies of the map. -/
theorem scale_map_last_is_318 :
    scale_tables.horizontal_320_map.getD 239 0 = 318 ∧
    scale_tables.scale_map_240_to_320.getD 239 0 = 318 ∧
    scale_tables.x_scale_map.getD 239 0 = 318 ∧
    scale_tables.horizontal_320_map.getD 239 0 ≠ 319 := by
  refine ⟨rfl, rfl, rfl, ?_⟩
  rw [show scale_tables.horizontal_320_map.getD 239 0 = 318 from rfl]
  decide

/-- C13 as amended: the scale map sends the last source index 239 to 318, no
entry of the map exceeds 318, and the last destination index 319 is the fill
position of source index 239 (`horizontal_320_fill[239] = 319`). -/
theorem scale_map_last_and_fill :
    scale_tables.horizontal_320_map.getD 239 0 = 318 ∧
    scale_tables.horizontal_320_fill.getD 239 0 = 319 ∧
    scale_tables.scale_fill_map.getD 239 false = true ∧
    (∀ i, i < 240 → scale_tables.horizontal_320_map.getD i 0 ≤ 318) := by
  refine ⟨rfl, rfl, rfl, ?_⟩
  intro i hi
  rw [horizontal_320_map_get i hi]
  omega

set_option maxRecDepth 100000 in
/-- C14 fails as stated: 160 of the 240 source indices are marked needs-fill,
not 80. -/
theorem fill_count_is_160 :
    fill_count scale_tables = 160 ∧ fill_count scale_tables ≠ 80 := by
  decide

set_option maxRecDepth 100000 in
/-- C14 as amended: exactly 160 of the 240 source indices are marked
needs-fill, namely the indices `i` with `i % 3 ≠ 0`; for every index the flag
`scale_fill_map[i]` is true exactly when `horizontal_320_fill[i]` is non-zero. -/
theorem fill_marks_two_of_three :
    fill_count scale_tables = 160 ∧
    (∀ i, i < 240 → (scale_tables.scale_fill_map.getD i false = true ↔ i % 3 ≠ 0)) ∧
    (∀ i, i < 240 → (scale_tables.scale_fill_map.getD i false = true ↔
      scale_tables.horizontal_320_fill.getD i 0 ≠ 0)) := by
  refine ⟨by decide, ?_, ?_⟩
  · intro i hi
    rw [scale_fill_map_get i hi]
    simp
  · intro i hi
    rw [scale_fill_map_get i hi, horizontal_320_fill_get i hi]
    by_cases h : i % 3 = 0 <;> simp [h]

/-- C15: each copy of the precomputed scale map equals `floor(4 * i / 3)` at
every `i` in `[0, 240)`, is monotonically non-decreasing over that range, and
maps 0 to 0. -/
theorem scale_map_floor_monotone :
    (∀ i, i < 240 →
      scale_tables.horizontal_320_map.getD i 0 = (4 * i) / 3 ∧
      scale_tables.scale_map_240_to_320.getD i 0 = (4 * i) / 3 ∧
      scale_tables.x_scale_map.getD i 0 = (4 * i) / 3) ∧
    (∀ i j, i ≤ j → j < 240 →
      scale_tables.horizontal_320_map.getD i 0 ≤ scale_tables.horizontal_320_map.getD j 0) ∧
    scale_tables.horizontal_320_map.getD 0 0 = 0 := by
  refine ⟨?_, ?_, rfl⟩
  · intro i hi
    rw [horizontal_320_map_get i hi, scale_map_240_to_320_get i hi, x_scale_map_get i hi]
    omega
  · intro i j hij hj
    rw [horizontal_320_map_get i (by omega), horizontal_320_map_get j hj]
    omega

/-! ## Lemmas on the test sources and on mirroring -/

theorem getD_set_replicate_zero (n i j v : Nat) (hi : i < n) :
    ((List.replicate n 0).set i v).getD j 0 = if j = i then v else 0 := by
  simp only [List.getD_eq_getElem?_getD, List.getElem?_set, List.length_replicate]
  by_cases h : i = j
  · subst h; simp [hi]
  · have h2 : ¬ j = i := fun e => h e.symm
    simp only [h, h2, if_false, List.getElem?_replicate]
    split_ifs <;> simp

theorem getD_replicate (n i v : Nat) (hi : i < n) : (List.replicate n v).getD i 0 = v := by
  simp [List.getD_eq_getElem?_getD, List.getElem?_replicate, hi]

theorem source_pixel_single (x y a b : Nat) (hx : x < 240) (hy : y < 240) (ha : a < 240) :
    source_pixel (single_pixel_source x y) a b = true ↔ a = x ∧ b = y := by
  unfold source_pixel single_pixel_source
  rw [getD_set_replicate_zero 7200 _ _ _ (by omega)]
  split_ifs with h
  · rw [testBit_one_shiftLeft]
    simp only [decide_eq_true_eq]
    omega
  · simp only [Nat.zero_testBit, Bool.false_eq_true, false_iff]
    omega

theorem source_pixel_all_set (x y : Nat) (hx : x < 240) (hy : y < 240) :
    source_pixel all_set_source x y = true := by
  unfold source_pixel all_set_source
  rw [getD_replicate 7200 _ _ (by omega)]
  have h : (255 : Nat) = 2 ^ 8 - 1 := by norm_num
  rw [h, Nat.testBit_two_pow_sub_one]
  simp only [decide_eq_true_eq]
  omega

theorem target_pixel_rot180 (src : List Nat) (fb fb2 : Nat → Nat) (X Y : Nat)
    (hX : X < 320) (hY : Y < 240) :
    target_pixel (transform_output 2 src fb) X Y
      = target_pixel (transform_output 0 src fb2) (319 - X) (239 - Y) := by
  rw [Bool.eq_iff_iff]
  unfold target_pixel
  simp only [FB_COLS]
  rw [rot180_output_bit src fb _ _ (by omega), rot0_output_bit src fb2 _ _ (by omega)]
  apply exists_congr; intro x
  apply and_congr_right; intro hx
  apply exists_congr; intro y
  apply and_congr_right; intro hy
  apply and_congr_right; intro _
  omega

theorem target_pixel_rot270 (src : List Nat) (fb fb2 : Nat → Nat) (X Y : Nat)
    (hX : X < 320) (hY : Y < 240) :
    target_pixel (transform_output 3 src fb) X Y
      = target_pixel (transform_output 1 src fb2) (319 - X) (239 - Y) := by
  rw [Bool.eq_iff_iff]
  unfold target_pixel
  simp only [FB_COLS]
  rw [rot270_output_bit src fb _ _ (by omega), rot90_output_bit src fb2 _ _ (by omega)]
  apply exists_congr; intro x
  apply and_congr_right; intro hx
  apply exists_congr; intro y
  apply and_congr_right; intro hy
  apply and_congr_right; intro _
  omega

theorem rot0_single_bit (x y : Nat) (hx : x < 240) (hy : y < 240) (fb : Nat → Nat)
    (idx k : Nat) (hidx : idx < 9600) :
    (transform_output 0 (single_pixel_source x y) fb idx).testBit k = true ↔
      (k = y % 8 ∧ (idx = (y / 8) * 320 + (4 * x) / 3 ∨
        (x % 3 ≠ 0 ∧ idx = (y / 8) * 320 + ((4 * x) / 3 + 1)))) := by
  rw [rot0_output_bit _ _ _ _ hidx]
  constructor
  · rintro ⟨a, ha, b, _, hpix, hk, hcase⟩
    obtain ⟨rfl, rfl⟩ := (source_pixel_single x y a b hx hy ha).1 hpix
    refine ⟨hk, ?_⟩
    omega
  · rintro ⟨hk, hcase⟩
    refine ⟨x, hx, y, hy, (source_pixel_single x y x y hx hy hx).2 ⟨rfl, rfl⟩, hk, ?_⟩
    omega

theorem rot180_single_bit (x y : Nat) (hx : x < 240) (hy : y < 240) (fb : Nat → Nat)
    (idx k : Nat) (hidx : idx < 9600) :
    (transform_output 2 (single_pixel_source x y) fb idx).testBit k = true ↔
      (k = (239 - y) % 8 ∧ (idx = ((239 - y) / 8) * 320 + (319 - (4 * x) / 3) ∨
        (x % 3 ≠ 0 ∧ idx = ((239 - y) / 8) * 320 + (318 - (4 * x) / 3)))) := by
  rw [rot180_output_bit _ _ _ _ hidx]
  constructor
  · rintro ⟨a, ha, b, _, hpix, hk, hcase⟩
    obtain ⟨rfl, rfl⟩ := (source_pixel_single x y a b hx hy ha).1 hpix
    refine ⟨hk, ?_⟩
    omega
  · rintro ⟨hk, hcase⟩
    refine ⟨x, hx, y, hy, (source_pixel_single x y x y hx hy hx).2 ⟨rfl, rfl⟩, hk, ?_⟩
    omega

/-! ## Single-pixel sources -/

/-- C11: for rotation 0 and every source coordinate `(x, y)` with
`x, y < 240`, the source whose only set bit is pixel `(x, y)` gives an output
in which destination pixel `(floor(4x/3), y)` is set, the adjacent pixel
`(floor(4x/3) + 1, y)` is set exactly when `x` is flagged needs-fill, and every
other bit of the 9,600-byte output is clear, whatever the buffer held before. -/
theorem rot0_single_pixel_output (x y : Nat) (hx : x < 240) (hy : y < 240)
    (fb : Nat → Nat) :
    target_pixel (transform_output 0 (single_pixel_source x y) fb) ((4 * x) / 3) y = true ∧
    (target_pixel (transform_output 0 (single_pixel_source x y) fb) ((4 * x) / 3 + 1) y = true ↔
      scale_tables.scale_fill_map.getD x false = true) ∧
    (∀ idx k, idx < 9600 →
      ((transform_output 0 (single_pixel_source x y) fb idx).testBit k = true ↔
        (k = y % 8 ∧ (idx = (y / 8) * 320 + (4 * x) / 3 ∨
          (scale_tables.scale_fill_map.getD x false = true ∧
            idx = (y / 8) * 320 + ((4 * x) / 3 + 1)))))) := by
  have hflag : scale_tables.scale_fill_map.getD x false = true ↔ x % 3 ≠ 0 := by
    rw [scale_fill_map_get x hx]; simp
  refine ⟨?_, ?_, ?_⟩
  · unfold target_pixel
    simp only [FB_COLS]
    rw [rot0_single_bit x y hx hy fb _ _ (by omega)]
    omega
  · unfold target_pixel
    simp only [FB_COLS]
    rw [rot0_single_bit x y hx hy fb _ _ (by omega), hflag]
    omega
  · intro idx k hidx
    rw [rot0_single_bit x y hx hy fb idx k hidx, hflag]

/-- C11 at source pixel (100, 7): destination pixels (133, 7) and, as 100 is
flagged needs-fill, (134, 7). -/
theorem rot0_single_pixel_output_witness :
    (100 < 240 ∧ 7 < 240) ∧
    target_pixel (transform_output 0 (single_pixel_source 100 7) (fun _ => 0))
      ((4 * 100) / 3) 7 = true :=
  ⟨by decide, (rot0_single_pixel_output 100 7 (by decide) (by decide) (fun _ => 0)).1⟩

/-- C12 fails as stated: at 180 degrees the source with the single set bit
(0, 0) sets destination pixel (319, 239) only, while at 0 degrees the source
with the single set bit (239, 239) also sets pixel (318, 239), which is bit 7
of output byte 9598; the two outputs differ. -/
theorem rot180_differs_from_rot0_of_mirrored_source :
    (transform_output 0 (single_pixel_source 239 239) (fun _ => 0) 9598).testBit 7 = true ∧
    (transform_output 2 (single_pixel_source 0 0) (fun _ => 0) 9598).testBit 7 = false ∧
    transform_output 2 (single_pixel_source 0 0) (fun _ => 0)
      ≠ transform_output 0 (single_pixel_source 239 239) (fun _ => 0) := by
  have h0 : (transform_output 0 (single_pixel_source 239 239) (fun _ => 0) 9598).testBit 7
      = true := by
    rw [rot0_single_bit 239 239 (by decide) (by decide) _ 9598 7 (by decide)]
    decide
  have h2 : (transform_output 2 (single_pixel_source 0 0) (fun _ => 0) 9598).testBit 7
      = false := by
    rw [Bool.eq_false_iff, Ne, rot180_single_bit 0 0 (by decide) (by decide) _ 9598 7 (by decide)]
    decide
  refine ⟨h0, h2, fun heq => ?_⟩
  rw [heq, h0] at h2
  exact Bool.noConfusion h2

/-- C12 as amended: for rotation 180 and every source coordinate `(x, y)`, the
source with the single set bit `(x, y)` sets destination pixel
`(319 - floor(4x/3), 239 - y)`, the adjacent pixel `(318 - floor(4x/3), 239 - y)`
exactly when `x` is flagged needs-fill, and no other bit; this is the 0 degree
output of the same source mirrored in both destination axes, and it equals the
0 degree output of the source with the single set bit `(239 - x, 239 - y)`
exactly when `x % 3 = 1`. -/
theorem rot180_single_pixel_output (x y : Nat) (hx : x < 240) (hy : y < 240)
    (fb fb2 : Nat → Nat) :
    (∀ idx k, idx < 9600 →
      ((transform_output 2 (single_pixel_source x y) fb idx).testBit k = true ↔
        (k = (239 - y) % 8 ∧ (idx = ((239 - y) / 8) * 320 + (319 - (4 * x) / 3) ∨
          (scale_tables.scale_fill_map.getD x false = true ∧
            idx = ((239 - y) / 8) * 320 + (318 - (4 * x) / 3)))))) ∧
    (∀ X Y, X < 320 → Y < 240 →
      target_pixel (transform_output 2 (single_pixel_source x y) fb) X Y
        = target_pixel (transform_output 0 (single_pixel_source x y) fb2) (319 - X) (239 - Y)) ∧
    ((∀ idx, idx < 9600 →
        transform_output 2 (single_pixel_source x y) fb idx
          = transform_output 0 (single_pixel_source (239 - x) (239 - y)) fb2 idx) ↔
      x % 3 = 1) := by
  have hflag : scale_tables.scale_fill_map.getD x false = true ↔ x % 3 ≠ 0 := by
    rw [scale_fill_map_get x hx]; simp
  refine ⟨?_, ?_, ?_⟩
  · intro idx k hidx
    rw [rot180_single_bit x y hx hy fb idx k hidx, hflag]
  · intro X Y hX hY
    exact target_pixel_rot180 _ fb fb2 X Y hX hY
  · constructor
    · intro hall
      by_contra hne
      by_cases h0 : x % 3 = 0
      · have hidx : ((239 - y) / 8) * 320 + (318 - (4 * x) / 3) < 9600 := by omega
        have h := congrArg (fun n => n.testBit ((239 - y) % 8)) (hall _ hidx)
        simp only at h
        have hr : (transform_output 0 (single_pixel_source (239 - x) (239 - y)) fb2
            (((239 - y) / 8) * 320 + (318 - (4 * x) / 3))).testBit ((239 - y) % 8) = true := by
          rw [rot0_single_bit (239 - x) (239 - y) (by omega) (by omega) fb2 _ _ hidx]
          omega
        rw [hr, rot180_single_bit x y hx hy fb _ _ hidx] at h
        omega
      · have hidx : ((239 - y) / 8) * 320 + (319 - (4 * x) / 3) < 9600 := by omega
        have h := congrArg (fun n => n.testBit ((239 - y) % 8)) (hall _ hidx)
        simp only at h
        have hl : (transform_output 2 (single_pixel_source x y) fb
            (((239 - y) / 8) * 320 + (319 - (4 * x) / 3))).testBit ((239 - y) % 8) = true := by
          rw [rot180_single_bit x y hx hy fb _ _ hidx]
          omega
        rw [hl, eq_comm, rot0_single_bit (239 - x) (239 - y) (by omega) (by omega) fb2 _ _ hidx]
          at h
        omega
    · intro h1 idx hidx
      apply Nat.eq_of_testBit_eq
      intro k
      rw [Bool.eq_iff_iff, rot180_single_bit x y hx hy fb idx k hidx,
        rot0_single_bit (239 - x) (239 - y) (by omega) (by omega) fb2 idx k hidx]
      omega

/-- The amended C12 at source pixel (1, 0), where `1 % 3 = 1`. -/
theorem rot180_single_pixel_output_witness :
    (1 < 240 ∧ 0 < 240) ∧
    target_pixel (transform_output 2 (single_pixel_source 1 0) (fun _ => 0)) 318 239
      = target_pixel (transform_output 0 (single_pixel_source 1 0) (fun _ => 0))
          (319 - 318) (239 - 239) :=
  ⟨by decide, (rot180_single_pixel_output 1 0 (by decide) (by decide) (fun _ => 0)
    (fun _ => 0)).2.1 318 239 (by decide) (by decide)⟩

theorem testBit_255 (k : Nat) : (255 : Nat).testBit k = decide (k < 8) := by
  have h : (255 : Nat) = 2 ^ 8 - 1 := by norm_num
  rw [h, Nat.testBit_two_pow_sub_one]

theorem rot0_all_set (fb : Nat → Nat) (idx : Nat) (hidx : idx < 9600) :
    transform_output 0 all_set_source fb idx = 255 := by
  apply Nat.eq_of_testBit_eq
  intro k
  rw [Bool.eq_iff_iff, testBit_255, decide_eq_true_iff, rot0_output_bit _ _ _ _ hidx]
  constructor
  · rintro ⟨x, _, y, _, _, hk, _⟩
    omega
  · intro hk
    by_cases h3 : idx % 4 = 3
    · refine ⟨3 * (idx % 320 / 4) + 2, by omega, 8 * (idx / 320) + k, by omega,
        source_pixel_all_set _ _ (by omega) (by omega), by omega, ?_⟩
      omega
    · refine ⟨3 * (idx % 320 / 4) + idx % 4, by omega, 8 * (idx / 320) + k, by omega,
        source_pixel_all_set _ _ (by omega) (by omega), by omega, ?_⟩
      omega

theorem rot90_all_set (fb : Nat → Nat) (idx : Nat) (hidx : idx < 9600) :
    transform_output 1 all_set_source fb idx = 255 := by
  apply Nat.eq_of_testBit_eq
  intro k
  rw [Bool.eq_iff_iff, testBit_255, decide_eq_true_iff, rot90_output_bit _ _ _ _ hidx]
  constructor
  · rintro ⟨x, _, y, _, _, hk, _⟩
    omega
  · intro hk
    by_cases h3 : (319 - idx % 320) % 4 = 3
    · refine ⟨8 * (idx / 320) + k, by omega, 3 * ((319 - idx % 320) / 4) + 2, by omega,
        source_pixel_all_set _ _ (by omega) (by omega), by omega, ?_⟩
      omega
    · refine ⟨8 * (idx / 320) + k, by omega,
        3 * ((319 - idx % 320) / 4) + (319 - idx % 320) % 4, by omega,
        source_pixel_all_set _ _ (by omega) (by omega), by omega, ?_⟩
      omega

theorem rot180_all_set (fb : Nat → Nat) (idx : Nat) (hidx : idx < 9600) :
    transform_output 2 all_set_source fb idx = 255 := by
  apply Nat.eq_of_testBit_eq
  intro k
  rw [Bool.eq_iff_iff, testBit_255, decide_eq_true_iff, rot180_output_bit _ _ _ _ hidx]
  constructor
  · rintro ⟨x, _, y, _, _, hk, _⟩
    omega
  · intro hk
    by_cases h3 : (319 - idx % 320) % 4 = 3
    · refine ⟨3 * ((319 - idx % 320) / 4) + 2, by omega, 239 - (8 * (idx / 320) + k), by omega,
        source_pixel_all_set _ _ (by omega) (by omega), by omega, ?_⟩
      omega
    · refine ⟨3 * ((319 - idx % 320) / 4) + (319 - idx % 320) % 4, by omega,
        239 - (8 * (idx / 320) + k), by omega,
        source_pixel_all_set _ _ (by omega) (by omega), by omega, ?_⟩
      omega

theorem rot270_all_set (fb : Nat → Nat) (idx : Nat) (hidx : idx < 9600) :
    transform_output 3 all_set_source fb idx = 255 := by
  apply Nat.eq_of_testBit_eq
  intro k
  rw [Bool.eq_iff_iff, testBit_255, decide_eq_true_iff, rot270_output_bit _ _ _ _ hidx]
  constructor
  · rintro ⟨x, _, y, _, _, hk, _⟩
    omega
  · intro hk
    by_cases h3 : idx % 4 = 3
    · refine ⟨239 - (8 * (idx / 320) + k), by omega, 3 * (idx % 320 / 4) + 2, by omega,
        source_pixel_all_set _ _ (by omega) (by omega), by omega, ?_⟩
      omega
    · refine ⟨239 - (8 * (idx / 320) + k), by omega, 3 * (idx % 320 / 4) + idx % 4, by omega,
        source_pixel_all_set _ _ (by omega) (by omega), by omega, ?_⟩
      omega

/-! ## Whole-frame properties of the transform -/

/-- C16: for each of the four rotation modes, the source frame with all 57,600
pixels set gives an output in which every byte of the 9,600-byte buffer is 0xFF,
so that all 320 x 240 destination pixels are set, whatever the buffer held
before. -/
theorem all_set_source_fills_output (fb : Nat → Nat) :
    (∀ idx, idx < 9600 →
      transform_output 0 all_set_source fb idx = 255 ∧
      transform_output 1 all_set_source fb idx = 255 ∧
      transform_output 2 all_set_source fb idx = 255 ∧
      transform_output 3 all_set_source fb idx = 255) ∧
    (∀ X Y, X < 320 → Y < 240 →
      target_pixel (transform_output 0 all_set_source fb) X Y = true ∧
      target_pixel (transform_output 1 all_set_source fb) X Y = true ∧
      target_pixel (transform_output 2 all_set_source fb) X Y = true ∧
      target_pixel (transform_output 3 all_set_source fb) X Y = true) := by
  refine ⟨fun idx hidx => ⟨rot0_all_set fb idx hidx, rot90_all_set fb idx hidx,
    rot180_all_set fb idx hidx, rot270_all_set fb idx hidx⟩, ?_⟩
  intro X Y hX hY
  have hidx : (Y / 8) * 320 + X < 9600 := by omega
  have hk : Y % 8 < 8 := by omega
  unfold target_pixel
  simp only [FB_COLS]
  rw [rot0_all_set fb _ hidx, rot90_all_set fb _ hidx, rot180_all_set fb _ hidx,
    rot270_all_set fb _ hidx, testBit_255]
  simp [hk]

/-- C17: for every source buffer, destination pixel `(X, Y)` is set in the 180
degree output exactly when pixel `(319 - X, 239 - Y)` is set in the 0 degree
output, and pixel `(X, Y)` is set in the 270 degree output exactly when pixel
`(319 - X, 239 - Y)` is set in the 90 degree output. -/
theorem rotation_180_mirrors_both_axes (src : List Nat) (fb fb2 : Nat → Nat) :
    (∀ X Y, X < 320 → Y < 240 →
      (target_pixel (transform_output 2 src fb) X Y = true ↔
        target_pixel (transform_output 0 src fb2) (319 - X) (239 - Y) = true)) ∧
    (∀ X Y, X < 320 → Y < 240 →
      (target_pixel (transform_output 3 src fb) X Y = true ↔
        target_pixel (transform_output 1 src fb2) (319 - X) (239 - Y) = true)) := by
  refine ⟨fun X Y hX hY => ?_, fun X Y hX hY => ?_⟩
  · rw [target_pixel_rot180 src fb fb2 X Y hX hY]
  · rw [target_pixel_rot270 src fb fb2 X Y hX hY]

/-! ## Lemmas on the colour conversion -/

theorem shiftRight_and_one_ne_zero (b k : Nat) :
    ((b >>> k) &&& 1 ≠ 0) ↔ b.testBit k = true := by
  simp [Nat.testBit, Nat.and_comm]

theorem lut_row_get (b j : Nat) (hb : b < 256) (hj : j < 16) :
    (init_pixel_conversion_lut.getD b []).getD j 0 = if b.testBit (j / 2) then 255 else 0 := by
  have hrow : init_pixel_conversion_lut.getD b []
      = (List.range 8).flatMap fun bit =>
          [(if (b >>> bit) &&& 1 ≠ 0 then 0xFFFF else 0) >>> 8,
           (if (b >>> bit) &&& 1 ≠ 0 then 0xFFFF else 0) &&& 0xFF] := by
    unfold init_pixel_conversion_lut
    simp [List.getD_eq_getElem?_getD, hb]
  have h8 : List.range 8 = [0, 1, 2, 3, 4, 5, 6, 7] := by decide
  have hval : ∀ bit, ((if (b >>> bit) &&& 1 ≠ 0 then 0xFFFF else 0) >>> 8
        = if b.testBit bit then 255 else 0) ∧
      ((if (b >>> bit) &&& 1 ≠ 0 then 0xFFFF else 0) &&& 0xFF
        = if b.testBit bit then 255 else 0) := by
    intro bit
    by_cases h : b.testBit bit = true
    · have h2 := (shiftRight_and_one_ne_zero b bit).2 h
      rw [if_pos h2, if_pos h]
      exact ⟨by decide, by decide⟩
    · have h2 : ¬ ((b >>> bit) &&& 1 ≠ 0) := fun e => h ((shiftRight_and_one_ne_zero b bit).1 e)
      rw [if_neg h2, if_neg h]
      exact ⟨by decide, by decide⟩
  rw [hrow, h8]
  simp only [List.flatMap_cons, List.flatMap_nil, List.append_nil, List.cons_append,
    List.nil_append, (hval _).1, (hval _).2]
  interval_cases j <;> rfl

theorem convert_loop_spec (src : List Nat) (n b : Nat) (buf : Nat → Nat)
    (hn : 0 < n) (hb : b + n = 7200) :
    (convert_loop init_pixel_conversion_lut src n b buf (16 * b)).2 = 115200 ∧
    ∀ i, (convert_loop init_pixel_conversion_lut src n b buf (16 * b)).1 i
      = if 16 * b ≤ i ∧ i < 115200 then
          (init_pixel_conversion_lut.getD (src.getD (i / 16) 0) []).getD (i % 16) 0
        else buf i := by
  induction n generalizing b buf with
  | zero => omega
  | succ n ih =>
    unfold convert_loop
    simp only [LCD_FB_WIDTH, LCD_FB_HEIGHT]
    by_cases hlast : 16 * b + 16 ≥ 240 * 240 * 2
    · rw [if_pos hlast]
      refine ⟨by omega, fun i => ?_⟩
      simp only [memcpy]
      by_cases hi : 16 * b ≤ i ∧ i < 16 * b + 16
      · have h1 : i / 16 = b := by omega
        have h2 : i - 16 * b = i % 16 := by omega
        rw [if_pos hi, if_pos (by omega), h1, h2]
      · rw [if_neg hi, if_neg (by omega)]
    · rw [if_neg hlast]
      have hstep := ih (b + 1) (memcpy buf (16 * b) (init_pixel_conversion_lut.getD
        (src.getD b 0) []) 16) (by omega) (by omega)
      have he : 16 * (b + 1) = 16 * b + 16 := by ring
      rw [he] at hstep
      refine ⟨hstep.1, fun i => ?_⟩
      rw [hstep.2 i]
      simp only [memcpy]
      by_cases hi : 16 * b ≤ i ∧ i < 16 * b + 16
      · have h1 : i / 16 = b := by omega
        have h2 : i - 16 * b = i % 16 := by omega
        rw [if_neg (by omega), if_pos hi, if_pos (by omega), h1, h2]
      · by_cases hi2 : 16 * b + 16 ≤ i ∧ i < 115200
        · rw [if_pos hi2, if_pos (by omega)]
        · rw [if_neg hi2, if_neg hi, if_neg (by omega)]

theorem getD_lt_256 (src : List Nat) (hbyte : ∀ b ∈ src, b < 256) (i : Nat) :
    src.getD i 0 < 256 := by
  rw [List.getD_eq_getElem?_getD]
  cases h : src[i]? with
  | none => simp
  | some v =>
    simp only [Option.getD_some]
    exact hbyte v (List.getElem?_mem h)

/-! ## Colour conversion, rotation fallback and interval clamp -/

/-- C18: for every 7,200-byte source frame the converted buffer has exactly
115,200 bytes; for every pixel index `p < 57600` output bytes `2p` and `2p + 1`
are both 0xFF if bit `p % 8` of source byte `p / 8` is set and both 0x00
otherwise; output bytes `16i .. 16i + 15` are the table row of source byte `i`;
and for all 256 byte values `b` the table has `LUT[b][2k] = LUT[b][2k+1]`, equal
to 0xFF if bit `k` of `b` is set and to 0x00 otherwise. -/
theorem rgb565_conversion (src : List Nat) (_hlen : src.length = 7200)
    (hbyte : ∀ b ∈ src, b < 256) (buf : Nat → Nat) :
    (rgb565_convert src buf).2 = 115200 ∧
    (rgb565_bytes src buf).length = 115200 ∧
    (∀ p, p < 57600 →
      (rgb565_convert src buf).1 (2 * p)
        = (if (src.getD (p / 8) 0).testBit (p % 8) then 255 else 0) ∧
      (rgb565_convert src buf).1 (2 * p + 1)
        = (if (src.getD (p / 8) 0).testBit (p % 8) then 255 else 0)) ∧
    (∀ i j, i < 7200 → j < 16 →
      (rgb565_convert src buf).1 (16 * i + j)
        = (init_pixel_conversion_lut.getD (src.getD i 0) []).getD j 0) ∧
    (∀ b k, b < 256 → k < 8 →
      (init_pixel_conversion_lut.getD b []).getD (2 * k) 0 = (if b.testBit k then 255 else 0) ∧
      (init_pixel_conversion_lut.getD b []).getD (2 * k + 1) 0
        = (if b.testBit k then 255 else 0)) := by
  have hspec := convert_loop_spec src 7200 0 buf (by decide) (by decide)
  have hconv : rgb565_convert src buf
      = convert_loop init_pixel_conversion_lut src 7200 0 buf (16 * 0) := by
    unfold rgb565_convert
    simp only [LCD_FB_WIDTH, LCD_FB_HEIGHT]
  have hlut : ∀ b k, b < 256 → k < 8 →
      (init_pixel_conversion_lut.getD b []).getD (2 * k) 0 = (if b.testBit k then 255 else 0) ∧
      (init_pixel_conversion_lut.getD b []).getD (2 * k + 1) 0
        = (if b.testBit k then 255 else 0) := by
    intro b k hb hk
    rw [lut_row_get b (2 * k) hb (by omega), lut_row_get b (2 * k + 1) hb (by omega)]
    have h1 : 2 * k / 2 = k := by omega
    have h2 : (2 * k + 1) / 2 = k := by omega
    rw [h1, h2]
    exact ⟨rfl, rfl⟩
  refine ⟨?_, ?_, ?_, ?_, hlut⟩
  · rw [hconv]; exact hspec.1
  · unfold rgb565_bytes
    rw [List.length_map, List.length_range, hconv]
    exact hspec.1
  · intro p hp
    have hc1 : 16 * 0 ≤ 2 * p ∧ 2 * p < 115200 := by omega
    have hc2 : 16 * 0 ≤ 2 * p + 1 ∧ 2 * p + 1 < 115200 := by omega
    rw [hconv, hspec.2 (2 * p), hspec.2 (2 * p + 1), if_pos hc1, if_pos hc2]
    have hb := getD_lt_256 src hbyte (p / 8)
    have h1 : 2 * p / 16 = p / 8 := by omega
    have h2 : (2 * p + 1) / 16 = p / 8 := by omega
    have h3 : 2 * p % 16 = 2 * (p % 8) := by omega
    have h4 : (2 * p + 1) % 16 = 2 * (p % 8) + 1 := by omega
    rw [h1, h2, h3, h4]
    exact hlut _ (p % 8) hb (by omega)
  · intro i j hi hj
    have hc : 16 * 0 ≤ 16 * i + j ∧ 16 * i + j < 115200 := by omega
    rw [hconv, hspec.2 (16 * i + j), if_pos hc]
    have h1 : (16 * i + j) / 16 = i := by omega
    have h2 : (16 * i + j) % 16 = j := by omega
    rw [h1, h2]

/-- C18 at the all-set source frame: 115,200 output bytes. -/
theorem rgb565_conversion_witness :
    (all_set_source.length = 7200 ∧ ∀ b ∈ all_set_source, b < 256) ∧
    (rgb565_convert all_set_source (fun _ => 0)).2 = 115200 :=
  have hlen : all_set_source.length = 7200 := List.length_replicate 7200 255
  have hbyte : ∀ b ∈ all_set_source, b < 256 := fun b hb => by
    rw [List.eq_of_mem_replicate hb]
    decide
  ⟨⟨hlen, hbyte⟩, (rgb565_conversion all_set_source hlen hbyte (fun _ => 0)).1⟩

/-- C19: for every rotation value outside 0, 1, 2, 3 and every table set, the
transform is defined (it terminates) and leaves exactly the state that rotation
0 leaves for the same source, with `current_rotation` set to 0; and
`lcd_set_rotation` stores 0 for such a value, so that the stored mode is one of
the four valid modes after it returns. -/
theorem unknown_rotation_falls_back_to_zero (t : ScaleTables) (rotation : Nat)
    (hrot : 3 < rotation) (src : List Nat) (fb : Nat → Nat) (st : LcdState) :
    lcd_update_from_1bit_framebuffer t (some src) { framebuffer := fb, current_rotation := rotation }
      = lcd_update_from_1bit_framebuffer t (some src) { framebuffer := fb, current_rotation := 0 } ∧
    (lcd_update_from_1bit_framebuffer t (some src)
      { framebuffer := fb, current_rotation := rotation }).current_rotation = 0 ∧
    transform_output rotation src fb = transform_output 0 src fb ∧
    (lcd_set_rotation rotation st).current_rotation = 0 ∧
    (∀ r, (lcd_set_rotation r st).current_rotation ≤ 3) := by
  have h0 : rotation ≠ 0 := by omega
  have h1 : rotation ≠ 1 := by omega
  have h2 : rotation ≠ 2 := by omega
  have h3 : rotation ≠ 3 := by omega
  have hzero : ∀ (u : ScaleTables) (g : Nat → Nat), lcd_update_from_1bit_framebuffer u (some src)
      { framebuffer := g, current_rotation := 0 }
      = { framebuffer := apply_writes (frame_writes (rot0_byte_writes u) src)
            (clear_display_area g), current_rotation := 0 } := by
    intro u g
    rw [lcd_update_from_1bit_framebuffer]
    simp
  have hmain : ∀ u : ScaleTables, lcd_update_from_1bit_framebuffer u (some src)
      { framebuffer := fb, current_rotation := rotation }
      = lcd_update_from_1bit_framebuffer u (some src)
          { framebuffer := fb, current_rotation := 0 } := by
    intro u
    rw [lcd_update_from_1bit_framebuffer]
    simp only [h0, h1, h2, h3, if_false]
    rw [hzero, hzero, clear_display_area_idem]
  refine ⟨hmain t, ?_, ?_, ?_, ?_⟩
  · rw [hmain t, hzero]
  · unfold transform_output
    rw [hmain scale_tables]
  · simp [lcd_set_rotation, h0, h1, h2, h3]
  · intro r
    unfold lcd_set_rotation
    split_ifs <;> simp <;> omega

/-- C19 at the rotation value 7. -/
theorem unknown_rotation_falls_back_to_zero_witness :
    3 < 7 ∧ transform_output 7 all_set_source (fun _ => 0)
      = transform_output 0 all_set_source (fun _ => 0) :=
  ⟨by decide, (unknown_rotation_falls_back_to_zero scale_tables 7 (by decide) all_set_source
    (fun _ => 0) { framebuffer := fun _ => 0, current_rotation := 0 }).2.2.1⟩

/-- C20: the interval computed for a completion is always in `[0, 100000]`;
a handled completion stamps it on the completed slot; it equals
`completion_time - frame_start_time` when a frame start is recorded
(`frame_start_time ≠ 0`) and that difference lies in `[0, 100000]`, and is 0 in
every other case, including differences above 100 ms and negative ones. The
difference is the signed 64-bit one the code computes, which for clock readings
below `2^63` is the exact difference of the two readings. -/
theorem frame_to_dma_interval_clamped (s : State) (t1 t2 : Nat) :
    (∀ start done : Nat, 0 ≤ frame_to_dma_interval start done ∧
      frame_to_dma_interval start done ≤ 100000) ∧
    (s.auto_capture_enabled = true →
      ((dma_capture_irq_handler true t1 t2 s).frame_buffers
          s.active_buffer).frame_to_dma_interval_us
        = frame_to_dma_interval s.frame_start_time (t1 % 2 ^ 64) ∧
      0 ≤ ((dma_capture_irq_handler true t1 t2 s).frame_buffers
          s.active_buffer).frame_to_dma_interval_us ∧
      ((dma_capture_irq_handler true t1 t2 s).frame_buffers
          s.active_buffer).frame_to_dma_interval_us ≤ 100000) ∧
    (∀ start done : Nat, start < 2 ^ 63 → done < 2 ^ 63 →
      frame_to_dma_interval start done
        = if start ≠ 0 ∧ 0 ≤ (done : Int) - (start : Int) ∧ (done : Int) - (start : Int) ≤ 100000
          then (done : Int) - (start : Int) else 0) ∧
    (∀ start done : Nat,
      frame_to_dma_interval start done
        = if start ≠ 0 ∧ 0 ≤ wrap_int64 (to_int64 done - to_int64 start) ∧
            wrap_int64 (to_int64 done - to_int64 start) ≤ 100000
          then wrap_int64 (to_int64 done - to_int64 start) else 0) := by
  have hbound : ∀ start done : Nat, 0 ≤ frame_to_dma_interval start done ∧
      frame_to_dma_interval start done ≤ 100000 := by
    intro start done
    unfold frame_to_dma_interval
    by_cases h1 : start ≠ 0
    · rw [if_pos h1]
      by_cases hr : 0 ≤ wrap_int64 (to_int64 done - to_int64 start) ∧
          wrap_int64 (to_int64 done - to_int64 start) ≤ 100000
      · simp only [hr, and_self, if_true]
      · simp only [hr, if_false]
        exact ⟨le_refl 0, by norm_num⟩
    · rw [if_neg h1]
      exact ⟨le_refl 0, by norm_num⟩
  refine ⟨hbound, ?_, ?_, ?_⟩
  · intro hen
    have hn := next_active_buffer_ne s.render_buffer s.active_buffer s.active_buffer
    have hst : ((dma_capture_irq_handler true t1 t2 s).frame_buffers
        s.active_buffer).frame_to_dma_interval_us
        = frame_to_dma_interval s.frame_start_time (t1 % 2 ^ 64) := by
      simp only [dma_capture_irq_handler, hen, if_true, Bool.not_true, Bool.false_eq_true,
        if_false, Function.update_same, Function.update_noteq hn.2.symm]
    rw [hst]
    exact ⟨rfl, hbound _ _⟩
  · intro start done hs hd
    have e63 : (2 : Nat) ^ 63 = 9223372036854775808 := by norm_num
    have e64 : (2 : Nat) ^ 64 = 18446744073709551616 := by norm_num
    have i63 : (2 : Int) ^ 63 = 9223372036854775808 := by norm_num
    have i64 : (2 : Int) ^ 64 = 18446744073709551616 := by norm_num
    rw [e63] at hs hd
    have hsm : start % 2 ^ 64 = start := Nat.mod_eq_of_lt (by rw [e64]; omega)
    have hdm : done % 2 ^ 64 = done := Nat.mod_eq_of_lt (by rw [e64]; omega)
    have hw : wrap_int64 (to_int64 done - to_int64 start) = (done : Int) - (start : Int) := by
      unfold to_int64 wrap_int64
      rw [hsm, hdm, if_pos (by rw [e63]; exact hd), if_pos (by rw [e63]; exact hs), i63, i64]
      omega
    unfold frame_to_dma_interval
    simp only [hw]
    by_cases h0 : start = 0
    · simp [h0]
    · simp only [h0, ne_eq, not_false_eq_true, if_true, true_and]
  · intro start done
    unfold frame_to_dma_interval
    by_cases h0 : start = 0
    · simp [h0]
    · simp only [h0, ne_eq, not_false_eq_true, if_true, true_and]

/-! ## Setup API of the capture pipeline -/

theorem initialized_step (e : Event) (s : State) (h : s.framebuffer_initialized = true) :
    (step e s).framebuffer_initialized = true := by
  cases e with
  | init claimed => simp [step, lcd_framebuffer_init, h]
  | init_auto_capture pio sm now =>
    simp only [step, lcd_framebuffer_init_auto_capture]
    split_ifs <;> exact h
  | start_auto_capture =>
    simp only [step, lcd_framebuffer_start_auto_capture]
    split_ifs <;> exact h
  | stop_auto_capture =>
    simp only [step, lcd_framebuffer_stop_auto_capture]
    split_ifs <;> exact h
  | frame_sync now => exact h
  | dma_write bytes => exact h
  | dma_irq st t1 t2 =>
    simp only [step, dma_capture_irq_handler]
    split_ifs <;> exact h
  | prepare_display_frame =>
    simp only [step, lcd_framebuffer_prepare_display_frame]
    split_ifs <;> exact h
  | reset_capture_system =>
    simp only [step, lcd_framebuffer_reset_capture_system]
    split_ifs <;> exact h

theorem initialized_run (es : List Event) (s : State) (h : s.framebuffer_initialized = true) :
    (run es s).framebuffer_initialized = true := by
  induction es generalizing s with
  | nil => exact h
  | cons e es ih => exact ih (step e s) (initialized_step e s h)

/-- C21: without configured auto-capture `start_auto_capture` returns failure,
changes nothing and makes no hardware call; otherwise it returns success and
its hardware calls are, in this order, the start of the DMA channel and the
enabling of the PIO state machine. A successful `reset_capture_system` also
starts the DMA channel before it re-enables the PIO state machine. -/
theorem start_and_reset_arm_dma_before_pio (s : State) :
    (s.auto_capture_enabled = false →
      lcd_framebuffer_start_auto_capture s = (false, s) ∧
      lcd_framebuffer_start_auto_capture_hw s = []) ∧
    (s.auto_capture_enabled = true →
      lcd_framebuffer_start_auto_capture s = (true, s) ∧
      lcd_framebuffer_start_auto_capture_hw s
        = [.dma_channel_start s.dma_channel,
           .pio_sm_set_enabled s.pio_instance s.pio_sm true] ∧
      (lcd_framebuffer_start_auto_capture_hw s).indexOf (.dma_channel_start s.dma_channel)
        < (lcd_framebuffer_start_auto_capture_hw s).indexOf
            (.pio_sm_set_enabled s.pio_instance s.pio_sm true)) ∧
    ((lcd_framebuffer_reset_capture_system s).1 = true →
      HwOp.dma_channel_start s.dma_channel ∈ lcd_framebuffer_reset_capture_system_hw s ∧
      HwOp.pio_sm_set_enabled s.pio_instance s.pio_sm true
        ∈ lcd_framebuffer_reset_capture_system_hw s ∧
      (lcd_framebuffer_reset_capture_system_hw s).indexOf (.dma_channel_start s.dma_channel)
        < (lcd_framebuffer_reset_capture_system_hw s).indexOf
            (.pio_sm_set_enabled s.pio_instance s.pio_sm true)) ∧
    ((lcd_framebuffer_reset_capture_system s).1 = false →
      lcd_framebuffer_reset_capture_system_hw s = []) := by
  refine ⟨fun h => ?_, fun h => ?_, fun h => ?_, fun h => ?_⟩
  · simp [lcd_framebuffer_start_auto_capture, lcd_framebuffer_start_auto_capture_hw, h]
  · simp [lcd_framebuffer_start_auto_capture, lcd_framebuffer_start_auto_capture_hw, h,
      List.indexOf_cons]
  · have hg : (!s.framebuffer_initialized || !s.auto_capture_enabled) = false := by
      revert h
      cases hi : s.framebuffer_initialized <;> cases he : s.auto_capture_enabled <;>
        simp [lcd_framebuffer_reset_capture_system, hi, he]
    simp [lcd_framebuffer_reset_capture_system_hw, hg, List.indexOf_cons]
  · have hg : (!s.framebuffer_initialized || !s.auto_capture_enabled) = true := by
      revert h
      cases hi : s.framebuffer_initialized <;> cases he : s.auto_capture_enabled <;>
        simp [lcd_framebuffer_reset_capture_system, hi, he]
    simp [lcd_framebuffer_reset_capture_system_hw, hg]

/-- C22: `init_auto_capture` fails exactly when `init()` has not succeeded or
auto-capture is already enabled, and then leaves the state unchanged;
otherwise it succeeds, enables auto-capture, marks the active slot capturing
and not ready, and leaves the role assignment unchanged. -/
theorem init_auto_capture_effect (pio sm now : Nat) (s : State) :
    ((lcd_framebuffer_init_auto_capture pio sm now s).1 = false ↔
      (s.framebuffer_initialized = false ∨ s.auto_capture_enabled = true)) ∧
    ((lcd_framebuffer_init_auto_capture pio sm now s).1 = false →
      (lcd_framebuffer_init_auto_capture pio sm now s).2 = s) ∧
    ((lcd_framebuffer_init_auto_capture pio sm now s).1 = true →
      (lcd_framebuffer_init_auto_capture pio sm now s).2.auto_capture_enabled = true ∧
      ((lcd_framebuffer_init_auto_capture pio sm now s).2.frame_buffers
        s.active_buffer).capturing = true ∧
      ((lcd_framebuffer_init_auto_capture pio sm now s).2.frame_buffers
        s.active_buffer).ready = false ∧
      (lcd_framebuffer_init_auto_capture pio sm now s).2.active_buffer = s.active_buffer ∧
      (lcd_framebuffer_init_auto_capture pio sm now s).2.display_buffer = s.display_buffer ∧
      (lcd_framebuffer_init_auto_capture pio sm now s).2.render_buffer = s.render_buffer) := by
  cases hi : s.framebuffer_initialized <;> cases he : s.auto_capture_enabled <;>
    simp [lcd_framebuffer_init_auto_capture, hi, he]

/-- C23: in every reachable state, after one `stop_auto_capture` auto-capture
is disabled and the active slot is not capturing, and a second call leaves the
state exactly as the first call left it; the first call changes no role, no
ready flag, no sequence number, no slot bytes and not the frame counter. -/
theorem stop_auto_capture_idempotent (es : List Event) :
    (lcd_framebuffer_stop_auto_capture (run es initial_state)).2.auto_capture_enabled = false ∧
    ((lcd_framebuffer_stop_auto_capture (run es initial_state)).2.frame_buffers
      (lcd_framebuffer_stop_auto_capture (run es initial_state)).2.active_buffer).capturing
        = false ∧
    (lcd_framebuffer_stop_auto_capture
      (lcd_framebuffer_stop_auto_capture (run es initial_state)).2).2
        = (lcd_framebuffer_stop_auto_capture (run es initial_state)).2 ∧
    (lcd_framebuffer_stop_auto_capture (run es initial_state)).2.active_buffer
      = (run es initial_state).active_buffer ∧
    (lcd_framebuffer_stop_auto_capture (run es initial_state)).2.display_buffer
      = (run es initial_state).display_buffer ∧
    (lcd_framebuffer_stop_auto_capture (run es initial_state)).2.render_buffer
      = (run es initial_state).render_buffer ∧
    (lcd_framebuffer_stop_auto_capture (run es initial_state)).2.frame_counter
      = (run es initial_state).frame_counter ∧
    (∀ i : Fin 3,
      ((lcd_framebuffer_stop_auto_capture (run es initial_state)).2.frame_buffers i).ready
        = ((run es initial_state).frame_buffers i).ready ∧
      ((lcd_framebuffer_stop_auto_capture (run es initial_state)).2.frame_buffers i).frame_id
        = ((run es initial_state).frame_buffers i).frame_id ∧
      ((lcd_framebuffer_stop_auto_capture (run es initial_state)).2.frame_buffers i).data
        = ((run es initial_state).frame_buffers i).data) := by
  have h := (pipelineInv_run es initial_state pipelineInv_initial).2.2.2
  generalize run es initial_state = s at h ⊢
  cases he : s.auto_capture_enabled
  · have hc := h s.active_buffer
    rw [he] at hc
    simp [lcd_framebuffer_stop_auto_capture, he] at hc ⊢
    exact hc
  · simp only [lcd_framebuffer_stop_auto_capture, he, Bool.not_true, Bool.false_eq_true,
      if_false, Function.update_same, Bool.not_false, if_true, true_and]
    intro i
    by_cases hia : i = s.active_buffer
    · subst hia; simp
    · simp [Function.update_noteq hia]

/-- C24: once `init()` has returned success, every further call, after any
sequence of events, returns success and changes nothing. -/
theorem init_idempotent (claimed claimed2 : Int) (s : State) (es : List Event)
    (hok : (lcd_framebuffer_init claimed s).1 = true) :
    lcd_framebuffer_init claimed2 (run es (lcd_framebuffer_init claimed s).2)
      = (true, run es (lcd_framebuffer_init claimed s).2) := by
  have hinit : (lcd_framebuffer_init claimed s).2.framebuffer_initialized = true := by
    unfold lcd_framebuffer_init at hok ⊢
    by_cases h1 : s.framebuffer_initialized = true
    · rw [if_pos h1]; exact h1
    · rw [if_neg h1] at hok ⊢
      simp only at hok ⊢
      by_cases h2 : (claimed % 2 ^ 32).toNat = UINT_MAX
      · rw [if_pos h2] at hok
        exact absurd hok (by simp)
      · rw [if_neg h2]
  have hrun := initialized_run es _ hinit
  unfold lcd_framebuffer_init at hrun ⊢
  simp only [lcd_framebuffer_init] at hrun ⊢
  rw [if_pos hrun]

/-- C24 at the initial state with channel 0 handed out: a second call after
the first capture returns success and changes nothing. -/
theorem init_idempotent_witness :
    (lcd_framebuffer_init 0 initial_state).1 = true ∧
    lcd_framebuffer_init 5 (run first_frame_events (lcd_framebuffer_init 0 initial_state).2)
      = (true, run first_frame_events (lcd_framebuffer_init 0 initial_state).2) :=
  ⟨by decide, init_idempotent 0 5 initial_state first_frame_events (by decide)⟩

/-- C25: `get_render_data` returns the bytes of the render slot if the pipeline
is initialised and the render slot is ready, and `NULL` otherwise;
`is_render_ready` is true exactly when `get_render_data` is not `NULL`. Both
are functions of the state alone and return no new state. -/
theorem render_observers (s : State) :
    lcd_framebuffer_get_render_data s
      = (if s.framebuffer_initialized = true ∧ (s.frame_buffers s.render_buffer).ready = true
          then some (s.frame_buffers s.render_buffer).data else none) ∧
    lcd_framebuffer_is_render_ready s = (lcd_framebuffer_get_render_data s).isSome := by
  cases hi : s.framebuffer_initialized <;> cases hr : (s.frame_buffers s.render_buffer).ready <;>
    simp [lcd_framebuffer_get_render_data, lcd_framebuffer_is_render_ready, hi, hr]

/-! ## Sequence numbers -/

theorem run_append (a b : List Event) (s : State) : run (a ++ b) s = run b (run a s) := by
  induction a generalizing s with
  | nil => rfl
  | cons e a ih => exact ih (step e s)

theorem handler_frame_counter (s : State) (t1 t2 : Nat) (hen : s.auto_capture_enabled = true) :
    (dma_capture_irq_handler true t1 t2 s).frame_counter = (s.frame_counter + 1) % 2 ^ 32 ∧
    (dma_capture_irq_handler true t1 t2 s).auto_capture_enabled = true := by
  simp only [dma_capture_irq_handler, hen, if_true, Bool.not_true, Bool.false_eq_true, if_false,
    and_self]

theorem run_replicate_completions (n : Nat) (s : State)
    (hen : s.auto_capture_enabled = true) (hfc : s.frame_counter < 2 ^ 32) :
    (run (List.replicate n (.dma_irq true 0 0)) s).auto_capture_enabled = true ∧
    (run (List.replicate n (.dma_irq true 0 0)) s).frame_counter
      = (s.frame_counter + n) % 2 ^ 32 := by
  induction n generalizing s with
  | zero => exact ⟨hen, (Nat.mod_eq_of_lt hfc).symm⟩
  | succ n ih =>
    have hs := handler_frame_counter s 0 0 hen
    have hlt : (dma_capture_irq_handler true 0 0 s).frame_counter < 2 ^ 32 := by
      rw [hs.1]
      exact Nat.mod_lt _ (by norm_num)
    have hrec := ih (dma_capture_irq_handler true 0 0 s) hs.2 hlt
    rw [List.replicate_succ]
    have hstep : run (Event.dma_irq true 0 0 :: List.replicate n (.dma_irq true 0 0)) s
        = run (List.replicate n (.dma_irq true 0 0)) (dma_capture_irq_handler true 0 0 s) := rfl
    rw [hstep]
    refine ⟨hrec.1, ?_⟩
    rw [hrec.2, hs.1]
    omega

theorem completions_count (n : Nat) (es0 es : List Event)
    (hes : es = es0 ++ List.replicate n (.dma_irq true 0 0))
    (hen : (run es0 initial_state).auto_capture_enabled = true)
    (hfc : (run es0 initial_state).frame_counter = 0) (hn : n < 2 ^ 32) :
    (run es initial_state).auto_capture_enabled = true ∧
    lcd_framebuffer_get_frame_count (run es initial_state) = n := by
  subst hes
  rw [run_append]
  have hlt : (run es0 initial_state).frame_counter < 2 ^ 32 := by
    rw [hfc]
    exact Nat.lt_of_le_of_lt (Nat.zero_le n) hn
  have h := run_replicate_completions n (run es0 initial_state) hen hlt
  refine ⟨h.1, ?_⟩
  unfold lcd_framebuffer_get_frame_count
  rw [h.2, hfc, Nat.zero_add]
  exact Nat.mod_eq_of_lt hn

theorem completion_at_max_count (s : State) (hen : s.auto_capture_enabled = true)
    (hc : lcd_framebuffer_get_frame_count s = 2 ^ 32 - 1) :
    lcd_framebuffer_get_frame_count (dma_capture_irq_handler true 0 0 s) = 0 := by
  unfold lcd_framebuffer_get_frame_count at hc ⊢
  rw [(handler_frame_counter s 0 0 hen).1, hc]
  norm_num

/-- C26 fails as stated: after `2^32 - 1` handled completions the frame count
is `2^32 - 1`, and the next handled completion makes `get_frame_count()` return
0, a smaller value. -/
theorem frame_count_wraps_to_zero :
    lcd_framebuffer_get_frame_count (run counter_wrap_events initial_state) = 2 ^ 32 - 1 ∧
    lcd_framebuffer_get_frame_count
      (dma_capture_irq_handler true 0 0 (run counter_wrap_events initial_state)) = 0 :=
  have h := completions_count (2 ^ 32 - 1) [.init 0, .init_auto_capture 0 0 0]
    counter_wrap_events rfl (by decide) (by decide) (by norm_num)
  ⟨h.2, completion_at_max_count (run counter_wrap_events initial_state) h.1 h.2⟩

/-- C26 as amended: each handled completion increases the frame count by
exactly 1 modulo `2^32` and stamps the completed slot with the new count; a
completion that arrives while capture is disabled, and every other event
(among them `prepare_display_frame`, `stop_auto_capture` and
`reset_capture_system`), leaves the frame count unchanged; so
`get_frame_count()` never decreases, also across a recovery, as long as the
count is below `2^32 - 1`, the value from which it wraps to 0. -/
theorem frame_count_changes_only_on_completion (s : State) :
    (∀ t1 t2, s.auto_capture_enabled = true →
      lcd_framebuffer_get_frame_count (dma_capture_irq_handler true t1 t2 s)
        = (lcd_framebuffer_get_frame_count s + 1) % 2 ^ 32 ∧
      ((dma_capture_irq_handler true t1 t2 s).frame_buffers s.active_buffer).frame_id
        = (lcd_framebuffer_get_frame_count s + 1) % 2 ^ 32) ∧
    (∀ t1 t2, s.auto_capture_enabled = false → dma_capture_irq_handler true t1 t2 s = s) ∧
    (∀ e, (∀ t1 t2, e ≠ Event.dma_irq true t1 t2) →
      lcd_framebuffer_get_frame_count (step e s) = lcd_framebuffer_get_frame_count s) ∧
    lcd_framebuffer_get_frame_count (lcd_framebuffer_reset_capture_system s).2
      = lcd_framebuffer_get_frame_count s ∧
    (∀ e, lcd_framebuffer_get_frame_count s + 1 < 2 ^ 32 →
      lcd_framebuffer_get_frame_count s ≤ lcd_framebuffer_get_frame_count (step e s)) := by
  have hn := next_active_buffer_ne s.render_buffer s.active_buffer s.active_buffer
  have hother : ∀ e, (∀ t1 t2, e ≠ Event.dma_irq true t1 t2) →
      (step e s).frame_counter = s.frame_counter := by
    intro e he
    cases e with
    | init claimed =>
      simp only [step, lcd_framebuffer_init]
      split_ifs <;> rfl
    | init_auto_capture pio sm now =>
      simp only [step, lcd_framebuffer_init_auto_capture]
      split_ifs <;> rfl
    | start_auto_capture =>
      simp only [step, lcd_framebuffer_start_auto_capture]
      split_ifs <;> rfl
    | stop_auto_capture =>
      simp only [step, lcd_framebuffer_stop_auto_capture]
      split_ifs <;> rfl
    | frame_sync now => rfl
    | dma_write bytes => rfl
    | dma_irq st t1 t2 =>
      cases st with
      | true => exact absurd rfl (he t1 t2)
      | false => simp [step, dma_capture_irq_handler]
    | prepare_display_frame =>
      simp only [step, lcd_framebuffer_prepare_display_frame]
      split_ifs <;> rfl
    | reset_capture_system =>
      simp only [step, lcd_framebuffer_reset_capture_system]
      split_ifs <;> rfl
  have hreset : (lcd_framebuffer_reset_capture_system s).2.frame_counter = s.frame_counter :=
    hother .reset_capture_system (fun _ _ h => Event.noConfusion h)
  refine ⟨?_, ?_, hother, hreset, ?_⟩
  · intro t1 t2 hen
    simp only [lcd_framebuffer_get_frame_count, dma_capture_irq_handler, hen, if_true,
      Bool.not_true, Bool.false_eq_true, if_false, Function.update_same,
      Function.update_noteq hn.2.symm, and_self]
  · intro t1 t2 hen
    simp [dma_capture_irq_handler, hen]
  · intro e hlt
    unfold lcd_framebuffer_get_frame_count at hlt ⊢
    by_cases he : ∀ t1 t2, e ≠ Event.dma_irq true t1 t2
    · rw [hother e he]
    · push_neg at he
      obtain ⟨t1, t2, rfl⟩ := he
      show s.frame_counter ≤ (dma_capture_irq_handler true t1 t2 s).frame_counter
      cases hen : s.auto_capture_enabled
      · simp [dma_capture_irq_handler, hen]
      · rw [(handler_frame_counter s t1 t2 hen).1]
        omega

/-! ## Paged sink -/

theorem flatMap_slices (f : Nat → Nat) (m n : Nat) :
    (List.range n).flatMap (fun p => (List.range m).map (fun i => f (p * m + i)))
      = (List.range (n * m)).map f := by
  induction n with
  | zero => simp
  | succ n ih =>
    rw [List.range_succ, List.flatMap_append, List.flatMap_singleton, ih, Nat.succ_mul,
      List.range_add, List.map_append, List.map_map]
    rfl

theorem page_payloads_flatMap (fb : Nat → Nat) (l : List Nat) :
    page_payloads (l.flatMap fun page =>
      [ SpiOp.command 0xB1, .data page, .command 0x13, .data 0x00, .data 0x00, .command 0x1D,
        .dma_block ((List.range FB_COLS).map fun i => fb (page * FB_COLS + i)) ])
      = l.map fun page => (List.range FB_COLS).map fun i => fb (page * FB_COLS + i) := by
  induction l with
  | nil => rfl
  | cons p l ih =>
    rw [List.flatMap_cons, List.map_cons]
    simp only [List.cons_append, page_payloads]
    exact congrArg (List.cons _) ih

theorem page_addresses_flatMap (fb : Nat → Nat) (l : List Nat) (last : Option Nat) :
    page_addresses_aux last (l.flatMap fun page =>
      [ SpiOp.command 0xB1, .data page, .command 0x13, .data 0x00, .data 0x00, .command 0x1D,
        .dma_block ((List.range FB_COLS).map fun i => fb (page * FB_COLS + i)) ])
      = l.map some := by
  induction l generalizing last with
  | nil => rfl
  | cons p l ih =>
    rw [List.flatMap_cons, List.map_cons]
    simp only [List.cons_append, page_addresses_aux]
    exact congrArg (List.cons _) (ih (some p))

/-- C27: `lcd_refresh` sends the 9,600-byte buffer as exactly 30 DMA blocks;
block number `page` (for `page = 0 .. 29`, in ascending order) is the 320
bytes `framebuffer[320 * page .. 320 * page + 319]` and the page address
command (0xB1 with data byte) last sent before it carries `page`; the
concatenation of the blocks is the output buffer. -/
theorem lcd_refresh_sends_pages (fb : Nat → Nat) :
    page_payloads (lcd_refresh fb)
      = (List.range 30).map (fun page => (List.range 320).map fun i => fb (320 * page + i)) ∧
    (page_payloads (lcd_refresh fb)).length = 30 ∧
    (∀ block ∈ page_payloads (lcd_refresh fb), block.length = 320) ∧
    page_addresses_aux none (lcd_refresh fb) = (List.range 30).map some ∧
    (page_payloads (lcd_refresh fb)).flatten = (List.range 9600).map fb := by
  have hp : page_payloads (lcd_refresh fb)
      = (List.range 30).map (fun page => (List.range 320).map fun i => fb (page * 320 + i)) :=
    page_payloads_flatMap fb (List.range 30)
  refine ⟨?_, ?_, ?_, page_addresses_flatMap fb (List.range 30) none, ?_⟩
  · rw [hp]
    apply List.map_congr_left
    intro page _
    apply List.map_congr_left
    intro i _
    rw [Nat.mul_comm]
  · rw [hp, List.length_map, List.length_range]
  · intro block hb
    rw [hp, List.mem_map] at hb
    obtain ⟨page, _, rfl⟩ := hb
    rw [List.length_map, List.length_range]
  · rw [hp]
    have h := flatMap_slices fb 320 30
    rw [← h, List.flatMap_def]

/-! ## Colour sink push -/

theorem rgb565_convert_length (src : List Nat) (buf : Nat → Nat) :
    (rgb565_convert src buf).2 = 115200 := by
  have hspec := convert_loop_spec src 7200 0 buf (by decide) (by decide)
  have hconv : rgb565_convert src buf
      = convert_loop init_pixel_conversion_lut src 7200 0 buf (16 * 0) := by
    unfold rgb565_convert
    simp only [LCD_FB_WIDTH, LCD_FB_HEIGHT]
  rw [hconv]
  exact hspec.1

theorem rgb565_bytes_length (src : List Nat) (buf : Nat → Nat) :
    (rgb565_bytes src buf).length = 115200 := by
  unfold rgb565_bytes
  rw [List.length_map, List.length_range, rgb565_convert_length]

/-- C28: the push succeeds exactly when the sink is initialised and the render
slot is ready, whatever the state of the DMA channel; on success it sends the
single command 0x2C followed by the 115,200 converted bytes of the render slot,
the same bytes by a DMA burst (`used_dma = true`) when the channel exists and is
idle and by a blocking write (`used_dma = false`) otherwise; on failure it sends
nothing. -/
theorem sink_push_falls_back_to_blocking (lcd_initialized : Bool) (dma_channel_tx : Nat)
    (dma_busy : Bool) (display_buffer : Nat → Nat) (s : State) :
    (spi_lcd_update_from_framebuffer lcd_initialized dma_channel_tx dma_busy display_buffer s).ok
      = (lcd_initialized && lcd_framebuffer_is_render_ready s) ∧
    ((spi_lcd_update_from_framebuffer lcd_initialized dma_channel_tx dma_busy display_buffer s).ok
        = true →
      (spi_lcd_update_from_framebuffer lcd_initialized dma_channel_tx dma_busy display_buffer
          s).sent
        = [SinkOp.command 0x2C,
            if dma_channel_tx ≠ UINT_MAX ∧ dma_busy = false
            then SinkOp.dma_transfer
              (rgb565_bytes (s.frame_buffers s.render_buffer).data display_buffer)
            else SinkOp.blocking_write
              (rgb565_bytes (s.frame_buffers s.render_buffer).data display_buffer)] ∧
      (spi_lcd_update_from_framebuffer lcd_initialized dma_channel_tx dma_busy display_buffer
          s).used_dma
        = decide (dma_channel_tx ≠ UINT_MAX ∧ dma_busy = false) ∧
      (rgb565_bytes (s.frame_buffers s.render_buffer).data display_buffer).length = 115200) ∧
    ((spi_lcd_update_from_framebuffer lcd_initialized dma_channel_tx dma_busy display_buffer s).ok
        = false →
      (spi_lcd_update_from_framebuffer lcd_initialized dma_channel_tx dma_busy display_buffer
          s).sent = []) := by
  have hlen := rgb565_bytes_length (s.frame_buffers s.render_buffer).data display_buffer
  cases hl : lcd_initialized
  · simp [spi_lcd_update_from_framebuffer]
  · cases hi : s.framebuffer_initialized
    · simp [spi_lcd_update_from_framebuffer, lcd_framebuffer_is_render_ready, hi]
    · cases hr : (s.frame_buffers s.render_buffer).ready
      · simp [spi_lcd_update_from_framebuffer, lcd_framebuffer_is_render_ready, hi, hr]
      · by_cases hd : dma_channel_tx ≠ UINT_MAX ∧ dma_busy = false
        · have hd2 : (decide (dma_channel_tx ≠ UINT_MAX) && !dma_busy) = true := by
            simp [hd.1, hd.2]
          simp only [spi_lcd_update_from_framebuffer, lcd_framebuffer_is_render_ready,
            lcd_framebuffer_get_render_data, hi, hr, hd2, hlen]
          simp [hd, rgb565_bytes]
        · have hd2 : (decide (dma_channel_tx ≠ UINT_MAX) && !dma_busy) = false := by
            by_cases h1 : dma_channel_tx = UINT_MAX
            · simp [h1]
            · have h2 : dma_busy = true := by
                cases hb : dma_busy
                · exact absurd ⟨h1, hb⟩ hd
                · rfl
              simp [h2]
          simp only [spi_lcd_update_from_framebuffer, lcd_framebuffer_is_render_ready,
            lcd_framebuffer_get_render_data, hi, hr, hd2, hlen]
          simp [hd, rgb565_bytes]

/-! ## Backlight hysteresis -/

theorem backlight_update_neg (d : ℚ) (b : BacklightState) (hd : d < 0) :
    backlight_update d b = (b, none) := by
  have h0 : ¬ (d ≥ 0) := not_le.mpr hd
  unfold backlight_update
  simp only [h0, false_and, if_false]

theorem backlight_update_nonneg (d : ℚ) (b : BacklightState) (high : Bool) (h0 : 0 ≤ d)
    (hh : (if b.last_high_brightness then decide (d ≥ 10) else decide (d ≥ 20)) = high) :
    backlight_update d b
      = if (if high then (1 : ℚ) else 1 / 5) ≠ b.last_brightness then
          ({ last_brightness := if high then 1 else 1 / 5, last_high_brightness := high },
            some (if high then 1 else 1 / 5))
        else (b, none) := by
  have hn : ¬ (d < 0) := not_lt.mpr h0
  subst hh
  unfold backlight_update
  simp only [hn, if_false, ge_iff_le, h0, true_and]

theorem backlight_flag_of_mid_duty (d : ℚ) (b : BacklightState) (h1 : 10 ≤ d) (h2 : d < 20) :
    (backlight_update d b).1.last_high_brightness = b.last_high_brightness := by
  have h20 : ¬ (d ≥ 20) := not_le.mpr h2
  have hh : (if b.last_high_brightness then decide (d ≥ 10) else decide (d ≥ 20))
      = b.last_high_brightness := by
    cases hf : b.last_high_brightness <;> simp [h1, h20]
  rw [backlight_update_nonneg d b _ (by linarith) hh]
  split_ifs <;> rfl

theorem backlight_unchanged_of_mid_duty (d : ℚ) (b : BacklightState) (h1 : 10 ≤ d)
    (h2 : d < 20) (hb : backlight_level_set b) :
    backlight_update d b = (b, none) := by
  have h20 : ¬ (d ≥ 20) := not_le.mpr h2
  have hh : (if b.last_high_brightness then decide (d ≥ 10) else decide (d ≥ 20))
      = b.last_high_brightness := by
    cases hf : b.last_high_brightness <;> simp [h1, h20]
  rw [backlight_update_nonneg d b _ (by linarith) hh]
  unfold backlight_level_set at hb
  rw [if_neg (not_not.mpr hb.symm)]

theorem backlight_update_level (d : ℚ) (b : BacklightState)
    (hb : b = initial_backlight ∨ backlight_level_set b) :
    (backlight_update d b).1 = initial_backlight ∨
      backlight_level_set (backlight_update d b).1 := by
  by_cases hd : d < 0
  · rw [backlight_update_neg d b hd]; exact hb
  · obtain ⟨high, hh⟩ : ∃ high,
        (if b.last_high_brightness then decide (d ≥ 10) else decide (d ≥ 20)) = high :=
      ⟨_, rfl⟩
    rw [backlight_update_nonneg d b high (not_lt.mp hd) hh]
    by_cases h : (if high then (1 : ℚ) else 1 / 5) ≠ b.last_brightness
    · rw [if_pos h]
      right
      unfold backlight_level_set
      rfl
    · rw [if_neg h]
      exact hb

theorem backlight_run_level (ds : List ℚ) (b : BacklightState)
    (hb : b = initial_backlight ∨ backlight_level_set b) :
    backlight_run ds b = initial_backlight ∨ backlight_level_set (backlight_run ds b) := by
  induction ds generalizing b with
  | nil => exact hb
  | cons d ds ih => exact ih _ (backlight_update_level d b hb)

theorem backlight_run_mid_flag (seq : List ℚ) (b : BacklightState)
    (hseq : ∀ d ∈ seq, 10 ≤ d ∧ d < 20) :
    (backlight_run seq b).last_high_brightness = b.last_high_brightness := by
  induction seq generalizing b with
  | nil => rfl
  | cons d seq ih =>
    have hd := hseq d (List.mem_cons_self d seq)
    have hrest : ∀ e ∈ seq, 10 ≤ e ∧ e < 20 := fun e he => hseq e (List.mem_cons_of_mem d he)
    show (backlight_run seq (backlight_update d b).1).last_high_brightness = _
    rw [ih _ hrest, backlight_flag_of_mid_duty d b hd.1 hd.2]

theorem backlight_run_mid_unchanged (seq : List ℚ) (b : BacklightState)
    (hseq : ∀ d ∈ seq, 10 ≤ d ∧ d < 20) (hb : backlight_level_set b) :
    backlight_run seq b = b := by
  induction seq with
  | nil => rfl
  | cons d seq ih =>
    have hd := hseq d (List.mem_cons_self d seq)
    have hrest : ∀ e ∈ seq, 10 ≤ e ∧ e < 20 := fun e he => hseq e (List.mem_cons_of_mem d he)
    show backlight_run seq (backlight_update d b).1 = b
    rw [backlight_unchanged_of_mid_duty d b hd.1 hd.2 hb]
    exact ih hrest

/-- The flag `last_high_brightness` in every state the backlight block can
reach from its initial one: the block only ever sets the brightness 20% or
100%; with the flag clear it stays clear for every duty below 20 and is set for
every duty above 20; with the flag set it stays set, without a new setting, for
every duty of at least 10 and is cleared for every duty in `[0, 10)`; a negative
duty changes nothing; and a duty sequence confined to `[10, 20)` never changes
the flag, and changes nothing at all once a level has been set. -/
theorem backlight_flag_hysteresis (ds : List ℚ) (duty : ℚ) :
    (∀ v, (backlight_update duty (backlight_run ds initial_backlight)).2 = some v →
      v = 1 / 5 ∨ v = 1) ∧
    ((backlight_run ds initial_backlight).last_high_brightness = false → duty < 20 →
      (backlight_update duty (backlight_run ds initial_backlight)).1.last_high_brightness
        = false) ∧
    ((backlight_run ds initial_backlight).last_high_brightness = false → 20 < duty →
      (backlight_update duty (backlight_run ds initial_backlight)).1.last_high_brightness
        = true ∧
      (backlight_update duty (backlight_run ds initial_backlight)).2 = some 1) ∧
    ((backlight_run ds initial_backlight).last_high_brightness = true → 10 ≤ duty →
      backlight_update duty (backlight_run ds initial_backlight)
        = (backlight_run ds initial_backlight, none)) ∧
    ((backlight_run ds initial_backlight).last_high_brightness = true → 0 ≤ duty →
      duty < 10 →
      (backlight_update duty (backlight_run ds initial_backlight)).1.last_high_brightness
        = false ∧
      (backlight_update duty (backlight_run ds initial_backlight)).2 = some (1 / 5)) ∧
    (duty < 0 →
      backlight_update duty (backlight_run ds initial_backlight)
        = (backlight_run ds initial_backlight, none)) ∧
    (∀ seq : List ℚ, (∀ d ∈ seq, 10 ≤ d ∧ d < 20) →
      (backlight_run seq (backlight_run ds initial_backlight)).last_high_brightness
        = (backlight_run ds initial_backlight).last_high_brightness) ∧
    (∀ seq : List ℚ, (∀ d ∈ seq, 10 ≤ d ∧ d < 20) →
      backlight_level_set (backlight_run ds initial_backlight) →
      backlight_run seq (backlight_run ds initial_backlight)
        = backlight_run ds initial_backlight) := by
  have hlev := backlight_run_level ds initial_backlight (Or.inl rfl)
  generalize backlight_run ds initial_backlight = b at hlev ⊢
  have hlow : b.last_high_brightness = false → b.last_brightness ≠ 1 := by
    intro hf
    rcases hlev with h | h
    · rw [h]; unfold initial_backlight; norm_num
    · unfold backlight_level_set at h
      rw [h, hf]; norm_num
  have hhigh : b.last_high_brightness = true → b.last_brightness = 1 := by
    intro hf
    rcases hlev with h | h
    · rw [h] at hf; exact absurd hf (by decide)
    · unfold backlight_level_set at h
      rw [h, hf]; rfl
  refine ⟨?_, ?_, ?_, ?_, ?_, ?_, ?_, ?_⟩
  · intro v hv
    by_cases hd : duty < 0
    · rw [backlight_update_neg duty b hd] at hv
      exact absurd hv (by simp)
    · obtain ⟨high, hh⟩ : ∃ high,
          (if b.last_high_brightness then decide (duty ≥ 10) else decide (duty ≥ 20)) = high :=
        ⟨_, rfl⟩
      rw [backlight_update_nonneg duty b high (not_lt.mp hd) hh] at hv
      by_cases h : (if high then (1 : ℚ) else 1 / 5) ≠ b.last_brightness
      · rw [if_pos h] at hv
        simp only [Option.some.injEq] at hv
        rw [← hv]
        cases high
        · left; rfl
        · right; rfl
      · rw [if_neg h] at hv
        exact absurd hv (by simp)
  · intro hf hd
    by_cases hneg : duty < 0
    · rw [backlight_update_neg duty b hneg]; exact hf
    · have hh : (if b.last_high_brightness then decide (duty ≥ 10) else decide (duty ≥ 20))
          = false := by
        rw [hf]; simp [hd]
      rw [backlight_update_nonneg duty b false (not_lt.mp hneg) hh]
      by_cases h : (if false = true then (1 : ℚ) else 1 / 5) ≠ b.last_brightness
      · rw [if_pos h]
      · rw [if_neg h]
        exact hf
  · intro hf hd
    have hh : (if b.last_high_brightness then decide (duty ≥ 10) else decide (duty ≥ 20))
        = true := by
      rw [hf]; simp [le_of_lt hd]
    rw [backlight_update_nonneg duty b true (by linarith) hh]
    have hne : (if true = true then (1 : ℚ) else 1 / 5) ≠ b.last_brightness := by
      simp only [if_true]
      exact fun h => hlow hf h.symm
    rw [if_pos hne]
    exact ⟨rfl, rfl⟩
  · intro hf hd
    have hh : (if b.last_high_brightness then decide (duty ≥ 10) else decide (duty ≥ 20))
        = true := by
      rw [hf]; simp [hd]
    rw [backlight_update_nonneg duty b true (by linarith) hh]
    have hne : ¬ ((if true = true then (1 : ℚ) else 1 / 5) ≠ b.last_brightness) := by
      simp only [if_true, not_not]
      exact (hhigh hf).symm
    rw [if_neg hne]
  · intro hf h0 hd
    have hh : (if b.last_high_brightness then decide (duty ≥ 10) else decide (duty ≥ 20))
        = false := by
      rw [hf]; simp [hd]
    rw [backlight_update_nonneg duty b false h0 hh]
    have hne : (if false = true then (1 : ℚ) else 1 / 5) ≠ b.last_brightness := by
      rw [hhigh hf]
      norm_num
    rw [if_pos hne]
    exact ⟨rfl, rfl⟩
  · intro hd
    exact backlight_update_neg duty b hd
  · intro seq hseq
    exact backlight_run_mid_flag seq b hseq
  · intro seq hseq hb
    exact backlight_run_mid_unchanged seq b hseq hb

/-! ## Level of the backlight -/

theorem set_pwm_duty_cycle_level (high : Bool) :
    set_pwm_duty_cycle (if high then 1 else 1 / 5) = if high then 1 else 1 / 5 := by
  cases high <;> norm_num [set_pwm_duty_cycle]

theorem backlight_power_on_eq : backlight_power_on = (initial_backlight, 4 / 5) := by
  norm_num [backlight_power_on, set_lcd_backlight_brightness, set_pwm_duty_cycle]

theorem backlight_pass_neg (d : ℚ) (p : BacklightState × ℚ) (hd : d < 0) :
    backlight_pass d p = p := by
  unfold backlight_pass
  rw [backlight_update_neg d p.1 hd]

theorem backlight_pass_nonneg (d : ℚ) (p : BacklightState × ℚ) (high : Bool) (h0 : 0 ≤ d)
    (hh : (if p.1.last_high_brightness then decide (d ≥ 10) else decide (d ≥ 20)) = high) :
    backlight_pass d p
      = if (if high then (1 : ℚ) else 1 / 5) ≠ p.1.last_brightness then
          ({ last_brightness := if high then 1 else 1 / 5, last_high_brightness := high },
            if high then 1 else 1 / 5)
        else p := by
  unfold backlight_pass
  rw [backlight_update_nonneg d p.1 high h0 hh]
  by_cases h : (if high then (1 : ℚ) else 1 / 5) ≠ p.1.last_brightness
  · rw [if_pos h, if_pos h]
    simp only [set_pwm_duty_cycle_level]
  · rw [if_neg h, if_neg h]

theorem backlight_pass_power_on (d : ℚ) (h0 : 0 ≤ d) :
    backlight_synced (backlight_pass d backlight_power_on) ∧
    (backlight_pass d backlight_power_on).2 = if d ≥ 20 then 1 else 1 / 5 := by
  have hh : (if backlight_power_on.1.last_high_brightness then decide (d ≥ 10)
      else decide (d ≥ 20)) = decide (d ≥ 20) := by
    rw [backlight_power_on_eq]
    rfl
  have hne : (if decide (d ≥ 20) = true then (1 : ℚ) else 1 / 5)
      ≠ backlight_power_on.1.last_brightness := by
    rw [backlight_power_on_eq]
    simp only [initial_backlight]
    split_ifs <;> norm_num
  rw [backlight_pass_nonneg d backlight_power_on _ h0 hh, if_pos hne]
  refine ⟨⟨rfl, rfl⟩, ?_⟩
  simp only [decide_eq_true_eq]

theorem backlight_pass_synced (d : ℚ) (p : BacklightState × ℚ) (hp : backlight_synced p) :
    backlight_synced (backlight_pass d p) := by
  by_cases hd : d < 0
  · rw [backlight_pass_neg d p hd]; exact hp
  · obtain ⟨high, hh⟩ : ∃ high,
        (if p.1.last_high_brightness then decide (d ≥ 10) else decide (d ≥ 20)) = high :=
      ⟨_, rfl⟩
    rw [backlight_pass_nonneg d p high (not_lt.mp hd) hh]
    by_cases h : (if high then (1 : ℚ) else 1 / 5) ≠ p.1.last_brightness
    · rw [if_pos h]
      exact ⟨rfl, rfl⟩
    · rw [if_neg h]
      exact hp

theorem backlight_pass_level (d : ℚ) (p : BacklightState × ℚ) (high : Bool) (h0 : 0 ≤ d)
    (hh : (if p.1.last_high_brightness then decide (d ≥ 10) else decide (d ≥ 20)) = high)
    (hp : backlight_synced p) :
    (backlight_pass d p).2 = if high then 1 else 1 / 5 := by
  rw [backlight_pass_nonneg d p high h0 hh]
  by_cases h : (if high then (1 : ℚ) else 1 / 5) ≠ p.1.last_brightness
  · rw [if_pos h]
  · rw [if_neg h, hp.2]
    exact (not_not.mp h).symm

theorem backlight_passes_synced (ds : List ℚ) (p : BacklightState × ℚ)
    (hp : backlight_synced p) : backlight_synced (backlight_passes ds p) := by
  induction ds generalizing p with
  | nil => exact hp
  | cons d ds ih => exact ih _ (backlight_pass_synced d p hp)

theorem backlight_passes_first (ds : List ℚ) (hfirst : ∃ d ∈ ds, 0 ≤ d) :
    backlight_synced (backlight_passes ds backlight_power_on) := by
  induction ds with
  | nil =>
    obtain ⟨d, hd, _⟩ := hfirst
    exact absurd hd (List.not_mem_nil d)
  | cons d ds ih =>
    show backlight_synced (backlight_passes ds (backlight_pass d backlight_power_on))
    by_cases hd : d < 0
    · rw [backlight_pass_neg d _ hd]
      apply ih
      obtain ⟨e, he, h0⟩ := hfirst
      rcases List.mem_cons.1 he with h | h
      · rw [h] at h0
        exact absurd hd (not_lt.mpr h0)
      · exact ⟨e, h, h0⟩
    · exact backlight_passes_synced ds _ (backlight_pass_power_on d (not_lt.mp hd)).1

theorem backlight_passes_neg (ds : List ℚ) (p : BacklightState × ℚ) (hds : ∀ d ∈ ds, d < 0) :
    backlight_passes ds p = p := by
  induction ds with
  | nil => rfl
  | cons d ds ih =>
    show backlight_passes ds (backlight_pass d p) = p
    rw [backlight_pass_neg d p (hds d (List.mem_cons_self d ds))]
    exact ih (fun e he => hds e (List.mem_cons_of_mem d he))

theorem backlight_passes_append (a b : List ℚ) (p : BacklightState × ℚ) :
    backlight_passes (a ++ b) p = backlight_passes b (backlight_passes a p) := by
  induction a generalizing p with
  | nil => rfl
  | cons d a ih => exact ih (backlight_pass d p)

theorem backlight_pass_mid (d : ℚ) (p : BacklightState × ℚ) (hp : backlight_synced p)
    (h1 : 10 ≤ d) (h2 : d < 20) : backlight_pass d p = p := by
  unfold backlight_pass
  rw [backlight_unchanged_of_mid_duty d p.1 h1 h2 hp.1]

theorem backlight_passes_mid (seq : List ℚ) (p : BacklightState × ℚ) (hp : backlight_synced p)
    (hseq : ∀ d ∈ seq, 10 ≤ d ∧ d < 20) : backlight_passes seq p = p := by
  induction seq with
  | nil => rfl
  | cons d seq ih =>
    have hd := hseq d (List.mem_cons_self d seq)
    show backlight_passes seq (backlight_pass d p) = p
    rw [backlight_pass_mid d p hp hd.1 hd.2]
    exact ih (fun e he => hseq e (List.mem_cons_of_mem d he))

/-- C29 fails as stated: when the main loop is entered the backlight is at the
power-on level 80%, which is neither 20% nor 100%, and the first duty reading
15, which lies in `[10, 20)`, makes the block call
`set_pwm_duty_cycle(21, 0.20)`: the level changes from 80% to 20%. -/
theorem first_mid_band_reading_changes_level :
    backlight_power_on.2 = 4 / 5 ∧
    ((10 : ℚ) ≤ 15 ∧ (15 : ℚ) < 20) ∧
    (backlight_update 15 backlight_power_on.1).2 = some (1 / 5) ∧
    (backlight_passes [15] backlight_power_on).2 = 1 / 5 ∧
    (backlight_passes [15] backlight_power_on).2 ≠ backlight_power_on.2 := by
  have h := (backlight_pass_power_on 15 (by norm_num)).2
  have h20 : ¬ ((15 : ℚ) ≥ 20) := by norm_num
  rw [if_neg h20] at h
  have hp : (backlight_passes [15] backlight_power_on).2 = 1 / 5 := h
  have hu : (backlight_update 15 backlight_power_on.1).2 = some (1 / 5) := by
    rw [backlight_power_on_eq]
    rw [backlight_update_nonneg 15 initial_backlight false (by norm_num)
      (by norm_num [initial_backlight])]
    norm_num [initial_backlight]
  refine ⟨by rw [backlight_power_on_eq], by norm_num, hu, hp, ?_⟩
  rw [hp, backlight_power_on_eq]
  norm_num

/-- C29 as amended: the backlight enters the main loop at the power-on level
80% and keeps it while every reading is negative; the first non-negative duty
reading sets it to 100% when the duty is at least 20 and to 20% otherwise. Once
a non-negative reading has been processed, the level is 20% or 100%; from the
low level it stays low for every duty below 20 and becomes high for every duty
above 20; from the high level it stays high for every duty of at least 10 and
becomes low for every duty in `[0, 10)`; a negative duty changes neither the
level nor the variables; and no duty sequence confined to `[10, 20)` changes
the level or the variables. -/
theorem backlight_level_hysteresis (ds : List ℚ) (duty : ℚ) (hfirst : ∃ d ∈ ds, 0 ≤ d) :
    (∀ ds0 : List ℚ, (∀ d ∈ ds0, d < 0) →
      backlight_passes ds0 backlight_power_on = backlight_power_on ∧
      backlight_power_on.2 = 4 / 5 ∧
      ∀ d : ℚ, 0 ≤ d →
        (backlight_passes (ds0 ++ [d]) backlight_power_on).2 = if d ≥ 20 then 1 else 1 / 5) ∧
    ((backlight_passes ds backlight_power_on).2 = 1 / 5 ∨
      (backlight_passes ds backlight_power_on).2 = 1) ∧
    ((backlight_passes ds backlight_power_on).2 = 1 / 5 → duty < 20 →
      (backlight_pass duty (backlight_passes ds backlight_power_on)).2 = 1 / 5) ∧
    ((backlight_passes ds backlight_power_on).2 = 1 / 5 → 20 < duty →
      (backlight_pass duty (backlight_passes ds backlight_power_on)).2 = 1) ∧
    ((backlight_passes ds backlight_power_on).2 = 1 → 10 ≤ duty →
      (backlight_pass duty (backlight_passes ds backlight_power_on)).2 = 1) ∧
    ((backlight_passes ds backlight_power_on).2 = 1 → 0 ≤ duty → duty < 10 →
      (backlight_pass duty (backlight_passes ds backlight_power_on)).2 = 1 / 5) ∧
    (duty < 0 →
      backlight_pass duty (backlight_passes ds backlight_power_on)
        = backlight_passes ds backlight_power_on) ∧
    (∀ seq : List ℚ, (∀ d ∈ seq, 10 ≤ d ∧ d < 20) →
      backlight_passes seq (backlight_passes ds backlight_power_on)
        = backlight_passes ds backlight_power_on) := by
  have hsync := backlight_passes_first ds hfirst
  generalize backlight_passes ds backlight_power_on = p at hsync ⊢
  have hset : p.1.last_brightness = if p.1.last_high_brightness then 1 else 1 / 5 := hsync.1
  have hlev := hsync.2
  have hlow : p.2 = 1 / 5 → p.1.last_high_brightness = false := by
    intro h
    cases hf : p.1.last_high_brightness with
    | false => rfl
    | true =>
      rw [hlev, hset, hf] at h
      norm_num at h
  have hhigh : p.2 = 1 → p.1.last_high_brightness = true := by
    intro h
    cases hf : p.1.last_high_brightness with
    | true => rfl
    | false =>
      rw [hlev, hset, hf] at h
      norm_num at h
  refine ⟨?_, ?_, ?_, ?_, ?_, ?_, ?_, ?_⟩
  · intro ds0 hds0
    refine ⟨backlight_passes_neg ds0 _ hds0, by rw [backlight_power_on_eq], ?_⟩
    intro d hd
    rw [backlight_passes_append, backlight_passes_neg ds0 _ hds0]
    exact (backlight_pass_power_on d hd).2
  · rw [hlev, hset]
    cases p.1.last_high_brightness
    · left; rfl
    · right; rfl
  · intro h hd
    have hf := hlow h
    by_cases hneg : duty < 0
    · rw [backlight_pass_neg duty p hneg]; exact h
    · have hh : (if p.1.last_high_brightness then decide (duty ≥ 10) else decide (duty ≥ 20))
          = false := by
        rw [hf]; simp [hd]
      rw [backlight_pass_level duty p false (not_lt.mp hneg) hh hsync]
      rfl
  · intro h hd
    have hf := hlow h
    have hh : (if p.1.last_high_brightness then decide (duty ≥ 10) else decide (duty ≥ 20))
        = true := by
      rw [hf]; simp [le_of_lt hd]
    rw [backlight_pass_level duty p true (by linarith) hh hsync]
    rfl
  · intro h hd
    have hf := hhigh h
    have hh : (if p.1.last_high_brightness then decide (duty ≥ 10) else decide (duty ≥ 20))
        = true := by
      rw [hf]; simp [hd]
    rw [backlight_pass_level duty p true (by linarith) hh hsync]
    rfl
  · intro h h0 hd
    have hf := hhigh h
    have hh : (if p.1.last_high_brightness then decide (duty ≥ 10) else decide (duty ≥ 20))
        = false := by
      rw [hf]; simp [hd]
    rw [backlight_pass_level duty p false h0 hh hsync]
    rfl
  · intro hd
    exact backlight_pass_neg duty p hd
  · intro seq hseq
    exact backlight_passes_mid seq p hsync hseq

/-- C29 as amended, after the readings 25 and 15: the level is 100% and a
further reading of 12 keeps it. -/
theorem backlight_level_hysteresis_witness :
    (∃ d ∈ [(25 : ℚ), 15], 0 ≤ d) ∧
    ((backlight_passes [25, 15] backlight_power_on).2 = 1 / 5 ∨
      (backlight_passes [25, 15] backlight_power_on).2 = 1) :=
  ⟨⟨25, by simp, by norm_num⟩,
    (backlight_level_hysteresis [25, 15] 12 ⟨25, by simp, by norm_num⟩).2.1⟩

/-! ## Rotation 90 -/

/-- C30: `lcd_init` selects rotation 90 (mode 1) and builds the scale tables;
at rotation 90, for every source buffer and every destination pixel `(X, Y)`
with `X < 320`, `Y < 240`, the pixel is set exactly when there is a source row
`y < 240` with source pixel `(Y, y)` set and either `X = 319 - floor(4y/3)`, or
`y % 3 ≠ 0` and `X = 318 - floor(4y/3)`. -/
theorem rot90_swaps_axes (src : List Nat) (fb : Nat → Nat) (st : LcdState) :
    (lcd_init zero_tables st).2.current_rotation = 1 ∧
    (lcd_init zero_tables st).1 = scale_tables ∧
    (lcd_update_from_1bit_framebuffer (lcd_init zero_tables st).1 (some src)
        (lcd_init zero_tables st).2).framebuffer
      = transform_output 1 src (lcd_init zero_tables st).2.framebuffer ∧
    (∀ X Y, X < 320 → Y < 240 →
      (target_pixel (transform_output 1 src fb) X Y = true ↔
        ∃ y, y < 240 ∧ source_pixel src Y y = true ∧
          (X = 319 - (4 * y) / 3 ∨ (y % 3 ≠ 0 ∧ X = 318 - (4 * y) / 3)))) := by
  have hrot : (lcd_init zero_tables st).2.current_rotation = 1 := by
    simp [lcd_init, lcd_clear, lcd_set_rotation]
  refine ⟨hrot, rfl, ?_, ?_⟩
  · unfold transform_output
    have hst : (lcd_init zero_tables st).2
        = { framebuffer := (lcd_init zero_tables st).2.framebuffer, current_rotation := 1 } := by
      rw [← hrot]
    rw [hst]
    rfl
  · intro X Y hX hY
    unfold target_pixel
    simp only [FB_COLS]
    rw [rot90_output_bit src fb _ _ (by omega)]
    constructor
    · rintro ⟨x, hx, y, hy, hpix, hk, hcase⟩
      have hxY : x = Y := by omega
      subst hxY
      exact ⟨y, hy, hpix, by omega⟩
    · rintro ⟨y, hy, hpix, hcase⟩
      exact ⟨Y, hY, y, hy, hpix, rfl, by omega⟩

/-! ## Window and period of the timing monitor -/

/-- C31 evaluated at the sample value 13799: the code compares against
`TARGET_MIN = 13799` with `<`, so 13799 is not counted as anomalous and resets a
counter of 2 to zero without a recovery, while the comment on line 145 names the
range 13800-13810. The neighbouring values behave as the comment says: 13798 and
13811 are anomalous, 13800 and 13810 are not. -/
theorem sample_13799_is_in_window :
    timing_anomalous 13799 = false ∧
    frame_check_sample 13799 2 = (0, false) ∧
    timing_anomalous 13798 = true ∧
    timing_anomalous 13800 = false ∧
    timing_anomalous 13810 = false ∧
    timing_anomalous 13811 = true := by
  decide

/-- C32 evaluated near the wrap of the 32-bit clock: a sample taken when
`time_us_32()` reads `2^32 - 50000` stores the wrapped deadline 50000 in
`last_status_time`; the next call, when the clock reads `2^32 - 49999` (one
microsecond later), finds the gate open and takes a second sample, which raises
`error_count` from 1 to 2. -/
theorem second_sample_one_microsecond_after_first :
    (display_frame_check (2 ^ 32 - 50000) (2 ^ 32 - 50000)
      { last_status_time := 0, error_count := 0 } initial_state).1
      = { last_status_time := 50000, error_count := 1 } ∧
    (display_frame_check (2 ^ 32 - 49999) (2 ^ 32 - 49999)
      { last_status_time := 50000, error_count := 1 } initial_state).1
      = { last_status_time := 50001, error_count := 2 } := by
  decide

/-! ## The write slot and the published slot -/

/-- C37: in every state reached from the initial state by any sequence of
events, `active_buffer` differs from `display_buffer`; hence the state that
`prepare_display_frame` leaves (render := display on success, unchanged
otherwise) still has `render_buffer` different from `active_buffer`. -/
theorem active_ne_display_of_run (es : List Event) :
    (run es initial_state).active_buffer ≠ (run es initial_state).display_buffer ∧
    (lcd_framebuffer_prepare_display_frame (run es initial_state)).2.render_buffer ≠
      (lcd_framebuffer_prepare_display_frame (run es initial_state)).2.active_buffer := by
  have h := pipelineInv_run es initial_state pipelineInv_initial
  have h2 := pipelineInv_step .prepare_display_frame (run es initial_state) h
  exact ⟨h.2.1, fun heq => h2.1 heq.symm⟩

/-! ## Anomaly counter of the timing monitor -/

theorem frame_check_sample_le_two (x : Int) (c : Nat) : (frame_check_sample x c).1 ≤ 2 := by
  unfold frame_check_sample
  by_cases ha : timing_anomalous x = true
  · rw [if_pos ha]
    by_cases h3 : (c + 1) % 256 ≥ 3
    · simp [h3]
    · simp only [h3, if_false]
      omega
  · rw [if_neg ha]
    by_cases h0 : c > 0
    · simp [h0]
    · simp only [h0, if_false]
      omega

theorem frame_check_sample_anomalous (x : Int) (c : Nat) (ha : timing_anomalous x = true)
    (hc : c ≤ 2) :
    frame_check_sample x c = (if c = 2 then 0 else c + 1, decide (c = 2)) := by
  unfold frame_check_sample
  rw [if_pos ha]
  have hm : (c + 1) % 256 = c + 1 := by omega
  simp only [hm]
  by_cases h2 : c = 2
  · subst h2; simp
  · have h3 : ¬ c + 1 ≥ 3 := by omega
    simp [h2, h3]

theorem feed_samples_anomalous (xs : List Int) (c : Nat) (hc : c ≤ 2)
    (hxs : ∀ x ∈ xs, timing_anomalous x = true) :
    (feed_samples xs c).2 = (List.range xs.length).map (fun i => decide ((i + 1 + c) % 3 = 0)) ∧
    (feed_samples xs c).1 = (xs.length + c) % 3 := by
  induction xs generalizing c with
  | nil =>
    refine ⟨rfl, ?_⟩
    simp only [feed_samples, List.length_nil]
    omega
  | cons x xs ih =>
    have hx := hxs x (List.mem_cons_self x xs)
    have hrest : ∀ y ∈ xs, timing_anomalous y = true :=
      fun y hy => hxs y (List.mem_cons_of_mem x hy)
    simp only [feed_samples, frame_check_sample_anomalous x c hx hc, List.length_cons]
    have hc2 : (if c = 2 then 0 else c + 1) ≤ 2 := by split_ifs <;> omega
    obtain ⟨ih1, ih2⟩ := ih (if c = 2 then 0 else c + 1) hc2 hrest
    rw [ih1, ih2, List.range_succ_eq_map, List.map_cons, List.map_map]
    refine ⟨?_, ?_⟩
    · congr 1
      · apply Bool.decide_congr
        omega
      · apply List.map_congr_left
        intro i _
        simp only [Function.comp]
        apply Bool.decide_congr
        split_ifs <;> omega
    · split_ifs <;> omega

theorem count_every_third (n : Nat) :
    ((List.range n).map (fun i => decide ((i + 1) % 3 = 0))).count true = n / 3 := by
  induction n with
  | zero => rfl
  | succ n ih =>
    rw [List.range_succ, List.map_append, List.count_append, ih]
    by_cases h : (n + 1) % 3 = 0
    · simp only [List.map_cons, List.map_nil, h, decide_True, List.count_singleton_self]
      omega
    · simp only [List.map_cons, List.map_nil, h, decide_False]
      rw [List.count_singleton]
      simp only [Bool.false_eq_true, beq_iff_eq, if_false]
      omega

/-- C38: every processed sample leaves `error_count` in {0, 1, 2}, whatever the
counter was before; starting from a zero counter, a run of `n` anomalous
samples calls `reset_capture_system` on the 3rd, 6th, ... sample and on no
other, `floor(n / 3)` times in all, and leaves the counter at `n mod 3`; the
third anomalous sample clears the counter whatever the recovery call returns,
for instance on the uninitialised pipeline, where the recovery call fails. -/
theorem anomaly_counter_and_recovery_count (xs : List Int) :
    (∀ x c, (frame_check_sample x c).1 ≤ 2) ∧
    ((∀ x ∈ xs, timing_anomalous x = true) →
      (feed_samples xs 0).2 = (List.range xs.length).map (fun i => decide ((i + 1) % 3 = 0)) ∧
      (feed_samples xs 0).2.count true = xs.length / 3 ∧
      (feed_samples xs 0).1 = xs.length % 3) ∧
    (∀ (t1 t2 : Nat) (m : MonitorState) (s : State), m.last_status_time ≤ t1 % 2 ^ 32 →
      m.error_count = 2 →
      timing_anomalous (lcd_framebuffer_get_frame_to_dma_interval s) = true →
      (display_frame_check t1 t2 m s).2.2 = true ∧
      (display_frame_check t1 t2 m s).1.error_count = 0) ∧
    ((lcd_framebuffer_reset_capture_system initial_state).1 = false ∧
      (display_frame_check 0 0 { last_status_time := 0, error_count := 2 } initial_state).2.2
        = true ∧
      (display_frame_check 0 0 { last_status_time := 0, error_count := 2 }
        initial_state).1.error_count = 0) := by
  refine ⟨frame_check_sample_le_two, fun hxs => ?_, ?_, by decide⟩
  · obtain ⟨h1, h2⟩ := feed_samples_anomalous xs 0 (by omega) hxs
    refine ⟨h1, ?_, h2⟩
    rw [h1]
    exact count_every_third xs.length
  · intro t1 t2 m s hdue hcount ha
    obtain ⟨h1, h2, _⟩ := display_frame_check_of_due t1 t2 m s hdue
    rw [h1, h2, hcount, frame_check_sample_anomalous _ 2 ha (by omega)]
    simp

/-! ## Samples taken while no frame is rendered -/

theorem render_not_ready_step (e : Event) (s : State) (he : e ≠ Event.prepare_display_frame)
    (hinv : s.active_buffer ≠ s.render_buffer)
    (h : (s.frame_buffers s.render_buffer).ready = false) :
    ((step e s).frame_buffers (step e s).render_buffer).ready = false := by
  have hne : s.render_buffer ≠ s.active_buffer := fun heq => hinv heq.symm
  cases e with
  | init claimed =>
    simp only [step, lcd_framebuffer_init]
    split_ifs
    · exact h
    · rfl
    · rfl
  | init_auto_capture pio sm now =>
    simp only [step, lcd_framebuffer_init_auto_capture]
    split_ifs
    · exact h
    · simpa [Function.update_noteq hne] using h
  | start_auto_capture =>
    simp only [step, lcd_framebuffer_start_auto_capture]
    split_ifs <;> exact h
  | stop_auto_capture =>
    simp only [step, lcd_framebuffer_stop_auto_capture]
    split_ifs
    · exact h
    · simpa [Function.update_noteq hne] using h
  | frame_sync now => exact h
  | dma_write bytes =>
    simp only [step, dma_transfer_write]
    simpa [Function.update_noteq hne] using h
  | dma_irq st t1 t2 =>
    simp only [step, dma_capture_irq_handler]
    split_ifs
    · exact h
    · have hn := (next_active_buffer_ne s.render_buffer s.active_buffer s.active_buffer).1
      have hn2 : s.render_buffer ≠
          next_active_buffer s.render_buffer s.active_buffer s.active_buffer :=
        fun heq => hn heq.symm
      simpa [Function.update_noteq hn2, Function.update_noteq hne] using h
    · exact h
  | prepare_display_frame => exact absurd rfl he
  | reset_capture_system =>
    simp only [step, lcd_framebuffer_reset_capture_system]
    split_ifs
    · exact h
    · have h20 : (2 : Fin 3) ≠ 0 := by decide
      simp [Function.update_noteq h20]

theorem render_not_ready_run (es : List Event) (s : State)
    (hes : ∀ e ∈ es, e ≠ Event.prepare_display_frame) (hinv : PipelineInv s)
    (h : (s.frame_buffers s.render_buffer).ready = false) :
    ((run es s).frame_buffers (run es s).render_buffer).ready = false := by
  induction es generalizing s with
  | nil => exact h
  | cons e es ih =>
    exact ih (step e s) (fun e2 he2 => hes e2 (List.mem_cons_of_mem e he2))
      (pipelineInv_step e s hinv)
      (render_not_ready_step e s (hes e (List.mem_cons_self e es)) hinv.1 h)

theorem interval_of_not_ready (s : State) (h : lcd_framebuffer_is_render_ready s = false) :
    lcd_framebuffer_get_frame_to_dma_interval s = 0 := by
  unfold lcd_framebuffer_is_render_ready at h
  unfold lcd_framebuffer_get_frame_to_dma_interval
  cases hi : s.framebuffer_initialized <;>
    cases hr : (s.frame_buffers s.render_buffer).ready <;> simp_all

/-- C39: the value the monitor samples is 0 whenever the render slot is not
ready, which is the case in every state reached without a
`prepare_display_frame` call and right after a successful
`reset_capture_system`, and whenever the interval stamped on the render slot is
0 (the value the completion handler stamps when no frame start is recorded);
0 is counted as anomalous; and three due samples in a row whose values are
anomalous, starting from a zero counter, call the recovery procedure on the
third sample and not before. -/
theorem unready_render_slot_sampled_as_anomaly (s : State) :
    (lcd_framebuffer_is_render_ready s = false →
      lcd_framebuffer_get_frame_to_dma_interval s = 0) ∧
    ((s.frame_buffers s.render_buffer).frame_to_dma_interval_us = 0 →
      lcd_framebuffer_get_frame_to_dma_interval s = 0) ∧
    (∀ t, frame_to_dma_interval 0 t = 0) ∧
    (∀ es : List Event, (∀ e ∈ es, e ≠ Event.prepare_display_frame) →
      lcd_framebuffer_is_render_ready (run es initial_state) = false) ∧
    ((lcd_framebuffer_reset_capture_system s).1 = true →
      lcd_framebuffer_is_render_ready (lcd_framebuffer_reset_capture_system s).2 = false) ∧
    timing_anomalous 0 = true ∧
    (∀ (m : MonitorState) (s1 s2 s3 : State) (a1 b1 a2 b2 a3 b3 : Nat),
      m.error_count = 0 →
      timing_anomalous (lcd_framebuffer_get_frame_to_dma_interval s1) = true →
      timing_anomalous (lcd_framebuffer_get_frame_to_dma_interval s2) = true →
      timing_anomalous (lcd_framebuffer_get_frame_to_dma_interval s3) = true →
      m.last_status_time ≤ a1 % 2 ^ 32 →
      (display_frame_check a1 b1 m s1).1.last_status_time ≤ a2 % 2 ^ 32 →
      (display_frame_check a2 b2 (display_frame_check a1 b1 m s1).1 s2).1.last_status_time
        ≤ a3 % 2 ^ 32 →
      (display_frame_check a1 b1 m s1).2.2 = false ∧
      (display_frame_check a2 b2 (display_frame_check a1 b1 m s1).1 s2).2.2 = false ∧
      (display_frame_check a3 b3
        (display_frame_check a2 b2 (display_frame_check a1 b1 m s1).1 s2).1 s3).2.2 = true) := by
  refine ⟨interval_of_not_ready s, ?_, ?_, ?_, ?_, by decide, ?_⟩
  · intro h
    unfold lcd_framebuffer_get_frame_to_dma_interval
    split_ifs
    · rfl
    · rfl
    · exact h
  · intro t
    simp [frame_to_dma_interval]
  · intro es hes
    have h := render_not_ready_run es initial_state hes pipelineInv_initial rfl
    unfold lcd_framebuffer_is_render_ready
    rw [h, Bool.and_false]
  · intro hok
    unfold lcd_framebuffer_reset_capture_system at hok ⊢
    by_cases hc : (!s.framebuffer_initialized || !s.auto_capture_enabled) = true
    · rw [if_pos hc] at hok
      exact absurd hok (by simp)
    · rw [if_neg hc]
      have h20 : (2 : Fin 3) ≠ 0 := by decide
      simp [lcd_framebuffer_is_render_ready, Function.update_noteq h20]
  · intro m s1 s2 s3 a1 b1 a2 b2 a3 b3 hm h1 h2 h3 hd1 hd2 hd3
    obtain ⟨e1, f1, _⟩ := display_frame_check_of_due a1 b1 m s1 hd1
    obtain ⟨e2, f2, _⟩ := display_frame_check_of_due a2 b2 _ s2 hd2
    obtain ⟨_, f3, _⟩ := display_frame_check_of_due a3 b3 _ s3 hd3
    rw [hm, frame_check_sample_anomalous _ 0 h1 (by omega)] at e1 f1
    rw [e1, frame_check_sample_anomalous _ _ h2 (by simp)] at e2 f2
    rw [e2, frame_check_sample_anomalous _ _ h3 (by simp)] at f3
    refine ⟨?_, ?_, ?_⟩
    · rw [f1]; simp
    · rw [f2]; simp
    · rw [f3]; simp

/-! ## Stopped capture -/

theorem disabled_step (e : Event) (s : State) (h : s.auto_capture_enabled = false)
    (he : is_init_auto_capture e = false) : (step e s).auto_capture_enabled = false := by
  cases e with
  | init claimed =>
    simp only [step, lcd_framebuffer_init]
    split_ifs <;> exact h
  | init_auto_capture pio sm now => exact absurd he (by simp [is_init_auto_capture])
  | start_auto_capture =>
    simp only [step, lcd_framebuffer_start_auto_capture]
    split_ifs <;> exact h
  | stop_auto_capture =>
    simp only [step, lcd_framebuffer_stop_auto_capture]
    split_ifs
    · exact h
    · rfl
  | frame_sync now => exact h
  | dma_write bytes => exact h
  | dma_irq st t1 t2 =>
    simp only [step, dma_capture_irq_handler, h]
    split_ifs <;> first | exact h | simp at *
  | prepare_display_frame =>
    simp only [step, lcd_framebuffer_prepare_display_frame]
    split_ifs <;> exact h
  | reset_capture_system =>
    simp only [step, lcd_framebuffer_reset_capture_system, h]
    simp [h]

theorem disabled_run (es : List Event) (s : State) (h : s.auto_capture_enabled = false)
    (hes : ∀ e ∈ es, is_init_auto_capture e = false) :
    (run es s).auto_capture_enabled = false := by
  induction es generalizing s with
  | nil => exact h
  | cons e es ih =>
    exact ih (step e s) (disabled_step e s h (hes e (List.mem_cons_self e es)))
      (fun e2 he2 => hes e2 (List.mem_cons_of_mem e he2))

/-- C40: let `stop_auto_capture` succeed in a state reached from the initial
state, and let any events other than `init_auto_capture` follow. In the state
`s` reached, `start_auto_capture` and `reset_capture_system` return failure,
change nothing and make no hardware call, and the completion handler changes
nothing, whatever the interrupt status and the clock readings. A call of
`init_auto_capture` then succeeds, and after it `start_auto_capture` succeeds
again. -/
theorem stop_needs_init_auto_capture (es es2 : List Event) (pio sm now : Nat) (s : State)
    (hstop : (lcd_framebuffer_stop_auto_capture (run es initial_state)).1 = true)
    (hes2 : ∀ e ∈ es2, is_init_auto_capture e = false)
    (hs : s = run es2 (lcd_framebuffer_stop_auto_capture (run es initial_state)).2) :
    lcd_framebuffer_start_auto_capture s = (false, s) ∧
    lcd_framebuffer_start_auto_capture_hw s = [] ∧
    lcd_framebuffer_reset_capture_system s = (false, s) ∧
    lcd_framebuffer_reset_capture_system_hw s = [] ∧
    (∀ st t1 t2, dma_capture_irq_handler st t1 t2 s = s) ∧
    (lcd_framebuffer_init_auto_capture pio sm now s).1 = true ∧
    (lcd_framebuffer_start_auto_capture
      (lcd_framebuffer_init_auto_capture pio sm now s).2).1 = true := by
  have hinv := pipelineInv_run es initial_state pipelineInv_initial
  have hen : (run es initial_state).auto_capture_enabled = true := by
    unfold lcd_framebuffer_stop_auto_capture at hstop
    cases hq : (run es initial_state).auto_capture_enabled with
    | true => rfl
    | false => rw [hq] at hstop; simp at hstop
  have hinit : (run es initial_state).framebuffer_initialized = true := hinv.2.2.1 hen
  have hstate : (lcd_framebuffer_stop_auto_capture (run es initial_state)).2
      = step .stop_auto_capture (run es initial_state) := rfl
  have hdis0 : (lcd_framebuffer_stop_auto_capture
      (run es initial_state)).2.auto_capture_enabled = false := by
    unfold lcd_framebuffer_stop_auto_capture
    simp [hen]
  have hinit0 : (lcd_framebuffer_stop_auto_capture
      (run es initial_state)).2.framebuffer_initialized = true := by
    rw [hstate]
    exact initialized_step _ _ hinit
  have hdis : s.auto_capture_enabled = false := by
    rw [hs]; exact disabled_run es2 _ hdis0 hes2
  have hini : s.framebuffer_initialized = true := by
    rw [hs]; exact initialized_run es2 _ hinit0
  refine ⟨?_, ?_, ?_, ?_, ?_, ?_, ?_⟩
  · simp [lcd_framebuffer_start_auto_capture, hdis]
  · simp [lcd_framebuffer_start_auto_capture_hw, hdis]
  · simp [lcd_framebuffer_reset_capture_system, hdis]
  · simp [lcd_framebuffer_reset_capture_system_hw, hdis]
  · intro st t1 t2
    cases st <;> simp [dma_capture_irq_handler, hdis]
  · simp [lcd_framebuffer_init_auto_capture, hdis, hini]
  · simp [lcd_framebuffer_init_auto_capture, lcd_framebuffer_start_auto_capture, hdis, hini]

/-- C40 for the events init, init_auto_capture, start, stop, followed by a
completion interrupt and a `prepare_display_frame` call. -/
theorem stop_needs_init_auto_capture_witness :
    (lcd_framebuffer_stop_auto_capture
      (run [.init 0, .init_auto_capture 0 0 0, .start_auto_capture] initial_state)).1 = true ∧
    (lcd_framebuffer_start_auto_capture
      (run [.dma_irq true 0 0, .prepare_display_frame]
        (lcd_framebuffer_stop_auto_capture
          (run [.init 0, .init_auto_capture 0 0 0, .start_auto_capture] initial_state)).2)).1
      = false :=
  ⟨by decide,
    congrArg Prod.fst (stop_needs_init_auto_capture
      [.init 0, .init_auto_capture 0 0 0, .start_auto_capture]
      [.dma_irq true 0 0, .prepare_display_frame] 0 0 0 _ (by decide)
      (by simp [is_init_auto_capture]) rfl).1⟩

/-! ## The transform as a function of source and mode -/

theorem apply_writes_congr (ws : List (Nat × Nat)) (f g : Nat → Nat) (i : Nat)
    (h : f i = g i) : apply_writes ws f i = apply_writes ws g i := by
  unfold apply_writes
  induction ws generalizing f g with
  | nil => exact h
  | cons w ws ih =>
    rw [List.foldl_cons, List.foldl_cons]
    apply ih
    simp only [or_write, h]

theorem transform_output_unknown (rotation : Nat) (hrot : 3 < rotation) (src : List Nat)
    (fb : Nat → Nat) : transform_output rotation src fb = transform_output 0 src fb := by
  have h0 : rotation ≠ 0 := by omega
  have h1 : rotation ≠ 1 := by omega
  have h2 : rotation ≠ 2 := by omega
  have h3 : rotation ≠ 3 := by omega
  rw [transform_output_rot0]
  unfold transform_output
  rw [lcd_update_from_1bit_framebuffer]
  simp only [h0, h1, h2, h3, if_false]
  rw [lcd_update_from_1bit_framebuffer]
  simp [clear_display_area_idem]

theorem transform_output_writes (rotation : Nat) (src : List Nat) :
    ∃ f : Nat → Nat → Nat → List (Nat × Nat),
      (∀ y xb, f y xb 0 = []) ∧
      ∀ fb, transform_output rotation src fb
        = apply_writes (frame_writes f src) (clear_display_area fb) := by
  obtain h | h | h | h | h :
      rotation = 0 ∨ rotation = 1 ∨ rotation = 2 ∨ rotation = 3 ∨ 3 < rotation := by omega
  · subst h
    exact ⟨rot0_byte_writes scale_tables, fun y xb => by simp [rot0_byte_writes],
      fun fb => transform_output_rot0 src fb⟩
  · subst h
    exact ⟨rot90_byte_writes scale_tables, fun y xb => by simp [rot90_byte_writes],
      fun fb => transform_output_rot90 src fb⟩
  · subst h
    exact ⟨rot180_byte_writes scale_tables, fun y xb => by simp [rot180_byte_writes],
      fun fb => transform_output_rot180 src fb⟩
  · subst h
    exact ⟨rot270_byte_writes scale_tables, fun y xb => by simp [rot270_byte_writes],
      fun fb => transform_output_rot270 src fb⟩
  · exact ⟨rot0_byte_writes scale_tables, fun y xb => by simp [rot0_byte_writes],
      fun fb => by rw [transform_output_unknown rotation h, transform_output_rot0]⟩

theorem getD_of_all_zero (src : List Nat) (hz : ∀ b ∈ src, b = 0) (i : Nat) :
    src.getD i 0 = 0 := by
  rw [List.getD_eq_getElem?_getD]
  cases h : src[i]? with
  | none => rfl
  | some b => exact hz b (List.getElem?_mem h)

theorem frame_writes_of_all_zero (f : Nat → Nat → Nat → List (Nat × Nat))
    (hf : ∀ y xb, f y xb 0 = []) (src : List Nat) (hz : ∀ b ∈ src, b = 0) :
    frame_writes f src = [] := by
  apply List.eq_nil_iff_forall_not_mem.2
  intro w hw
  obtain ⟨y, _, xb, _, hmem⟩ := (mem_frame_writes f src w).1 hw
  rw [getD_of_all_zero src hz, hf] at hmem
  exact absurd hmem (List.not_mem_nil w)

/-- C33: for every rotation mode, every source and any two prior contents of
the output framebuffer, the transform leaves the same byte at every index of
the 9,600-byte buffer; the clearing step zeroes all 9,600 bytes; and a source
whose bytes are all zero gives an output whose 9,600 bytes are all zero. -/
theorem transform_output_determined_by_source (rotation : Nat) (src : List Nat)
    (fb1 fb2 : Nat → Nat) :
    (∀ idx, idx < FB_SIZE →
      transform_output rotation src fb1 idx = transform_output rotation src fb2 idx) ∧
    (∀ idx, idx < FB_SIZE → clear_display_area fb1 idx = 0) ∧
    (∀ idx, idx < FB_SIZE → transform_output rotation (List.replicate 7200 0) fb1 idx = 0) := by
  have hclear : ∀ (fb : Nat → Nat) idx, idx < FB_SIZE → clear_display_area fb idx = 0 := by
    intro fb idx hidx
    have h9 : idx < 9600 := hidx
    rw [clear_display_area_apply, if_pos h9]
  refine ⟨?_, hclear fb1, ?_⟩
  · intro idx hidx
    obtain ⟨f, _, hf⟩ := transform_output_writes rotation src
    rw [hf fb1, hf fb2]
    apply apply_writes_congr
    rw [hclear fb1 idx hidx, hclear fb2 idx hidx]
  · intro idx hidx
    obtain ⟨f, hf0, hf⟩ := transform_output_writes rotation (List.replicate 7200 0)
    rw [hf fb1, frame_writes_of_all_zero f hf0 _ (fun b hb => List.eq_of_mem_replicate hb)]
    exact hclear fb1 idx hidx

/-! ## Rotation 0 in general -/

theorem target_pixel_rot0_iff (src : List Nat) (fb : Nat → Nat) (X Y : Nat)
    (hX : X < 320) (hY : Y < 240) :
    target_pixel (transform_output 0 src fb) X Y = true ↔
      ∃ x, x < 240 ∧ source_pixel src x Y = true ∧
        (X = (4 * x) / 3 ∨ (x % 3 ≠ 0 ∧ X = (4 * x) / 3 + 1)) := by
  unfold target_pixel
  simp only [FB_COLS]
  rw [rot0_output_bit src fb _ _ (by omega)]
  constructor
  · rintro ⟨x, hx, y, hy, hpix, hk, hcase⟩
    have hyY : y = Y := by omega
    subst hyY
    exact ⟨x, hx, hpix, by omega⟩
  · rintro ⟨x, hx, hpix, hcase⟩
    exact ⟨x, hx, Y, hY, hpix, rfl, by omega⟩

theorem target_pixel_rot90_iff (src : List Nat) (fb : Nat → Nat) (X Y : Nat)
    (hX : X < 320) (hY : Y < 240) :
    target_pixel (transform_output 1 src fb) X Y = true ↔
      ∃ y, y < 240 ∧ source_pixel src Y y = true ∧
        (X = 319 - (4 * y) / 3 ∨ (y % 3 ≠ 0 ∧ X = 318 - (4 * y) / 3)) := by
  unfold target_pixel
  simp only [FB_COLS]
  rw [rot90_output_bit src fb _ _ (by omega)]
  constructor
  · rintro ⟨x, hx, y, hy, hpix, hk, hcase⟩
    have hxY : x = Y := by omega
    subst hxY
    exact ⟨y, hy, hpix, by omega⟩
  · rintro ⟨y, hy, hpix, hcase⟩
    exact ⟨Y, hY, y, hy, hpix, rfl, by omega⟩

/-- C34: at rotation 0, for every source buffer and every destination pixel
`(X, Y)` with `X < 320`, `Y < 240`, the pixel is set exactly when some source
pixel `(x, Y)` is set with `X = floor(4x/3)`, or with `x mod 3 ≠ 0` and
`X = floor(4x/3) + 1`. Hence, for `k < 80`, destination columns `4k`, `4k + 1`
and `4k + 3` copy source columns `3k`, `3k + 1` and `3k + 2`, and destination
column `4k + 2` is the OR of source columns `3k + 1` and `3k + 2`. -/
theorem rot0_scales_columns (src : List Nat) (fb : Nat → Nat) :
    (∀ X Y, X < 320 → Y < 240 →
      (target_pixel (transform_output 0 src fb) X Y = true ↔
        ∃ x, x < 240 ∧ source_pixel src x Y = true ∧
          (X = (4 * x) / 3 ∨ (x % 3 ≠ 0 ∧ X = (4 * x) / 3 + 1)))) ∧
    (∀ k Y, k < 80 → Y < 240 →
      target_pixel (transform_output 0 src fb) (4 * k) Y = source_pixel src (3 * k) Y ∧
      target_pixel (transform_output 0 src fb) (4 * k + 1) Y
        = source_pixel src (3 * k + 1) Y ∧
      target_pixel (transform_output 0 src fb) (4 * k + 2) Y
        = (source_pixel src (3 * k + 1) Y || source_pixel src (3 * k + 2) Y) ∧
      target_pixel (transform_output 0 src fb) (4 * k + 3) Y
        = source_pixel src (3 * k + 2) Y) := by
  refine ⟨fun X Y hX hY => target_pixel_rot0_iff src fb X Y hX hY, ?_⟩
  intro k Y hk hY
  refine ⟨?_, ?_, ?_, ?_⟩
  · rw [Bool.eq_iff_iff, target_pixel_rot0_iff src fb _ Y (by omega) hY]
    constructor
    · rintro ⟨x, hx, hpix, hcase⟩
      have hx3 : x = 3 * k := by omega
      rw [← hx3]; exact hpix
    · intro hpix
      exact ⟨3 * k, by omega, hpix, by omega⟩
  · rw [Bool.eq_iff_iff, target_pixel_rot0_iff src fb _ Y (by omega) hY]
    constructor
    · rintro ⟨x, hx, hpix, hcase⟩
      have hx3 : x = 3 * k + 1 := by omega
      rw [← hx3]; exact hpix
    · intro hpix
      exact ⟨3 * k + 1, by omega, hpix, by omega⟩
  · rw [Bool.eq_iff_iff, target_pixel_rot0_iff src fb _ Y (by omega) hY, Bool.or_eq_true]
    constructor
    · rintro ⟨x, hx, hpix, hcase⟩
      have hx3 : x = 3 * k + 1 ∨ x = 3 * k + 2 := by omega
      rcases hx3 with h | h
      · left; rw [← h]; exact hpix
      · right; rw [← h]; exact hpix
    · rintro (hpix | hpix)
      · exact ⟨3 * k + 1, by omega, hpix, by omega⟩
      · exact ⟨3 * k + 2, by omega, hpix, by omega⟩
  · rw [Bool.eq_iff_iff, target_pixel_rot0_iff src fb _ Y (by omega) hY]
    constructor
    · rintro ⟨x, hx, hpix, hcase⟩
      have hx3 : x = 3 * k + 2 := by omega
      rw [← hx3]; exact hpix
    · intro hpix
      exact ⟨3 * k + 2, by omega, hpix, by omega⟩

/-! ## Bounds of the accesses of the transform -/

theorem fb_writes_append (a b : List Access) :
    fb_writes (a ++ b) = fb_writes a ++ fb_writes b := by
  induction a with
  | nil => rfl
  | cons x a ih => cases x <;> simp [fb_writes, ih]

theorem fb_writes_flatMap {α : Type} (l : List α) (f : α → List Access) :
    fb_writes (l.flatMap f) = l.flatMap (fun a => fb_writes (f a)) := by
  induction l with
  | nil => rfl
  | cons x l ih => rw [List.flatMap_cons, List.flatMap_cons, fb_writes_append, ih]

theorem fb_writes_map_clear (l : List Nat) (g : Nat → Int) :
    fb_writes (l.map fun j => Access.fb_clear (g j)) = [] := by
  induction l with
  | nil => rfl
  | cons j l ih =>
    simp only [List.map_cons, fb_writes]
    exact ih

theorem fb_writes_clear_accesses : fb_writes clear_accesses = [] := by
  unfold clear_accesses
  rw [fb_writes_flatMap]
  apply List.flatMap_eq_nil_iff.2
  intro page _
  exact fb_writes_map_clear _ _

theorem fb_writes_row_accesses (src : List Nat) (y : Nat) (f : Nat → Nat → List Access)
    (g : Nat → Nat → List (Nat × Nat))
    (h : ∀ xb, xb < 30 → ∀ byte, fb_writes (f xb byte) = g xb byte) :
    fb_writes (row_accesses src y f)
      = (List.range 30).flatMap fun xb => g xb (src.getD (y * 30 + xb) 0) := by
  unfold row_accesses
  rw [fb_writes_flatMap]
  apply List.flatMap_congr
  intro xb hxb
  rw [List.mem_range] at hxb
  have e : ((y : Int) * 30 + (xb : Int)).toNat = y * 30 + xb := by omega
  simp only [with_src, fb_writes, e]
  exact h xb hxb _

theorem rot0_byte_tie (y xb byte : Nat) (hxb : xb < 30) :
    fb_writes (rot0_byte_accesses scale_tables y xb byte)
      = rot0_byte_writes scale_tables y xb byte := by
  unfold rot0_byte_accesses rot0_byte_writes
  by_cases h0 : byte = 0
  · simp [h0, fb_writes]
  · simp only [h0, if_false]
    rw [fb_writes_flatMap]
    apply List.flatMap_congr
    intro b hb
    rw [List.mem_range] at hb
    have e : ((xb : Int) * 8 + (b : Int)).toNat = xb * 8 + b := by omega
    by_cases hbit : byte &&& (1 <<< b) ≠ 0
    · rw [if_pos hbit, if_pos hbit]
      simp only [with_table, fb_writes, e]
      by_cases hf : scale_tables.horizontal_320_fill.getD (xb * 8 + b) 0 ≠ 0
      · rw [if_pos hf, if_pos hf]
        simp only [fb_writes]
        congr 2
      · rw [if_neg hf, if_neg hf]
        simp only [fb_writes]
        congr 2
    · rw [if_neg hbit, if_neg hbit]
      rfl

theorem rot0_tie (src : List Nat) :
    fb_writes (rot0_accesses scale_tables src)
      = frame_writes (rot0_byte_writes scale_tables) src := by
  unfold rot0_accesses frame_writes
  rw [fb_writes_flatMap]
  apply List.flatMap_congr
  intro y _
  exact fb_writes_row_accesses src y _ _ (fun xb hxb byte => rot0_byte_tie y xb byte hxb)

theorem rot90_byte_tie (y xb byte : Nat) (hy : y < 240) (hxb : xb < 30) (base fill : Int)
    (hbase : base = ((319 - y * 4 / 3 : Nat) : Int)) (hfill : fill ≠ 0 ↔ y % 3 ≠ 0) :
    fb_writes (rot90_byte_accesses scale_tables base fill xb byte)
      = rot90_byte_writes scale_tables y xb byte := by
  unfold rot90_byte_accesses rot90_byte_writes
  rw [horizontal_320_map_get y hy, horizontal_320_fill_get y hy, hbase]
  by_cases h0 : byte = 0
  · simp [h0, fb_writes]
  · simp only [h0, if_false]
    rw [fb_writes_flatMap]
    apply List.flatMap_congr
    intro b hb
    rw [List.mem_range] at hb
    have e : ((xb : Int) * 8 + (b : Int)).toNat = xb * 8 + b := by omega
    by_cases hbit : byte &&& (1 <<< b) ≠ 0
    · rw [if_pos hbit, if_pos hbit]
      simp only [with_table, fb_writes, e]
      have i1 : ((scale_tables.y_to_fb_offset.getD (xb * 8 + b) 0 : Int)
          + ((319 - y * 4 / 3 : Nat) : Int)).toNat
          = scale_tables.y_to_fb_offset.getD (xb * 8 + b) 0 + (319 - y * 4 / 3) := by omega
      have i2 : ((scale_tables.y_to_fb_offset.getD (xb * 8 + b) 0 : Int)
          + ((319 - y * 4 / 3 : Nat) : Int) - 1).toNat
          = scale_tables.y_to_fb_offset.getD (xb * 8 + b) 0 + (319 - y * 4 / 3) - 1 := by omega
      rw [i1]
      by_cases h3 : y % 3 = 0
      · have hc1 : ¬ (fill ≠ 0 ∧ ((319 - y * 4 / 3 : Nat) : Int) > 0) :=
          fun h => (hfill.1 h.1) h3
        have hc2 : ¬ ((if (if y % 3 ≠ 0 then y * 4 / 3 + 1 else 0) ≠ 0
            then 319 - (if y % 3 ≠ 0 then y * 4 / 3 + 1 else 0) + 1 else 0) ≠ 0
            ∧ 319 - y * 4 / 3 > 0) := by
          simp [h3]
        rw [if_neg hc1, if_neg hc2]
        rfl
      · have hc1 : fill ≠ 0 ∧ ((319 - y * 4 / 3 : Nat) : Int) > 0 :=
          ⟨hfill.2 h3, by omega⟩
        have hc2 : (if (if y % 3 ≠ 0 then y * 4 / 3 + 1 else 0) ≠ 0
            then 319 - (if y % 3 ≠ 0 then y * 4 / 3 + 1 else 0) + 1 else 0) ≠ 0
            ∧ 319 - y * 4 / 3 > 0 := by
          rw [if_pos h3, if_pos (by omega)]
          omega
        rw [if_pos hc1, if_pos hc2]
        simp only [fb_writes, i2]
    · rw [if_neg hbit, if_neg hbit]
      rfl

theorem rot90_tie (src : List Nat) :
    fb_writes (rot90_accesses scale_tables src)
      = frame_writes (rot90_byte_writes scale_tables) src := by
  unfold rot90_accesses frame_writes
  rw [fb_writes_flatMap]
  apply List.flatMap_congr
  intro y hy
  rw [List.mem_range] at hy
  simp only [with_table, fb_writes, Int.toNat_ofNat]
  rw [horizontal_320_map_get y hy, horizontal_320_fill_get y hy]
  have hbase : to_uint16 (319 - ((y * 4 / 3 : Nat) : Int)) = ((319 - y * 4 / 3 : Nat) : Int) := by
    unfold to_uint16; omega
  by_cases h3 : y % 3 = 0
  · have hc : ¬ ((if y % 3 ≠ 0 then y * 4 / 3 + 1 else 0) ≠ 0) := by simp [h3]
    rw [if_neg hc]
    exact fb_writes_row_accesses src y _ _ (fun xb hxb byte =>
      rot90_byte_tie y xb byte hy hxb _ 0 hbase (by simp [h3]))
  · have hc : (if y % 3 ≠ 0 then y * 4 / 3 + 1 else 0) ≠ 0 := by
      rw [if_pos h3]; omega
    rw [if_pos hc]
    simp only [fb_writes]
    refine fb_writes_row_accesses src y _ _ (fun xb hxb byte =>
      rot90_byte_tie y xb byte hy hxb _ _ hbase ?_)
    rw [if_pos h3]
    unfold to_uint16
    constructor
    · intro _; exact h3
    · intro _; omega

theorem rot180_byte_tie (y xb byte : Nat) (hy : y < 240) (hxb : xb < 30) :
    fb_writes (rot180_byte_accesses scale_tables y xb byte)
      = rot180_byte_writes scale_tables y xb byte := by
  unfold rot180_byte_accesses rot180_byte_writes
  have hd : Int.tdiv (239 - (y : Int)) 8 = (((239 - y) / 8 : Nat) : Int) := by
    rw [Int.tdiv_eq_ediv (by omega) (by omega)]
    omega
  have hm : (Int.tmod (239 - (y : Int)) 8).toNat = (239 - y) % 8 := by
    rw [Int.tmod_eq_emod (by omega) (by omega)]
    omega
  by_cases h0 : byte = 0
  · simp [h0, fb_writes]
  · simp only [h0, if_false]
    rw [fb_writes_flatMap]
    apply List.flatMap_congr
    intro b hb
    rw [List.mem_range] at hb
    have e : ((xb : Int) * 8 + (b : Int)).toNat = xb * 8 + b := by omega
    have hx : xb * 8 + b < 240 := by omega
    by_cases hbit : byte &&& (1 <<< b) ≠ 0
    · rw [if_pos hbit, if_pos hbit]
      simp only [with_table, fb_writes, e, hd, hm]
      rw [horizontal_320_map_get _ hx, horizontal_320_fill_get _ hx]
      simp only [FB_COLS]
      have i1 : ((((239 - y) / 8 : Nat) : Int) * ((320 : Nat) : Int)
          + (319 - (((xb * 8 + b) * 4 / 3 : Nat) : Int))).toNat
          = (239 - y) / 8 * 320 + (319 - (xb * 8 + b) * 4 / 3) := by omega
      have i2 : ((((239 - y) / 8 : Nat) : Int) * ((320 : Nat) : Int)
          + (319 - (((xb * 8 + b) * 4 / 3 : Nat) : Int) - 1)).toNat
          = (239 - y) / 8 * 320 + (319 - (xb * 8 + b) * 4 / 3 - 1) := by omega
      rw [i1]
      by_cases h3 : (xb * 8 + b) % 3 = 0
      · have hc1 : ¬ ((if (xb * 8 + b) % 3 ≠ 0 then (xb * 8 + b) * 4 / 3 + 1 else 0) ≠ 0
            ∧ 319 - (((xb * 8 + b) * 4 / 3 : Nat) : Int) > 0) := by simp [h3]
        have hc2 : ¬ ((if (xb * 8 + b) % 3 ≠ 0 then (xb * 8 + b) * 4 / 3 + 1 else 0) ≠ 0
            ∧ 319 - (xb * 8 + b) * 4 / 3 > 0) := by simp [h3]
        rw [if_neg hc1, if_neg hc2]
        rfl
      · have hc1 : (if (xb * 8 + b) % 3 ≠ 0 then (xb * 8 + b) * 4 / 3 + 1 else 0) ≠ 0
            ∧ 319 - (((xb * 8 + b) * 4 / 3 : Nat) : Int) > 0 := by
          rw [if_pos h3]; omega
        have hc2 : (if (xb * 8 + b) % 3 ≠ 0 then (xb * 8 + b) * 4 / 3 + 1 else 0) ≠ 0
            ∧ 319 - (xb * 8 + b) * 4 / 3 > 0 := by
          rw [if_pos h3]; omega
        rw [if_pos hc1, if_pos hc2]
        simp only [fb_writes, i2]
    · rw [if_neg hbit, if_neg hbit]
      rfl

theorem rot180_tie (src : List Nat) :
    fb_writes (rot180_accesses scale_tables src)
      = frame_writes (rot180_byte_writes scale_tables) src := by
  unfold rot180_accesses frame_writes
  rw [fb_writes_flatMap]
  apply List.flatMap_congr
  intro y hy
  rw [List.mem_range] at hy
  exact fb_writes_row_accesses src y _ _ (fun xb hxb byte => rot180_byte_tie y xb byte hy hxb)

theorem rot270_byte_tie (y xb byte : Nat) (hy : y < 240) (_hxb : xb < 30) (base fill : Int)
    (hbase : base = ((y * 4 / 3 : Nat) : Int)) (hfill : fill ≠ 0 ↔ y % 3 ≠ 0) :
    fb_writes (rot270_byte_accesses scale_tables base fill xb byte)
      = rot270_byte_writes scale_tables y xb byte := by
  unfold rot270_byte_accesses rot270_byte_writes
  rw [horizontal_320_map_get y hy, horizontal_320_fill_get y hy, hbase]
  by_cases h0 : byte = 0
  · simp [h0, fb_writes]
  · simp only [h0, if_false]
    rw [fb_writes_flatMap]
    apply List.flatMap_congr
    intro b hb
    rw [List.mem_range] at hb
    have e : ((239 : Int) - ((xb : Int) * 8 + (b : Int))).toNat = 239 - (xb * 8 + b) := by omega
    by_cases hbit : byte &&& (1 <<< b) ≠ 0
    · rw [if_pos hbit, if_pos hbit]
      simp only [with_table, fb_writes, e]
      have i1 : ((scale_tables.y_to_fb_offset.getD (239 - (xb * 8 + b)) 0 : Int)
          + ((y * 4 / 3 : Nat) : Int)).toNat
          = scale_tables.y_to_fb_offset.getD (239 - (xb * 8 + b)) 0 + y * 4 / 3 := by omega
      have i2 : ((scale_tables.y_to_fb_offset.getD (239 - (xb * 8 + b)) 0 : Int)
          + ((y * 4 / 3 : Nat) : Int) + 1).toNat
          = scale_tables.y_to_fb_offset.getD (239 - (xb * 8 + b)) 0 + y * 4 / 3 + 1 := by omega
      rw [i1]
      by_cases h3 : y % 3 = 0
      · have hc1 : ¬ (fill ≠ 0 ∧ ((y * 4 / 3 : Nat) : Int) < 319) :=
          fun h => (hfill.1 h.1) h3
        have hc2 : ¬ ((if y % 3 ≠ 0 then y * 4 / 3 + 1 else 0) ≠ 0 ∧ y * 4 / 3 < 319) := by
          simp [h3]
        rw [if_neg hc1, if_neg hc2]
        rfl
      · have hc1 : fill ≠ 0 ∧ ((y * 4 / 3 : Nat) : Int) < 319 := ⟨hfill.2 h3, by omega⟩
        have hc2 : (if y % 3 ≠ 0 then y * 4 / 3 + 1 else 0) ≠ 0 ∧ y * 4 / 3 < 319 := by
          rw [if_pos h3]; omega
        rw [if_pos hc1, if_pos hc2]
        simp only [fb_writes, i2]
    · rw [if_neg hbit, if_neg hbit]
      rfl

theorem rot270_tie (src : List Nat) :
    fb_writes (rot270_accesses scale_tables src)
      = frame_writes (rot270_byte_writes scale_tables) src := by
  unfold rot270_accesses frame_writes
  rw [fb_writes_flatMap]
  apply List.flatMap_congr
  intro y hy
  rw [List.mem_range] at hy
  simp only [with_table, fb_writes, Int.toNat_ofNat]
  rw [horizontal_320_map_get y hy, horizontal_320_fill_get y hy]
  refine fb_writes_row_accesses src y _ _ (fun xb hxb byte =>
    rot270_byte_tie y xb byte hy hxb _ _ (by unfold to_uint16; omega) ?_)
  unfold to_uint16
  by_cases h3 : y % 3 = 0
  · simp [h3]
  · rw [if_pos h3]
    constructor
    · intro _; exact h3
    · intro _; omega

theorem in_bounds_flatMap_range (len n : Nat) (f : Nat → List Access)
    (h : ∀ i, i < n → ∀ a ∈ f i, access_in_bounds len a) :
    ∀ a ∈ (List.range n).flatMap f, access_in_bounds len a := by
  intro a ha
  obtain ⟨i, hi, hmem⟩ := List.mem_flatMap.1 ha
  exact h i (List.mem_range.1 hi) a hmem

theorem in_bounds_cons (len : Nat) (x : Access) (l : List Access)
    (hx : access_in_bounds len x) (hl : ∀ a ∈ l, access_in_bounds len a) :
    ∀ a ∈ x :: l, access_in_bounds len a := by
  intro a ha
  rcases List.mem_cons.1 ha with h | h
  · rw [h]; exact hx
  · exact hl a h

theorem in_bounds_nil (len : Nat) : ∀ a ∈ ([] : List Access), access_in_bounds len a :=
  fun a ha => absurd ha (List.not_mem_nil a)

theorem in_bounds_append (len : Nat) (l1 l2 : List Access)
    (h1 : ∀ a ∈ l1, access_in_bounds len a) (h2 : ∀ a ∈ l2, access_in_bounds len a) :
    ∀ a ∈ l1 ++ l2, access_in_bounds len a := by
  intro a ha
  rcases List.mem_append.1 ha with h | h
  · exact h1 a h
  · exact h2 a h

theorem in_bounds_with_table (len : Nat) (tbl : List Nat) (i : Int) (k : Nat → List Access)
    (hi : 0 ≤ i ∧ i < 240) (hk : ∀ a ∈ k (tbl.getD i.toNat 0), access_in_bounds len a) :
    ∀ a ∈ with_table tbl i k, access_in_bounds len a :=
  in_bounds_cons len _ _ hi hk

theorem in_bounds_with_src (len : Nat) (src : List Nat) (i : Int) (k : Nat → List Access)
    (hi : 0 ≤ i ∧ i < (len : Int)) (hk : ∀ a ∈ k (src.getD i.toNat 0), access_in_bounds len a) :
    ∀ a ∈ with_src src i k, access_in_bounds len a :=
  in_bounds_cons len _ _ hi hk

theorem in_bounds_clear_accesses (len : Nat) : ∀ a ∈ clear_accesses, access_in_bounds len a := by
  unfold clear_accesses
  apply in_bounds_flatMap_range
  intro page hpage a ha
  obtain ⟨j, hj, rfl⟩ := List.mem_map.1 ha
  rw [List.mem_range] at hj
  show 0 ≤ _ ∧ _ < (FB_SIZE : Int)
  simp only [FB_SIZE, FB_PAGES, FB_COLS]
  omega

theorem in_bounds_row_accesses (src : List Nat) (y : Nat) (hy : y < 240)
    (f : Nat → Nat → List Access)
    (h : ∀ xb, xb < 30 → ∀ byte, ∀ a ∈ f xb byte, access_in_bounds 7200 a) :
    ∀ a ∈ row_accesses src y f, access_in_bounds 7200 a := by
  unfold row_accesses
  apply in_bounds_flatMap_range
  intro xb hxb
  apply in_bounds_with_src
  · omega
  · exact h xb hxb _

theorem rot0_byte_in_bounds (y xb byte : Nat) (hy : y < 240) (hxb : xb < 30) :
    ∀ a ∈ rot0_byte_accesses scale_tables y xb byte, access_in_bounds 7200 a := by
  unfold rot0_byte_accesses
  by_cases h0 : byte = 0
  · simp only [h0, if_true]
    exact in_bounds_nil _
  · simp only [h0, if_false]
    apply in_bounds_flatMap_range
    intro b hb
    have e : ((xb : Int) * 8 + (b : Int)).toNat = xb * 8 + b := by omega
    have hx : xb * 8 + b < 240 := by omega
    by_cases hbit : byte &&& (1 <<< b) ≠ 0
    · rw [if_pos hbit]
      apply in_bounds_with_table _ _ _ _ (by omega)
      rw [e, horizontal_320_map_get _ hx]
      apply in_bounds_cons
      · show 0 ≤ _ ∧ _ < (FB_SIZE : Int)
        simp only [FB_SIZE, FB_PAGES, FB_COLS]
        omega
      · apply in_bounds_with_table _ _ _ _ (by omega)
        rw [e, horizontal_320_fill_get _ hx]
        by_cases h3 : (xb * 8 + b) % 3 = 0
        · simp only [h3, ne_eq, not_true_eq_false, if_false]
          exact in_bounds_nil _
        · have hc : (if (xb * 8 + b) % 3 ≠ 0 then (xb * 8 + b) * 4 / 3 + 1 else 0) ≠ 0 := by
            rw [if_pos h3]; omega
          rw [if_pos hc]
          apply in_bounds_with_table _ _ _ _ (by omega)
          rw [e, horizontal_320_fill_get _ hx, if_pos h3]
          apply in_bounds_cons _ _ _ _ (in_bounds_nil _)
          show 0 ≤ _ ∧ _ < (FB_SIZE : Int)
          simp only [FB_SIZE, FB_PAGES, FB_COLS]
          omega
    · rw [if_neg hbit]
      exact in_bounds_nil _

theorem rot0_in_bounds (src : List Nat) :
    ∀ a ∈ rot0_accesses scale_tables src, access_in_bounds 7200 a := by
  unfold rot0_accesses
  apply in_bounds_flatMap_range
  intro y hy
  exact in_bounds_row_accesses src y hy _ (fun xb hxb byte => rot0_byte_in_bounds y xb byte hy hxb)

theorem rot90_byte_in_bounds (xb byte : Nat) (hxb : xb < 30) (base fill : Int)
    (hbase : 0 ≤ base ∧ base ≤ 319) :
    ∀ a ∈ rot90_byte_accesses scale_tables base fill xb byte, access_in_bounds 7200 a := by
  unfold rot90_byte_accesses
  by_cases h0 : byte = 0
  · simp only [h0, if_true]
    exact in_bounds_nil _
  · simp only [h0, if_false]
    apply in_bounds_flatMap_range
    intro b hb
    have e : ((xb : Int) * 8 + (b : Int)).toNat = xb * 8 + b := by omega
    have hx : xb * 8 + b < 240 := by omega
    by_cases hbit : byte &&& (1 <<< b) ≠ 0
    · rw [if_pos hbit]
      apply in_bounds_with_table _ _ _ _ (by omega)
      rw [e, y_to_fb_offset_get _ hx]
      apply in_bounds_with_table _ _ _ _ (by omega)
      apply in_bounds_cons
      · show 0 ≤ _ ∧ _ < (FB_SIZE : Int)
        simp only [FB_SIZE, FB_PAGES, FB_COLS]
        omega
      · by_cases hc : fill ≠ 0 ∧ base > 0
        · rw [if_pos hc]
          apply in_bounds_cons _ _ _ _ (in_bounds_nil _)
          show 0 ≤ _ ∧ _ < (FB_SIZE : Int)
          simp only [FB_SIZE, FB_PAGES, FB_COLS]
          omega
        · rw [if_neg hc]
          exact in_bounds_nil _
    · rw [if_neg hbit]
      exact in_bounds_nil _

theorem rot90_in_bounds (src : List Nat) :
    ∀ a ∈ rot90_accesses scale_tables src, access_in_bounds 7200 a := by
  unfold rot90_accesses
  apply in_bounds_flatMap_range
  intro y hy
  apply in_bounds_with_table _ _ _ _ (by omega)
  rw [Int.toNat_ofNat, horizontal_320_map_get y hy]
  have heq : to_uint16 (319 - ((y * 4 / 3 : Nat) : Int)) = ((319 - y * 4 / 3 : Nat) : Int) := by
    unfold to_uint16; omega
  have hbase : 0 ≤ to_uint16 (319 - ((y * 4 / 3 : Nat) : Int)) ∧
      to_uint16 (319 - ((y * 4 / 3 : Nat) : Int)) ≤ 319 := by
    rw [heq]; omega
  apply in_bounds_with_table _ _ _ _ (by omega)
  split_ifs
  · apply in_bounds_with_table _ _ _ _ (by omega)
    exact in_bounds_row_accesses src y hy _
      (fun xb hxb byte => rot90_byte_in_bounds xb byte hxb _ _ hbase)
  · exact in_bounds_row_accesses src y hy _
      (fun xb hxb byte => rot90_byte_in_bounds xb byte hxb _ _ hbase)

theorem rot180_byte_in_bounds (y xb byte : Nat) (hy : y < 240) (hxb : xb < 30) :
    ∀ a ∈ rot180_byte_accesses scale_tables y xb byte, access_in_bounds 7200 a := by
  unfold rot180_byte_accesses
  have hd : Int.tdiv (239 - (y : Int)) 8 = (((239 - y) / 8 : Nat) : Int) := by
    rw [Int.tdiv_eq_ediv (by omega) (by omega)]
    omega
  by_cases h0 : byte = 0
  · simp only [h0, if_true]
    exact in_bounds_nil _
  · simp only [h0, if_false]
    apply in_bounds_flatMap_range
    intro b hb
    have e : ((xb : Int) * 8 + (b : Int)).toNat = xb * 8 + b := by omega
    have hx : xb * 8 + b < 240 := by omega
    by_cases hbit : byte &&& (1 <<< b) ≠ 0
    · rw [if_pos hbit]
      apply in_bounds_with_table _ _ _ _ (by omega)
      rw [e, horizontal_320_map_get _ hx, hd]
      apply in_bounds_cons
      · show 0 ≤ _ ∧ _ < (FB_SIZE : Int)
        simp only [FB_SIZE, FB_PAGES, FB_COLS]
        omega
      · apply in_bounds_with_table _ _ _ _ (by omega)
        split_ifs with hc
        · apply in_bounds_cons _ _ _ _ (in_bounds_nil _)
          show 0 ≤ _ ∧ _ < (FB_SIZE : Int)
          simp only [FB_SIZE, FB_PAGES, FB_COLS]
          omega
        · exact in_bounds_nil _
    · rw [if_neg hbit]
      exact in_bounds_nil _

theorem rot180_in_bounds (src : List Nat) :
    ∀ a ∈ rot180_accesses scale_tables src, access_in_bounds 7200 a := by
  unfold rot180_accesses
  apply in_bounds_flatMap_range
  intro y hy
  exact in_bounds_row_accesses src y hy _
    (fun xb hxb byte => rot180_byte_in_bounds y xb byte hy hxb)

theorem rot270_byte_in_bounds (xb byte : Nat) (hxb : xb < 30) (base fill : Int)
    (hbase : 0 ≤ base ∧ base ≤ 318) :
    ∀ a ∈ rot270_byte_accesses scale_tables base fill xb byte, access_in_bounds 7200 a := by
  unfold rot270_byte_accesses
  by_cases h0 : byte = 0
  · simp only [h0, if_true]
    exact in_bounds_nil _
  · simp only [h0, if_false]
    apply in_bounds_flatMap_range
    intro b hb
    have e : ((239 : Int) - ((xb : Int) * 8 + (b : Int))).toNat = 239 - (xb * 8 + b) := by omega
    have hx : 239 - (xb * 8 + b) < 240 := by omega
    by_cases hbit : byte &&& (1 <<< b) ≠ 0
    · rw [if_pos hbit]
      apply in_bounds_with_table _ _ _ _ (by omega)
      rw [e, y_to_fb_offset_get _ hx]
      apply in_bounds_with_table _ _ _ _ (by omega)
      apply in_bounds_cons
      · show 0 ≤ _ ∧ _ < (FB_SIZE : Int)
        simp only [FB_SIZE, FB_PAGES, FB_COLS]
        omega
      · split_ifs with hc
        · apply in_bounds_cons _ _ _ _ (in_bounds_nil _)
          show 0 ≤ _ ∧ _ < (FB_SIZE : Int)
          simp only [FB_SIZE, FB_PAGES, FB_COLS]
          omega
        · exact in_bounds_nil _
    · rw [if_neg hbit]
      exact in_bounds_nil _

theorem rot270_in_bounds (src : List Nat) :
    ∀ a ∈ rot270_accesses scale_tables src, access_in_bounds 7200 a := by
  unfold rot270_accesses
  apply in_bounds_flatMap_range
  intro y hy
  apply in_bounds_with_table _ _ _ _ (by omega)
  rw [Int.toNat_ofNat, horizontal_320_map_get y hy]
  apply in_bounds_with_table _ _ _ _ (by omega)
  have heq : to_uint16 ((y * 4 / 3 : Nat) : Int) = ((y * 4 / 3 : Nat) : Int) := by
    unfold to_uint16; omega
  have hbase : 0 ≤ to_uint16 ((y * 4 / 3 : Nat) : Int) ∧
      to_uint16 ((y * 4 / 3 : Nat) : Int) ≤ 318 := by
    rw [heq]; omega
  exact in_bounds_row_accesses src y hy _
    (fun xb hxb byte => rot270_byte_in_bounds xb byte hxb _ _ hbase)

theorem transform_accesses_writes (rotation : Nat) (src : List Nat) (fb : Nat → Nat) :
    transform_output rotation src fb
      = apply_writes (fb_writes (transform_accesses scale_tables rotation src))
          (clear_display_area fb) := by
  unfold transform_accesses
  rw [fb_writes_append, fb_writes_clear_accesses, List.nil_append]
  obtain h | h | h | h | h :
      rotation = 0 ∨ rotation = 1 ∨ rotation = 2 ∨ rotation = 3 ∨ 3 < rotation := by omega
  · subst h
    rw [if_pos rfl, rot0_tie, transform_output_rot0]
  · subst h
    rw [if_neg (by decide), if_pos rfl, rot90_tie, transform_output_rot90]
  · subst h
    rw [if_neg (by decide), if_neg (by decide), if_pos rfl, rot180_tie, transform_output_rot180]
  · subst h
    rw [if_neg (by decide), if_neg (by decide), if_neg (by decide), if_pos rfl, rot270_tie,
      transform_output_rot270]
  · rw [if_neg (by omega), if_neg (by omega), if_neg (by omega), if_neg (by omega),
      fb_writes_append, fb_writes_clear_accesses, List.nil_append, rot0_tie,
      transform_output_unknown rotation h, transform_output_rot0]

set_option maxRecDepth 100000 in
/-- At 180 degrees the source pixel `(239, 239)` is written at framebuffer
index 1 and its fill write, at `dst_x - 1`, reaches index 0. -/
theorem rot180_fill_write_at_index_zero :
    rot180_byte_accesses scale_tables 239 29 128
      = [.table_read 239, .fb_or 1 1, .table_read 239, .fb_or 0 1] := by
  decide

set_option maxRecDepth 100000 in
/-- At 270 degrees, in source row 239 (`dst_x_base = 318`, `dst_x_fill = 319`),
the source pixel `(0, 239)` is written at framebuffer index 9598 and its fill
write, at `fb_ptr + 1`, reaches index 9599. -/
theorem rot270_fill_write_at_last_index :
    rot270_byte_accesses scale_tables 318 319 0 1
      = [.table_read 239, .table_read 239, .fb_or 9598 128, .fb_or 9599 128] := by
  decide

/-- C35: for every 7,200-byte source and every rotation mode, each access in
the transform's sequence of array accesses is in bounds: every offset read from
the source lies in `[0, 7200)`, every index used on a lookup table lies in
`[0, 240)`, the length of each of the tables read, and every framebuffer index,
of the clearing loop and of every `|=` statement including the fill writes at
`- 1` and `+ 1`, lies in `[0, 9600)`. The indices are signed integers, so a
negative index would violate the bound. The `|=` statements of the sequence are
the writes of the transform: applied in order to the cleared buffer they give
its output. -/
theorem transform_accesses_in_bounds (rotation : Nat) (src : List Nat)
    (hlen : src.length = 7200) :
    (∀ a ∈ transform_accesses scale_tables rotation src, access_in_bounds src.length a) ∧
    (scale_tables.horizontal_320_map.length = 240 ∧
      scale_tables.horizontal_320_fill.length = 240 ∧
      scale_tables.y_to_fb_offset.length = 240 ∧
      scale_tables.y_to_bit_mask.length = 240) ∧
    (∀ fb, transform_output rotation src fb
      = apply_writes (fb_writes (transform_accesses scale_tables rotation src))
          (clear_display_area fb)) ∧
    (fb_writes (rot0_accesses scale_tables src)
        = frame_writes (rot0_byte_writes scale_tables) src ∧
      fb_writes (rot90_accesses scale_tables src)
        = frame_writes (rot90_byte_writes scale_tables) src ∧
      fb_writes (rot180_accesses scale_tables src)
        = frame_writes (rot180_byte_writes scale_tables) src ∧
      fb_writes (rot270_accesses scale_tables src)
        = frame_writes (rot270_byte_writes scale_tables) src) := by
  refine ⟨?_, ?_, fun fb => transform_accesses_writes rotation src fb,
    rot0_tie src, rot90_tie src, rot180_tie src, rot270_tie src⟩
  · rw [hlen]
    unfold transform_accesses
    apply in_bounds_append _ _ _ (in_bounds_clear_accesses _)
    split_ifs
    · exact rot0_in_bounds src
    · exact rot90_in_bounds src
    · exact rot180_in_bounds src
    · exact rot270_in_bounds src
    · exact in_bounds_append _ _ _ (in_bounds_clear_accesses _) (rot0_in_bounds src)
  · refine ⟨?_, ?_, ?_, ?_⟩
    · show ((List.range 240).map (fun i => (i * 4) / 3)).length = 240
      rw [List.length_map, List.length_range]
    · show ((List.range 240).map (fun i => if i % 3 ≠ 0 then (i * 4) / 3 + 1 else 0)).length
        = 240
      rw [List.length_map, List.length_range]
    · show ((List.range 240).map (fun i => (i / 8) * FB_COLS)).length = 240
      rw [List.length_map, List.length_range]
    · show ((List.range 240).map (fun i => 1 <<< (i % 8))).length = 240
      rw [List.length_map, List.length_range]

/-- C35 at the all-set source frame and rotation 90. -/
theorem transform_accesses_in_bounds_witness :
    all_set_source.length = 7200 ∧
    (∀ a ∈ transform_accesses scale_tables 1 all_set_source,
      access_in_bounds all_set_source.length a) :=
  ⟨List.length_replicate 7200 255,
    (transform_accesses_in_bounds 1 all_set_source (List.length_replicate 7200 255)).1⟩

/-! ## Recovery of the source from the output -/

theorem recover_col_lt (x : Nat) (hx : x < 240) : recover_col x < 320 := by
  unfold recover_col
  split_ifs <;> omega

theorem rot0_recover (src : List Nat) (fb : Nat → Nat) (x y : Nat) (hx : x < 240)
    (hy : y < 240) :
    target_pixel (transform_output 0 src fb) (recover_col x) y = source_pixel src x y := by
  have hlt := recover_col_lt x hx
  rw [Bool.eq_iff_iff, target_pixel_rot0_iff src fb _ y hlt hy]
  unfold recover_col at hlt ⊢
  constructor
  · rintro ⟨x2, hx2, hpix, hcase⟩
    have hxx : x2 = x := by
      have hr : x % 3 = 0 ∨ x % 3 = 1 ∨ x % 3 = 2 := by omega
      have hr2 : x2 % 3 = 0 ∨ x2 % 3 = 1 ∨ x2 % 3 = 2 := by omega
      split_ifs at hcase <;> rcases hr with hr | hr | hr <;>
        rcases hr2 with hr2 | hr2 | hr2 <;> omega
    rw [← hxx]; exact hpix
  · intro hpix
    refine ⟨x, hx, hpix, ?_⟩
    split_ifs <;> omega

theorem rot90_recover (src : List Nat) (fb : Nat → Nat) (x y : Nat) (hx : x < 240)
    (hy : y < 240) :
    target_pixel (transform_output 1 src fb) (319 - recover_col y) x = source_pixel src x y := by
  have hlt := recover_col_lt y hy
  rw [Bool.eq_iff_iff, target_pixel_rot90_iff src fb _ x (by omega) hx]
  unfold recover_col at hlt ⊢
  constructor
  · rintro ⟨y2, hy2, hpix, hcase⟩
    have hyy : y2 = y := by
      have hr : y % 3 = 0 ∨ y % 3 = 1 ∨ y % 3 = 2 := by omega
      have hr2 : y2 % 3 = 0 ∨ y2 % 3 = 1 ∨ y2 % 3 = 2 := by omega
      split_ifs at hcase hlt <;> rcases hr with hr | hr | hr <;>
        rcases hr2 with hr2 | hr2 | hr2 <;> omega
    rw [← hyy]; exact hpix
  · intro hpix
    refine ⟨y, hy, hpix, ?_⟩
    split_ifs at hlt ⊢ <;> omega

theorem rot180_recover (src : List Nat) (fb : Nat → Nat) (x y : Nat) (hx : x < 240)
    (hy : y < 240) :
    target_pixel (transform_output 2 src fb) (319 - recover_col x) (239 - y)
      = source_pixel src x y := by
  have hlt := recover_col_lt x hx
  rw [target_pixel_rot180 src fb fb _ _ (by omega) (by omega)]
  have h1 : 319 - (319 - recover_col x) = recover_col x := by omega
  have h2 : 239 - (239 - y) = y := by omega
  rw [h1, h2]
  exact rot0_recover src fb x y hx hy

theorem rot270_recover (src : List Nat) (fb : Nat → Nat) (x y : Nat) (hx : x < 240)
    (hy : y < 240) :
    target_pixel (transform_output 3 src fb) (recover_col y) (239 - x)
      = source_pixel src x y := by
  have hlt := recover_col_lt y hy
  rw [target_pixel_rot270 src fb fb _ _ hlt (by omega)]
  have h2 : 239 - (239 - x) = x := by omega
  rw [h2]
  exact rot90_recover src fb x y hx hy

theorem target_pixel_congr (o1 o2 : Nat → Nat) (h : ∀ idx, idx < FB_SIZE → o1 idx = o2 idx)
    (X Y : Nat) (hX : X < 320) (hY : Y < 240) : target_pixel o1 X Y = target_pixel o2 X Y := by
  unfold target_pixel
  rw [h _ (by simp only [FB_SIZE, FB_PAGES, FB_COLS]; omega)]

theorem source_eq_of_pixels (src1 src2 : List Nat) (h1 : src1.length = 7200)
    (h2 : src2.length = 7200) (hb1 : ∀ b ∈ src1, b < 256) (hb2 : ∀ b ∈ src2, b < 256)
    (hpx : ∀ x y, x < 240 → y < 240 → source_pixel src1 x y = source_pixel src2 x y) :
    src1 = src2 := by
  apply List.ext_getElem (by rw [h1, h2])
  intro j hj1 hj2
  have hj : j < 7200 := by omega
  apply Nat.eq_of_testBit_eq
  intro k
  by_cases hk : k < 8
  · have h := hpx (8 * (j % 30) + k) (j / 30) (by omega) (by omega)
    unfold source_pixel at h
    have hi : j / 30 * 30 + (8 * (j % 30) + k) / 8 = j := by omega
    have hm : (8 * (j % 30) + k) % 8 = k := by omega
    rw [hi, hm, List.getD_eq_getElem _ _ hj1, List.getD_eq_getElem _ _ hj2] at h
    exact h
  · have hp : (2 : Nat) ^ 8 ≤ 2 ^ k := Nat.pow_le_pow_right (by omega) (by omega)
    have e1 : src1[j] < 2 ^ k :=
      lt_of_lt_of_le (hb1 _ (List.getElem_mem hj1)) hp
    have e2 : src2[j] < 2 ^ k :=
      lt_of_lt_of_le (hb2 _ (List.getElem_mem hj2)) hp
    rw [Nat.testBit_lt_two_pow e1, Nat.testBit_lt_two_pow e2]

theorem transform_output_recover (rotation : Nat) :
    ∃ RX RY : Nat → Nat → Nat, ∀ x y, x < 240 → y < 240 →
      RX x y < 320 ∧ RY x y < 240 ∧
      ∀ (s : List Nat) (g : Nat → Nat),
        target_pixel (transform_output rotation s g) (RX x y) (RY x y) = source_pixel s x y := by
  obtain h | h | h | h | h :
      rotation = 0 ∨ rotation = 1 ∨ rotation = 2 ∨ rotation = 3 ∨ 3 < rotation := by omega
  · subst h
    exact ⟨fun x _ => recover_col x, fun _ y => y, fun x y hx hy =>
      ⟨recover_col_lt x hx, hy, fun s g => rot0_recover s g x y hx hy⟩⟩
  · subst h
    exact ⟨fun _ y => 319 - recover_col y, fun x _ => x, fun x y hx hy =>
      ⟨by have := recover_col_lt y hy; show 319 - recover_col y < 320; omega, hx,
        fun s g => rot90_recover s g x y hx hy⟩⟩
  · subst h
    exact ⟨fun x _ => 319 - recover_col x, fun _ y => 239 - y, fun x y hx hy =>
      ⟨by have := recover_col_lt x hx; show 319 - recover_col x < 320; omega,
        by show 239 - y < 240; omega, fun s g => rot180_recover s g x y hx hy⟩⟩
  · subst h
    exact ⟨fun _ y => recover_col y, fun x _ => 239 - x, fun x y hx hy =>
      ⟨recover_col_lt y hy, by show 239 - x < 240; omega,
        fun s g => rot270_recover s g x y hx hy⟩⟩
  · exact ⟨fun x _ => recover_col x, fun _ y => y, fun x y hx hy =>
      ⟨recover_col_lt x hx, hy, fun s g => by
        rw [transform_output_unknown rotation h]
        exact rot0_recover s g x y hx hy⟩⟩

/-- C36: for every rotation mode, two different 7,200-byte sources (every byte
below 256) give outputs that differ at some index of the 9,600-byte buffer,
whatever the buffers held before. Every source pixel `(x, y)` can be read back
from the output: at 0 degrees it is destination pixel `(c(x), y)`, where `c`
sends columns `3k`, `3k + 1`, `3k + 2` to `4k`, `4k + 1`, `4k + 3`; at 90
degrees `(319 - c(y), x)`; at 180 degrees `(319 - c(x), 239 - y)`; at 270
degrees `(c(y), 239 - x)`. -/
theorem transform_injective (rotation : Nat) (src1 src2 : List Nat) (fb1 fb2 : Nat → Nat)
    (h1 : src1.length = 7200) (h2 : src2.length = 7200)
    (hb1 : ∀ b ∈ src1, b < 256) (hb2 : ∀ b ∈ src2, b < 256) (hne : src1 ≠ src2) :
    (∃ idx, idx < FB_SIZE ∧
      transform_output rotation src1 fb1 idx ≠ transform_output rotation src2 fb2 idx) ∧
    (∀ x y, x < 240 → y < 240 →
      target_pixel (transform_output 0 src1 fb1) (recover_col x) y = source_pixel src1 x y ∧
      target_pixel (transform_output 1 src1 fb1) (319 - recover_col y) x
        = source_pixel src1 x y ∧
      target_pixel (transform_output 2 src1 fb1) (319 - recover_col x) (239 - y)
        = source_pixel src1 x y ∧
      target_pixel (transform_output 3 src1 fb1) (recover_col y) (239 - x)
        = source_pixel src1 x y) := by
  refine ⟨?_, fun x y hx hy => ⟨rot0_recover src1 fb1 x y hx hy,
    rot90_recover src1 fb1 x y hx hy, rot180_recover src1 fb1 x y hx hy,
    rot270_recover src1 fb1 x y hx hy⟩⟩
  by_contra hcon
  apply hne
  have hall : ∀ idx, idx < FB_SIZE →
      transform_output rotation src1 fb1 idx = transform_output rotation src2 fb2 idx := by
    intro idx hidx
    by_contra hd
    exact hcon ⟨idx, hidx, hd⟩
  obtain ⟨RX, RY, hR⟩ := transform_output_recover rotation
  apply source_eq_of_pixels src1 src2 h1 h2 hb1 hb2
  intro x y hx hy
  obtain ⟨hX, hY, hrec⟩ := hR x y hx hy
  rw [← hrec src1 fb1, ← hrec src2 fb2]
  exact target_pixel_congr _ _ hall _ _ hX hY

/-- C36 at the all-set and the all-clear source frame, rotation 90. -/
theorem transform_injective_witness :
    List.replicate 7200 255 ≠ List.replicate 7200 0 ∧
    ∃ idx, idx < FB_SIZE ∧
      transform_output 1 (List.replicate 7200 255) (fun _ => 0) idx ≠
        transform_output 1 (List.replicate 7200 0) (fun _ => 0) idx :=
  have hne : List.replicate 7200 255 ≠ List.replicate 7200 0 := fun h =>
    absurd (List.eq_of_mem_replicate (h ▸ List.mem_replicate.2 ⟨by decide, rfl⟩ :
      255 ∈ List.replicate 7200 0)) (by decide)
  ⟨hne, (transform_injective 1 (List.replicate 7200 255) (List.replicate 7200 0)
    (fun _ => 0) (fun _ => 0) (List.length_replicate 7200 255) (List.length_replicate 7200 0)
    (fun b hb => by rw [List.eq_of_mem_replicate hb]; decide)
    (fun b hb => by rw [List.eq_of_mem_replicate hb]; decide) hne).1⟩

end FlukeLcd
